import Mathlib

/-!
Verification of the slapd search-filter evaluator.

Shallow embedding of `servers/slapd/filterentry.c` (OpenLDAP): the functions
`test_filter`, `test_filter_and`, `test_filter_or`, `test_ava_filter`,
`test_presence_filter`, `test_substrings_filter` and `test_mra_filter`.

Results are C `int`s and are kept as `Int`: a result is a truth value
(`LDAP_COMPARE_TRUE`, `LDAP_COMPARE_FALSE`, `SLAPD_COMPARE_UNDEFINED`) or an
LDAP result code.  The collaborators that live outside the file (access
oracle, value matcher, schema registry, normalizer, DN parser) are the fields
of the record `Env`; every theorem quantifies over them.
-/

namespace Slapd

/-! ## Result codes and filter tags

The constants are declared in `ldap.h` and `slap.h`, which are not part of the
sources at hand; the numbers are the protocol result codes of RFC 4511 and the
BER tags of the filter choices. -/

/-- Modelled from the spec: result code `success` of RFC 4511 (declared in ldap.h). -/
def LDAP_SUCCESS : Int := 0

/-- Modelled from the spec: result code `protocolError` of RFC 4511 (declared in ldap.h). -/
def LDAP_PROTOCOL_ERROR : Int := 2

/-- Modelled from the spec: result code `compareFalse` of RFC 4511, the truth value FALSE. -/
def LDAP_COMPARE_FALSE : Int := 5

/-- Modelled from the spec: result code `compareTrue` of RFC 4511, the truth value TRUE. -/
def LDAP_COMPARE_TRUE : Int := 6

/-- Modelled from the spec: result code `inappropriateMatching` of RFC 4511. -/
def LDAP_INAPPROPRIATE_MATCHING : Int := 18

/-- Modelled from the spec: result code `invalidAttributeSyntax` of RFC 4511. -/
def LDAP_INVALID_SYNTAX : Int := 21

/-- Modelled from the spec: result code `insufficientAccessRights` of RFC 4511. -/
def LDAP_INSUFFICIENT_ACCESS : Int := 50

/-- Modelled from the spec: result code `other` of RFC 4511. -/
def LDAP_OTHER : Int := 80

/-- Modelled from the spec: the truth value UNDEFINED, `((ber_int_t) -1)` in slap.h. -/
def SLAPD_COMPARE_UNDEFINED : Int := -1

/-- Modelled from the spec: BER tag of the `equalityMatch` filter choice (ldap.h). -/
def LDAP_FILTER_EQUALITY : Int := 0xa3

/-- Modelled from the spec: BER tag of the `greaterOrEqual` filter choice (ldap.h). -/
def LDAP_FILTER_GE : Int := 0xa5

/-- Modelled from the spec: BER tag of the `lessOrEqual` filter choice (ldap.h). -/
def LDAP_FILTER_LE : Int := 0xa6

/-- Modelled from the spec: BER tag of the `approxMatch` filter choice (ldap.h). -/
def LDAP_FILTER_APPROX : Int := 0xa8

/-! ## Data model -/

/-- A `struct berval`: a counted byte string. -/
abbrev berval := List Nat

/-- Modelled from the spec: the canonical bytes of the boolean TRUE (`slap_true_bv`). -/
def slap_true_bv : berval := [84, 82, 85, 69]

/-- Modelled from the spec: the canonical bytes of the boolean FALSE (`slap_false_bv`). -/
def slap_false_bv : berval := [70, 65, 76, 83, 69]

/-- Modelled from the spec: `bvmatch` compares two bervals byte for byte. -/
def bvmatch (a b : berval) : Bool := decide (a = b)

/-- A matching rule.  Rules are compared by pointer in the code; the field
`smr_oid` stands for that identity. -/
structure MatchingRule where
  smr_oid : Nat
  smr_usage : Nat
deriving DecidableEq, Repr

/-- An attribute type with its four (nullable) matching rules. -/
structure AttributeType where
  sat_equality : Option MatchingRule
  sat_approx : Option MatchingRule
  sat_ordering : Option MatchingRule
  sat_substr : Option MatchingRule
deriving DecidableEq, Repr

/-- An attribute description.  Descriptions are compared by pointer in the
code; the field `ad_cname` stands for that identity. -/
structure AttributeDescription where
  ad_cname : Nat
  ad_type : AttributeType
deriving DecidableEq, Repr

/-- One attribute of an entry: raw values `a_vals` and normalized values
`a_nvals` (NULL-terminated arrays in C, lists here).  The link `a_next` is the
tail of the list that holds the attribute. -/
structure Attribute where
  a_desc : AttributeDescription
  a_vals : List berval
  a_nvals : List berval
deriving DecidableEq, Repr

/-- A directory entry: raw DN, normalized DN and the attribute list. -/
structure Entry where
  e_name : berval
  e_nname : berval
  e_attrs : List Attribute
deriving DecidableEq, Repr

/-- An attribute value assertion `{aa_desc, aa_value}`. -/
structure AttributeAssertion where
  aa_desc : AttributeDescription
  aa_value : berval
deriving DecidableEq, Repr

/-- A substrings assertion: description and the initial / any / final pieces. -/
structure SubstringsAssertion where
  sa_desc : AttributeDescription
  sa_initial : Option berval
  sa_any : List berval
  sa_final : Option berval
deriving DecidableEq, Repr

/-- A matching rule assertion.  `ma_rule` is dereferenced unconditionally by the
code, so it is not nullable here; `ma_cf` is the component filter, kept as a
token. -/
structure MatchingRuleAssertion where
  ma_desc : Option AttributeDescription
  ma_rule : MatchingRule
  ma_dnattrs : Bool
  ma_value : berval
  ma_cf : Option Nat
deriving DecidableEq, Repr

/-- One AVA of a parsed DN: `la_private` is the attribute description the DN
parser attached (the code asserts it to be set), `la_value` the value. -/
structure LDAPAVA where
  la_private : AttributeDescription
  la_value : berval
deriving DecidableEq, Repr

/-- A parsed RDN: the list of its AVAs. -/
abbrev LDAPRDN := List LDAPAVA

/-- A parsed DN: the list of its RDNs. -/
abbrev LDAPDN := List LDAPRDN

/-- The backend of an operation; `be_has_subordinates` is the optional hook,
returning its status and the value it stores in the out parameter. -/
structure BackendDB where
  be_has_subordinates : Option (Entry → Int × Int)

/-- An operation context; `o_bd` may be NULL. -/
structure Operation where
  o_bd : Option BackendDB

/-- The stored-value argument of `value_match`: a berval, or (component
matching) the attribute itself passed through a cast. -/
inductive MatchValue where
  | bv (v : berval)
  | attr (a : Attribute)
deriving DecidableEq, Repr

/-- The asserted-value argument of `value_match` (a `void *` in C): a berval, a
substrings assertion, or (component matching) the whole matching rule
assertion. -/
inductive AssertedValue where
  | bv (v : berval)
  | sub (s : SubstringsAssertion)
  | mra (m : MatchingRuleAssertion)
deriving DecidableEq, Repr

/-- What `value_match` hands back: its return status and the integer it stores
through the first argument. -/
structure MatchOutcome where
  status : Int
  cmp : Int
deriving DecidableEq, Repr

/-- The well-known descriptors of `slap_schema`.  The code asserts that the
equality rule of `entryDN` is set (`assert( mr )`); the record carries that
invariant, and the fact that the three descriptors are three different schema
objects (the code tells them apart by pointer). -/
structure SlapSchema where
  si_ad_entryDN : AttributeDescription
  si_ad_hasSubordinates : AttributeDescription
  si_ad_subschemaSubentry : AttributeDescription
  entryDN_equality : si_ad_entryDN.ad_type.sat_equality.isSome = true
  entryDN_ne_hasSubordinates : si_ad_entryDN ≠ si_ad_hasSubordinates
  subschemaSubentry_ne_hasSubordinates : si_ad_subschemaSubentry ≠ si_ad_hasSubordinates
  entryDN_ne_subschemaSubentry : si_ad_entryDN ≠ si_ad_subschemaSubentry

/-- The collaborators of the evaluator and the build configuration.
`access_allowed` is always called with `ACL_SEARCH`; the value is `none` for a
NULL value.  The normalizer is always called with the same flags and returns
its status and the normalized value.  `dnPrettyDN` returns its status and the
parsed DN.  `LDAP_COMP_MATCH` tells whether the component-matching code is
compiled in, `SLAP_MR_COMPONENT` is the usage bit tested there. -/
structure Env where
  slap_schema : SlapSchema
  access_allowed : Option Operation → Entry → AttributeDescription → Option berval → Bool
  value_match : AttributeDescription → MatchingRule → Nat → MatchValue → AssertedValue → MatchOutcome
  is_ad_subtype : AttributeDescription → AttributeDescription → Bool
  mr_usable_with_at : MatchingRule → AttributeType → Bool
  asserted_value_validate_normalize : AttributeDescription → MatchingRule → berval → Int × berval
  dnPrettyDN : berval → Int × LDAPDN
  LDAP_COMP_MATCH : Bool
  SLAP_MR_COMPONENT : Nat

/-- A search filter: one constructor per value of `f_choice` that the evaluator
knows, `UNKNOWN` for any other tag.  The children of AND / OR are the chain
linked through `f_next`. -/
inductive Filter where
  | COMPUTED (f_result : Int)
  | EQUALITY (f_ava : AttributeAssertion)
  | SUBSTRINGS (f_sub : SubstringsAssertion)
  | GE (f_ava : AttributeAssertion)
  | LE (f_ava : AttributeAssertion)
  | PRESENT (f_desc : AttributeDescription)
  | APPROX (f_ava : AttributeAssertion)
  | AND (f_and : List Filter)
  | OR (f_or : List Filter)
  | NOT (f_not : Filter)
  | EXT (f_mra : MatchingRuleAssertion)
  | UNKNOWN (f_choice : Nat)

/-- Modelled from the spec: `attrs_find` (attr.c) used as a stream: the
attributes of the list whose description is `desc` or a subtype of it, in list
order.  The loops `for (a = attrs_find(e->e_attrs, desc); a; a =
attrs_find(a->a_next, desc))` visit exactly these. -/
def attrs_find (env : Env) (l : List Attribute) (desc : AttributeDescription) : List Attribute :=
  l.filter (fun a => decide (a.a_desc = desc) || env.is_ad_subtype a.a_desc desc)

/-- The test `op && op->o_bd && op->o_bd->be_has_subordinates`: the hook when
all three pointers are set. -/
def has_subordinates_hook (op : Option Operation) : Option (Entry → Int × Int) :=
  match op with
  | none => none
  | some o =>
    match o.o_bd with
    | none => none
    | some bd => bd.be_has_subordinates

/-- How a loop of the leaf evaluators ends: the function returned from inside
the loop (`ret`), or the loop was left with the local `rc` (`next`). -/
inductive Flow where
  | ret (rc : Int)
  | next (rc : Int)
deriving DecidableEq, Repr

/-! ## test_ava_filter -/

/-- The rule selection `switch ( type )` of `test_ava_filter`: APPROX takes the
approx rule and falls through to the equality rule when there is none. -/
def ava_rule (type : Int) (ty : AttributeType) : Option MatchingRule :=
  if type = LDAP_FILTER_APPROX then
    match ty.sat_approx with
    | some mr => some mr
    | none => ty.sat_equality
  else if type = LDAP_FILTER_EQUALITY then ty.sat_equality
  else if type = LDAP_FILTER_GE ∨ type = LDAP_FILTER_LE then ty.sat_ordering
  else none

/-- The second `switch ( type )`: does the match integer satisfy the filter. -/
def ava_hit (type : Int) (cmp : Int) : Bool :=
  if type = LDAP_FILTER_EQUALITY ∨ type = LDAP_FILTER_APPROX then decide (cmp = 0)
  else if type = LDAP_FILTER_GE then decide (cmp ≥ 0)
  else if type = LDAP_FILTER_LE then decide (cmp ≤ 0)
  else false

/-- The value loop of `test_ava_filter` over `a->a_nvals`. -/
def test_ava_values (env : Env) (ava : AttributeAssertion) (type : Int)
    (a : Attribute) (mr : MatchingRule) (rc : Int) : List berval → Flow
  | [] => Flow.next rc
  | bv :: bvs =>
    let r := env.value_match a.a_desc mr 0 (MatchValue.bv bv) (AssertedValue.bv ava.aa_value)
    if r.status ≠ LDAP_SUCCESS then Flow.next r.status
    else if ava_hit type r.cmp then Flow.ret LDAP_COMPARE_TRUE
    else test_ava_values env ava type a mr rc bvs

/-- The attribute loop of `test_ava_filter`, over the stream of `attrs_find`. -/
def test_ava_attrs (env : Env) (op : Option Operation) (e : Entry)
    (ava : AttributeAssertion) (type : Int) : Int → List Attribute → Int
  | rc, [] => rc
  | rc, a :: rest =>
    if ava.aa_desc ≠ a.a_desc ∧ env.access_allowed op e a.a_desc (some ava.aa_value) = false then
      test_ava_attrs env op e ava type LDAP_INSUFFICIENT_ACCESS rest
    else
      match ava_rule type a.a_desc.ad_type with
      | none => test_ava_attrs env op e ava type LDAP_INAPPROPRIATE_MATCHING rest
      | some mr =>
        match test_ava_values env ava type a mr rc a.a_nvals with
        | Flow.ret v => v
        | Flow.next rc1 => test_ava_attrs env op e ava type rc1 rest

/-- The function `test_ava_filter`. -/
def test_ava_filter (env : Env) (op : Option Operation) (e : Entry)
    (ava : AttributeAssertion) (type : Int) : Int :=
  if env.access_allowed op e ava.aa_desc (some ava.aa_value) = false then
    LDAP_INSUFFICIENT_ACCESS
  else
    match (if ava.aa_desc = env.slap_schema.si_ad_hasSubordinates
            then has_subordinates_hook op else none) with
    | some hook =>
      if type ≠ LDAP_FILTER_EQUALITY ∧ type ≠ LDAP_FILTER_APPROX then
        LDAP_INAPPROPRIATE_MATCHING
      else
        let h := hook e
        if h.1 ≠ LDAP_SUCCESS then LDAP_OTHER
        else if h.2 = LDAP_COMPARE_TRUE then
          (if bvmatch ava.aa_value slap_true_bv then LDAP_COMPARE_TRUE else LDAP_COMPARE_FALSE)
        else if h.2 = LDAP_COMPARE_FALSE then
          (if bvmatch ava.aa_value slap_false_bv then LDAP_COMPARE_TRUE else LDAP_COMPARE_FALSE)
        else LDAP_OTHER
    | none =>
      if ava.aa_desc = env.slap_schema.si_ad_entryDN then
        if type ≠ LDAP_FILTER_EQUALITY ∧ type ≠ LDAP_FILTER_APPROX then
          LDAP_INAPPROPRIATE_MATCHING
        else
          let mr := env.slap_schema.si_ad_entryDN.ad_type.sat_equality.get
            env.slap_schema.entryDN_equality
          let r := env.value_match env.slap_schema.si_ad_entryDN mr 0
            (MatchValue.bv e.e_nname) (AssertedValue.bv ava.aa_value)
          if r.status ≠ LDAP_SUCCESS then r.status
          else if r.cmp = 0 then LDAP_COMPARE_TRUE
          else LDAP_COMPARE_FALSE
      else
        test_ava_attrs env op e ava type LDAP_COMPARE_FALSE
          (attrs_find env e.e_attrs ava.aa_desc)

/-! ## test_presence_filter -/

/-- The attribute loop of `test_presence_filter`. -/
def test_presence_attrs (env : Env) (op : Option Operation) (e : Entry)
    (desc : AttributeDescription) : Int → List Attribute → Int
  | rc, [] => rc
  | _, a :: rest =>
    if desc ≠ a.a_desc ∧ env.access_allowed op e a.a_desc none = false then
      test_presence_attrs env op e desc LDAP_INSUFFICIENT_ACCESS rest
    else LDAP_COMPARE_TRUE

/-- The function `test_presence_filter`. -/
def test_presence_filter (env : Env) (op : Option Operation) (e : Entry)
    (desc : AttributeDescription) : Int :=
  if env.access_allowed op e desc none = false then LDAP_INSUFFICIENT_ACCESS
  else if desc = env.slap_schema.si_ad_hasSubordinates then
    (if (has_subordinates_hook op).isSome then LDAP_COMPARE_TRUE else LDAP_COMPARE_FALSE)
  else if desc = env.slap_schema.si_ad_entryDN ∨ desc = env.slap_schema.si_ad_subschemaSubentry then
    LDAP_COMPARE_TRUE
  else
    test_presence_attrs env op e desc LDAP_COMPARE_FALSE (attrs_find env e.e_attrs desc)

/-! ## test_substrings_filter -/

/-- The value loop of `test_substrings_filter` over `a->a_nvals`. -/
def test_substrings_values (env : Env) (sub : SubstringsAssertion)
    (a : Attribute) (mr : MatchingRule) (rc : Int) : List berval → Flow
  | [] => Flow.next rc
  | bv :: bvs =>
    let r := env.value_match a.a_desc mr 0 (MatchValue.bv bv) (AssertedValue.sub sub)
    if r.status ≠ LDAP_SUCCESS then Flow.next r.status
    else if r.cmp = 0 then Flow.ret LDAP_COMPARE_TRUE
    else test_substrings_values env sub a mr rc bvs

/-- The attribute loop of `test_substrings_filter`. -/
def test_substrings_attrs (env : Env) (op : Option Operation) (e : Entry)
    (sub : SubstringsAssertion) : Int → List Attribute → Int
  | rc, [] => rc
  | rc, a :: rest =>
    if sub.sa_desc ≠ a.a_desc ∧ env.access_allowed op e a.a_desc none = false then
      test_substrings_attrs env op e sub LDAP_INSUFFICIENT_ACCESS rest
    else
      match a.a_desc.ad_type.sat_substr with
      | none => test_substrings_attrs env op e sub LDAP_INAPPROPRIATE_MATCHING rest
      | some mr =>
        match test_substrings_values env sub a mr rc a.a_nvals with
        | Flow.ret v => v
        | Flow.next rc1 => test_substrings_attrs env op e sub rc1 rest

/-- The function `test_substrings_filter`. -/
def test_substrings_filter (env : Env) (op : Option Operation) (e : Entry)
    (sub : SubstringsAssertion) : Int :=
  if env.access_allowed op e sub.sa_desc none = false then LDAP_INSUFFICIENT_ACCESS
  else
    test_substrings_attrs env op e sub LDAP_COMPARE_FALSE (attrs_find env e.e_attrs sub.sa_desc)

/-! ## test_mra_filter -/

/-- The choice between `a->a_nvals` and `a->a_vals`: normalized values only when
`ma_rule` is the equality rule of the attribute type. -/
def mra_values (mra : MatchingRuleAssertion) (a : Attribute) : List berval :=
  if some mra.ma_rule = a.a_desc.ad_type.sat_equality then a.a_nvals else a.a_vals

/-- The guard of the component-matching blocks: compiled in, `ma_cf` set and
the rule declares COMPONENT usage. -/
def mra_component (env : Env) (mra : MatchingRuleAssertion) : Bool :=
  env.LDAP_COMP_MATCH && mra.ma_cf.isSome && decide (mra.ma_rule.smr_usage &&& env.SLAP_MR_COMPONENT ≠ 0)

/-- The value loop of the `ma_desc` branch; `some rc` when the function returns
`rc` from inside the loop. -/
def test_mra_desc_values (env : Env) (mra : MatchingRuleAssertion) (a : Attribute) :
    List berval → Option Int
  | [] => none
  | bv :: bvs =>
    let r := env.value_match a.a_desc mra.ma_rule 0 (MatchValue.bv bv) (AssertedValue.bv mra.ma_value)
    if r.status ≠ LDAP_SUCCESS then some r.status
    else if r.cmp = 0 then some LDAP_COMPARE_TRUE
    else test_mra_desc_values env mra a bvs

/-- The attribute loop of the `ma_desc` branch; `some rc` when the function
returns `rc` from inside the loop, `none` when the loop runs to its end. -/
def test_mra_desc_attrs (env : Env) (mra : MatchingRuleAssertion) : List Attribute → Option Int
  | [] => none
  | a :: rest =>
    if mra_component env mra then
      let r := env.value_match a.a_desc mra.ma_rule 0 (MatchValue.attr a) (AssertedValue.mra mra)
      if r.status ≠ LDAP_SUCCESS then some r.status
      else if r.cmp = 0 then some LDAP_COMPARE_TRUE
      else some LDAP_COMPARE_FALSE
    else
      match test_mra_desc_values env mra a (mra_values mra a) with
      | some rc => some rc
      | none => test_mra_desc_attrs env mra rest

/-- The value loop of the branch without `ma_desc`: the value of the local `rc`
when the loop is left (by `break` or at the end of the values). -/
def test_mra_all_values (env : Env) (mra : MatchingRuleAssertion) (a : Attribute)
    (value : berval) (rc : Int) : List berval → Int
  | [] => rc
  | bv :: bvs =>
    let r := env.value_match a.a_desc mra.ma_rule 0 (MatchValue.bv bv) (AssertedValue.bv value)
    if r.status ≠ LDAP_SUCCESS then r.status
    else if r.cmp = 0 then LDAP_COMPARE_TRUE
    else test_mra_all_values env mra a value r.status bvs

/-- The attribute loop of the branch without `ma_desc`; `some rc` when the
function returns `rc`, `none` when the loop ends or is left by a `break` of the
component-matching block (that block is not inside the value loop, so its
`break` leaves the attribute loop and control reaches the `ma_dnattrs` test). -/
def test_mra_all_attrs (env : Env) (op : Option Operation) (e : Entry)
    (mra : MatchingRuleAssertion) : List Attribute → Option Int
  | [] => none
  | a :: rest =>
    if env.mr_usable_with_at mra.ma_rule a.a_desc.ad_type = false then
      test_mra_all_attrs env op e mra rest
    else
      let n := env.asserted_value_validate_normalize a.a_desc mra.ma_rule mra.ma_value
      if n.1 ≠ LDAP_SUCCESS then test_mra_all_attrs env op e mra rest
      else if env.access_allowed op e a.a_desc (some n.2) = false then
        test_mra_all_attrs env op e mra rest
      else if mra_component env mra then
        let c := env.value_match a.a_desc mra.ma_rule 0 (MatchValue.attr a) (AssertedValue.mra mra)
        if c.status ≠ LDAP_SUCCESS then none
        else if c.cmp = 0 then none
        else
          let rc := test_mra_all_values env mra a n.2 c.status (mra_values mra a)
          if rc ≠ LDAP_SUCCESS then some rc
          else test_mra_all_attrs env op e mra rest
      else
        let rc := test_mra_all_values env mra a n.2 n.1 (mra_values mra a)
        if rc ≠ LDAP_SUCCESS then some rc
        else test_mra_all_attrs env op e mra rest

/-- The asserted value an AVA of the DN is compared with in the `ma_dnattrs`
loop, or `none` when the AVA is skipped by `continue`. -/
def mra_dn_value (env : Env) (op : Option Operation) (e : Entry)
    (mra : MatchingRuleAssertion) (ad : AttributeDescription) : Option berval :=
  match mra.ma_desc with
  | some desc => if env.is_ad_subtype ad desc = false then none else some mra.ma_value
  | none =>
    if env.mr_usable_with_at mra.ma_rule ad.ad_type = false then none
    else
      let n := env.asserted_value_validate_normalize ad mra.ma_rule mra.ma_value
      if n.1 ≠ LDAP_SUCCESS then none
      else if env.access_allowed op e ad (some n.2) = false then none
      else some n.2

/-- The inner loop of the `ma_dnattrs` block over the AVAs of one RDN. -/
def test_mra_dn_avas (env : Env) (op : Option Operation) (e : Entry)
    (mra : MatchingRuleAssertion) : List LDAPAVA → Option Int
  | [] => none
  | ava :: rest =>
    match mra_dn_value env op e mra ava.la_private with
    | none => test_mra_dn_avas env op e mra rest
    | some value =>
      let r := env.value_match ava.la_private mra.ma_rule 0
        (MatchValue.bv ava.la_value) (AssertedValue.bv value)
      let rc := if r.status = LDAP_SUCCESS ∧ r.cmp = 0 then LDAP_COMPARE_TRUE else r.status
      if rc ≠ LDAP_SUCCESS then some rc
      else test_mra_dn_avas env op e mra rest

/-- The outer loop of the `ma_dnattrs` block over the RDNs of the DN. -/
def test_mra_dn_rdns (env : Env) (op : Option Operation) (e : Entry)
    (mra : MatchingRuleAssertion) : LDAPDN → Option Int
  | [] => none
  | rdn :: rest =>
    match test_mra_dn_avas env op e mra rdn with
    | some rc => some rc
    | none => test_mra_dn_rdns env op e mra rest

/-- The first half of `test_mra_filter` (the `if ( mra->ma_desc ) ... else ...`
statement): `some rc` when the function returns `rc` there, `none` when control
reaches the `ma_dnattrs` test. -/
def test_mra_attrs (env : Env) (op : Option Operation) (e : Entry)
    (mra : MatchingRuleAssertion) : Option Int :=
  match mra.ma_desc with
  | some desc =>
    if env.access_allowed op e desc (some mra.ma_value) = false then
      some LDAP_INSUFFICIENT_ACCESS
    else if desc = env.slap_schema.si_ad_entryDN then
      let r := env.value_match env.slap_schema.si_ad_entryDN mra.ma_rule 0
        (MatchValue.bv e.e_nname) (AssertedValue.bv mra.ma_value)
      if r.status ≠ LDAP_SUCCESS then some r.status
      else if r.cmp = 0 then some LDAP_COMPARE_TRUE
      else some LDAP_COMPARE_FALSE
    else test_mra_desc_attrs env mra (attrs_find env e.e_attrs desc)
  | none => test_mra_all_attrs env op e mra e.e_attrs

/-- The function `test_mra_filter`. -/
def test_mra_filter (env : Env) (op : Option Operation) (e : Entry)
    (mra : MatchingRuleAssertion) : Int :=
  match test_mra_attrs env op e mra with
  | some rc => rc
  | none =>
    if mra.ma_dnattrs then
      let p := env.dnPrettyDN e.e_name
      if p.1 ≠ LDAP_SUCCESS then LDAP_INVALID_SYNTAX
      else
        match test_mra_dn_rdns env op e mra p.2 with
        | some rc => rc
        | none => LDAP_COMPARE_FALSE
    else LDAP_COMPARE_FALSE

/-! ## test_filter, test_filter_and, test_filter_or -/

mutual

/-- The function `test_filter`: dispatch on `f_choice`. -/
def test_filter (env : Env) (op : Option Operation) (e : Entry) : Filter → Int
  | Filter.COMPUTED f_result => f_result
  | Filter.EQUALITY f_ava => test_ava_filter env op e f_ava LDAP_FILTER_EQUALITY
  | Filter.SUBSTRINGS f_sub => test_substrings_filter env op e f_sub
  | Filter.GE f_ava => test_ava_filter env op e f_ava LDAP_FILTER_GE
  | Filter.LE f_ava => test_ava_filter env op e f_ava LDAP_FILTER_LE
  | Filter.PRESENT f_desc => test_presence_filter env op e f_desc
  | Filter.APPROX f_ava => test_ava_filter env op e f_ava LDAP_FILTER_APPROX
  | Filter.AND f_and => test_filter_and_loop env op e LDAP_COMPARE_TRUE f_and
  | Filter.OR f_or => test_filter_or_loop env op e LDAP_COMPARE_FALSE f_or
  | Filter.NOT f_not =>
    let rc := test_filter env op e f_not
    if rc = LDAP_COMPARE_TRUE then LDAP_COMPARE_FALSE
    else if rc = LDAP_COMPARE_FALSE then LDAP_COMPARE_TRUE
    else rc
  | Filter.EXT f_mra => test_mra_filter env op e f_mra
  | Filter.UNKNOWN _ => LDAP_PROTOCOL_ERROR

/-- The loop of `test_filter_and` with its local `rtn`. -/
def test_filter_and_loop (env : Env) (op : Option Operation) (e : Entry) :
    Int → List Filter → Int
  | rtn, [] => rtn
  | rtn, f :: fs =>
    let rc := test_filter env op e f
    if rc = LDAP_COMPARE_FALSE then rc
    else if rc ≠ LDAP_COMPARE_TRUE then test_filter_and_loop env op e rc fs
    else test_filter_and_loop env op e rtn fs

/-- The loop of `test_filter_or` with its local `rtn`. -/
def test_filter_or_loop (env : Env) (op : Option Operation) (e : Entry) :
    Int → List Filter → Int
  | rtn, [] => rtn
  | rtn, f :: fs =>
    let rc := test_filter env op e f
    if rc = LDAP_COMPARE_TRUE then rc
    else if rc ≠ LDAP_COMPARE_FALSE then test_filter_or_loop env op e rc fs
    else test_filter_or_loop env op e rtn fs

end

/-- The function `test_filter_and`: `rtn` starts at TRUE. -/
def test_filter_and (env : Env) (op : Option Operation) (e : Entry) (flist : List Filter) : Int :=
  test_filter_and_loop env op e LDAP_COMPARE_TRUE flist

/-- The function `test_filter_or`: `rtn` starts at FALSE. -/
def test_filter_or (env : Env) (op : Option Operation) (e : Entry) (flist : List Filter) : Int :=
  test_filter_or_loop env op e LDAP_COMPARE_FALSE flist

/-! ## A concrete world for evaluation -/

/-- Sample rule: caseIgnoreMatch. -/
def mrEq : MatchingRule := { smr_oid := 1, smr_usage := 0 }

/-- Sample rule: caseIgnoreOrderingMatch. -/
def mrOrd : MatchingRule := { smr_oid := 2, smr_usage := 0 }

/-- Sample rule: caseIgnoreSubstringsMatch. -/
def mrSub : MatchingRule := { smr_oid := 3, smr_usage := 0 }

/-- Sample rule: distinguishedNameMatch. -/
def mrDN : MatchingRule := { smr_oid := 4, smr_usage := 0 }

/-- Sample attribute type of directory strings. -/
def tyString : AttributeType :=
  { sat_equality := some mrEq, sat_approx := none, sat_ordering := some mrOrd,
    sat_substr := some mrSub }

/-- Sample attribute type of DNs. -/
def tyDN : AttributeType :=
  { sat_equality := some mrDN, sat_approx := none, sat_ordering := none, sat_substr := none }

/-- Sample attribute type of booleans, without ordering or substring rules. -/
def tyBool : AttributeType :=
  { sat_equality := some mrEq, sat_approx := none, sat_ordering := none, sat_substr := none }

/-- Sample description `name`, the supertype of `cn` and `sn`. -/
def adName : AttributeDescription := { ad_cname := 41, ad_type := tyString }

/-- Sample description `cn`. -/
def adCn : AttributeDescription := { ad_cname := 3, ad_type := tyString }

/-- Sample description `sn`. -/
def adSn : AttributeDescription := { ad_cname := 4, ad_type := tyString }

/-- Sample description `mail`. -/
def adMail : AttributeDescription := { ad_cname := 5, ad_type := tyString }

/-- Sample description `entryDN`. -/
def adEntryDN : AttributeDescription := { ad_cname := 100, ad_type := tyDN }

/-- Sample description `hasSubordinates`. -/
def adHasSubordinates : AttributeDescription := { ad_cname := 101, ad_type := tyBool }

/-- Sample description `subschemaSubentry`. -/
def adSubschemaSubentry : AttributeDescription := { ad_cname := 102, ad_type := tyDN }

/-- Sample schema with the three well-known descriptors. -/
def demoSchema : SlapSchema :=
  { si_ad_entryDN := adEntryDN, si_ad_hasSubordinates := adHasSubordinates,
    si_ad_subschemaSubentry := adSubschemaSubentry, entryDN_equality := rfl
    entryDN_ne_hasSubordinates := by decide
    subschemaSubentry_ne_hasSubordinates := by decide
    entryDN_ne_subschemaSubentry := by decide }

/-- Sample ordering of bervals by their first difference: 0 equal, negative
when the stored value is smaller, positive when it is larger. -/
def demoCompare : List Nat → List Nat → Int
  | [], [] => 0
  | [], _ :: _ => -1
  | _ :: _, [] => 1
  | x :: xs, y :: ys => if x < y then -1 else if y < x then 1 else demoCompare xs ys

/-- Sample value matcher built on `demoCompare`; it always reports success, and
no match on arguments that are not bervals. -/
def demoMatch (_ad : AttributeDescription) (_mr : MatchingRule) (_flags : Nat) :
    MatchValue → AssertedValue → MatchOutcome
  | MatchValue.bv v, AssertedValue.bv w => { status := LDAP_SUCCESS, cmp := demoCompare v w }
  | _, _ => { status := LDAP_SUCCESS, cmp := 1 }

/-- Sample subtype relation: reflexive, and `cn`, `sn` are subtypes of `name`. -/
def demoSubtype (sub sup : AttributeDescription) : Bool :=
  decide (sub = sup) || (decide (sup = adName) && (decide (sub = adCn) || decide (sub = adSn)))

/-- Sample collaborators: everybody may search everything, the normalizer is
the identity, the DN parser yields no RDN, component matching is compiled out. -/
def demoEnv : Env :=
  { slap_schema := demoSchema
    access_allowed := fun _ _ _ _ => true
    value_match := demoMatch
    is_ad_subtype := demoSubtype
    mr_usable_with_at := fun mr ty => decide (some mr = ty.sat_equality)
    asserted_value_validate_normalize := fun _ _ v => (LDAP_SUCCESS, v)
    dnPrettyDN := fun _ => (LDAP_SUCCESS, [])
    LDAP_COMP_MATCH := false
    SLAP_MR_COMPONENT := 0x200 }

/-- Sample entry with `cn: [1], [2]` and `sn: [7]`. -/
def demoEntry : Entry :=
  { e_name := [9, 9], e_nname := [9, 9],
    e_attrs := [
      { a_desc := adCn, a_vals := [[1], [2]], a_nvals := [[1], [2]] },
      { a_desc := adSn, a_vals := [[7]], a_nvals := [[7]] } ] }

/-! ## The combinators as folds over the child results -/

/-- The loop of `test_filter_and` replayed on the list of child results. -/
def and_fold : Int → List Int → Int
  | rtn, [] => rtn
  | rtn, rc :: rs =>
    if rc = LDAP_COMPARE_FALSE then rc
    else if rc ≠ LDAP_COMPARE_TRUE then and_fold rc rs
    else and_fold rtn rs

/-- The loop of `test_filter_or` replayed on the list of child results. -/
def or_fold : Int → List Int → Int
  | rtn, [] => rtn
  | rtn, rc :: rs =>
    if rc = LDAP_COMPARE_TRUE then rc
    else if rc ≠ LDAP_COMPARE_FALSE then or_fold rc rs
    else or_fold rtn rs

/-- The last element of `rs` that differs from `v`, or `d` when there is none. -/
def last_other (v : Int) (d : Int) (rs : List Int) : Int :=
  ((rs.filter (fun r => decide (r ≠ v))).getLast?).getD d

/-- The three truth values of the filter logic. -/
def is_truth_value (r : Int) : Prop :=
  r = LDAP_COMPARE_TRUE ∨ r = LDAP_COMPARE_FALSE ∨ r = SLAPD_COMPARE_UNDEFINED

/-- The leaf filters over a description `desc`: EQUALITY, GE, LE, APPROX,
PRESENT, SUBSTRINGS over `desc`, and EXTENSIBLE with `ma_desc = desc`. -/
def leaf_over (desc : AttributeDescription) : Filter → Prop
  | Filter.EQUALITY f_ava => f_ava.aa_desc = desc
  | Filter.GE f_ava => f_ava.aa_desc = desc
  | Filter.LE f_ava => f_ava.aa_desc = desc
  | Filter.APPROX f_ava => f_ava.aa_desc = desc
  | Filter.PRESENT f_desc => f_desc = desc
  | Filter.SUBSTRINGS f_sub => f_sub.sa_desc = desc
  | Filter.EXT f_mra => f_mra.ma_desc = some desc
  | _ => False

/-- Sample collaborators that deny SEARCH on `sn` and allow everything else. -/
def denySnEnv : Env :=
  { demoEnv with access_allowed := fun _ _ desc _ => decide (desc ≠ adSn) }

/-- The result codes that the evaluator itself produces. -/
def is_own_result (r : Int) : Prop :=
  r = LDAP_COMPARE_TRUE ∨ r = LDAP_COMPARE_FALSE ∨ r = LDAP_PROTOCOL_ERROR
    ∨ r = LDAP_INSUFFICIENT_ACCESS ∨ r = LDAP_INAPPROPRIATE_MATCHING
    ∨ r = LDAP_INVALID_SYNTAX ∨ r = LDAP_OTHER

/-- The value `r` is a non-success status that the value matcher returns on some
arguments. -/
def is_matcher_status (env : Env) (r : Int) : Prop :=
  r ≠ LDAP_SUCCESS ∧ ∃ ad mr fl v w, (env.value_match ad mr fl v w).status = r

/-- The value `r` is carried by some COMPUTED node of the filter tree. -/
inductive Carries : Filter → Int → Prop where
  | computed (r : Int) : Carries (Filter.COMPUTED r) r
  | and (l : List Filter) (f : Filter) (r : Int) : f ∈ l → Carries f r → Carries (Filter.AND l) r
  | or (l : List Filter) (f : Filter) (r : Int) : f ∈ l → Carries f r → Carries (Filter.OR l) r
  | not (f : Filter) (r : Int) : Carries f r → Carries (Filter.NOT f) r

/-- The range of `test_filter` on the tree `f`: a result of its own, a value
carried by a COMPUTED node of `f`, or a non-success status of the value
matcher. -/
def in_range (env : Env) (f : Filter) (r : Int) : Prop :=
  is_own_result r ∨ Carries f r ∨ is_matcher_status env r

/-- The range of the leaf evaluators. -/
def in_leaf_range (env : Env) (r : Int) : Prop :=
  is_own_result r ∨ is_matcher_status env r

/-- The four match kinds of an attribute value assertion. -/
inductive MatchKind where
  | EQUALITY
  | GE
  | LE
  | APPROX
deriving DecidableEq, Repr

/-- The filter tag that `test_filter` passes to `test_ava_filter` for a kind. -/
def MatchKind.tag : MatchKind → Int
  | MatchKind.EQUALITY => LDAP_FILTER_EQUALITY
  | MatchKind.GE => LDAP_FILTER_GE
  | MatchKind.LE => LDAP_FILTER_LE
  | MatchKind.APPROX => LDAP_FILTER_APPROX

/-- The rule a kind asks of an attribute type, in the words of the
specification: the approx rule, else the equality rule, for APPROX; the equality
rule for EQUALITY; the ordering rule for GE and LE. -/
def kind_rule : MatchKind → AttributeType → Option MatchingRule
  | MatchKind.APPROX, ty =>
    match ty.sat_approx with
    | some mr => some mr
    | none => ty.sat_equality
  | MatchKind.EQUALITY, ty => ty.sat_equality
  | MatchKind.GE, ty => ty.sat_ordering
  | MatchKind.LE, ty => ty.sat_ordering

/-- When a match integer satisfies a kind, in the words of the specification:
`== 0` for EQUALITY and APPROX, `>= 0` for GE, `<= 0` for LE. -/
def kind_holds : MatchKind → Int → Prop
  | MatchKind.EQUALITY, m => m = 0
  | MatchKind.APPROX, m => m = 0
  | MatchKind.GE, m => m ≥ 0
  | MatchKind.LE, m => m ≤ 0

/-- There is an index `i` in `bvs` at which `hit` holds while `ok` holds at
every index up to and including `i`. -/
def hit_before_failure (ok hit : berval → Prop) (bvs : List berval) : Prop :=
  ∃ (i : Nat) (bv : berval), bvs[i]? = some bv ∧ hit bv
    ∧ ∀ j : Nat, j ≤ i → ∀ bw : berval, bvs[j]? = some bw → ok bw

/-- An attribute instance that makes the attribute assertion TRUE, in the words
of the specification: (i) its description is the asserted one or access to its
own description with the asserted value is allowed, (ii) its type supplies the
rule for the kind, (iii) some normalized value satisfies the kind while the
matcher reports success on every value up to it. -/
def ava_instance_true (env : Env) (op : Option Operation) (e : Entry)
    (ava : AttributeAssertion) (K : MatchKind) (a : Attribute) : Prop :=
  (a.a_desc = ava.aa_desc ∨ env.access_allowed op e a.a_desc (some ava.aa_value) = true)
  ∧ ∃ mr, kind_rule K a.a_desc.ad_type = some mr
    ∧ hit_before_failure
        (fun bw => (env.value_match a.a_desc mr 0 (MatchValue.bv bw)
          (AssertedValue.bv ava.aa_value)).status = LDAP_SUCCESS)
        (fun bv => kind_holds K (env.value_match a.a_desc mr 0 (MatchValue.bv bv)
          (AssertedValue.bv ava.aa_value)).cmp)
        a.a_nvals

/-- The attribute instances of the entry for a description: those whose
description is `desc` or a subtype of `desc`. -/
def is_instance_of (env : Env) (desc : AttributeDescription) (a : Attribute) : Prop :=
  a.a_desc = desc ∨ env.is_ad_subtype a.a_desc desc = true

/-- On some normalized value of some instance of the asserted description the
value matcher, applied with the rule of the kind, returned `r` as its status. -/
def matcher_reported (env : Env) (e : Entry) (ava : AttributeAssertion) (K : MatchKind)
    (r : Int) : Prop :=
  ∃ a ∈ e.e_attrs, is_instance_of env ava.aa_desc a
    ∧ ∃ mr, kind_rule K a.a_desc.ad_type = some mr
      ∧ ∃ bv ∈ a.a_nvals, (env.value_match a.a_desc mr 0 (MatchValue.bv bv)
          (AssertedValue.bv ava.aa_value)).status = r

/-- Modelled from the spec: the contract of the value matcher (specification,
section 4.7: "Status is SUCCESS or an error").  The truth values
LDAP_COMPARE_TRUE and LDAP_COMPARE_FALSE are results of the evaluators, not
statuses of the matcher: the matcher never reports either as its status. -/
def value_match_contract (env : Env) : Prop :=
  ∀ ad mr fl v w,
    (env.value_match ad mr fl v w).status ≠ LDAP_COMPARE_TRUE
    ∧ (env.value_match ad mr fl v w).status ≠ LDAP_COMPARE_FALSE

/-- Sample backend whose has_subordinates hook succeeds and answers TRUE. -/
def demoBackend : BackendDB :=
  { be_has_subordinates := some (fun _ => (LDAP_SUCCESS, LDAP_COMPARE_TRUE)) }

/-- Sample operation context on `demoBackend`. -/
def demoOp : Operation := { o_bd := some demoBackend }

/-- An attribute instance that makes a presence test over `desc` TRUE, in the
words of the specification: its description is exactly `desc` or it passes the
access check (null value) on its own description. -/
def presence_accessible (env : Env) (op : Option Operation) (e : Entry)
    (desc : AttributeDescription) (a : Attribute) : Prop :=
  a.a_desc = desc ∨ env.access_allowed op e a.a_desc none = true

/-- Sample entry that stores `cn` only. -/
def cnOnlyEntry : Entry :=
  { e_name := [9, 9], e_nname := [9, 9],
    e_attrs := [{ a_desc := adCn, a_vals := [[1]], a_nvals := [[1]] }] }

/-- Sample collaborators that deny SEARCH on `cn` and allow everything else. -/
def denyCnEnv : Env :=
  { demoEnv with access_allowed := fun _ _ desc _ => decide (desc ≠ adCn) }

/-! The value loop and the attribute loop of `test_ava_filter` and of
`test_substrings_filter` have the same shape; `scan_values` and `scan_attrs`
are that shape with the access test, the rule selection, the matcher call and
the hit test as parameters.  They are used to prove facts about both loops at
once. -/

/-- The common shape of the two value loops. -/
def scan_values (vm : berval → MatchOutcome) (hit : Int → Bool) (rc : Int) : List berval → Flow
  | [] => Flow.next rc
  | bv :: bvs =>
    if (vm bv).status ≠ LDAP_SUCCESS then Flow.next (vm bv).status
    else if hit (vm bv).cmp then Flow.ret LDAP_COMPARE_TRUE
    else scan_values vm hit rc bvs

/-- The common shape of the two attribute loops. -/
def scan_attrs (denied : Attribute → Bool) (rule : Attribute → Option MatchingRule)
    (vm : Attribute → MatchingRule → berval → MatchOutcome) (hit : Int → Bool) :
    Int → List Attribute → Int
  | rc, [] => rc
  | rc, a :: rest =>
    if denied a then scan_attrs denied rule vm hit LDAP_INSUFFICIENT_ACCESS rest
    else
      match rule a with
      | none => scan_attrs denied rule vm hit LDAP_INAPPROPRIATE_MATCHING rest
      | some mr =>
        match scan_values (vm a mr) hit rc a.a_nvals with
        | Flow.ret v => v
        | Flow.next rc1 => scan_attrs denied rule vm hit rc1 rest

/-- The status of the first value on which the matcher fails, if any. -/
def first_failure (st : berval → Int) : List berval → Option Int
  | [] => none
  | bv :: bvs => if st bv ≠ LDAP_SUCCESS then some (st bv) else first_failure st bvs

/-- The error an instance records in a scan: INSUFFICIENT_ACCESS if it is
denied, else INAPPROPRIATE_MATCHING if it has no rule, else the status of the
first value on which the matcher fails; `none` if it records nothing. -/
def scan_recorded (denied : Attribute → Bool) (rule : Attribute → Option MatchingRule)
    (vm : Attribute → MatchingRule → berval → MatchOutcome) (a : Attribute) : Option Int :=
  if denied a then some LDAP_INSUFFICIENT_ACCESS
  else
    match rule a with
    | none => some LDAP_INAPPROPRIATE_MATCHING
    | some mr => first_failure (fun bv => (vm a mr bv).status) a.a_nvals

/-- An instance on which a scan returns TRUE: not denied, with a rule, and a
hit on some value before any matcher failure. -/
def scan_instance_true (denied : Attribute → Bool) (rule : Attribute → Option MatchingRule)
    (vm : Attribute → MatchingRule → berval → MatchOutcome) (hit : Int → Bool)
    (a : Attribute) : Prop :=
  denied a = false ∧ ∃ mr, rule a = some mr
    ∧ hit_before_failure (fun bw => (vm a mr bw).status = LDAP_SUCCESS)
        (fun bv => hit (vm a mr bv).cmp = true) a.a_nvals

/-- The error recorded by the last instance of the list that records one, or
`d` when no instance records an error. -/
def last_recorded (recorded : Attribute → Option Int) (d : Int) (l : List Attribute) : Int :=
  ((l.filterMap recorded).getLast?).getD d

/-- An attribute instance that makes a substrings filter TRUE, in the words of
the specification: (a) its description is the one of the filter or it passes
the access check (null value) on its own description, (b) its type has a
substring rule, (c) some normalized value gives match 0 while the matcher
reports success on every value up to it. -/
def sub_instance_true (env : Env) (op : Option Operation) (e : Entry)
    (sub : SubstringsAssertion) (a : Attribute) : Prop :=
  (a.a_desc = sub.sa_desc ∨ env.access_allowed op e a.a_desc none = true)
  ∧ ∃ mr, a.a_desc.ad_type.sat_substr = some mr
    ∧ hit_before_failure
        (fun bw => (env.value_match a.a_desc mr 0 (MatchValue.bv bw)
          (AssertedValue.sub sub)).status = LDAP_SUCCESS)
        (fun bv => (env.value_match a.a_desc mr 0 (MatchValue.bv bv)
          (AssertedValue.sub sub)).cmp = 0)
        a.a_nvals

/-- An attribute instance that records nothing in a substrings scan: it is not
denied, it has a substring rule, and the matcher succeeds on all its normalized
values. -/
def sub_instance_clean (env : Env) (op : Option Operation) (e : Entry)
    (sub : SubstringsAssertion) (a : Attribute) : Prop :=
  (a.a_desc = sub.sa_desc ∨ env.access_allowed op e a.a_desc none = true)
  ∧ ∃ mr, a.a_desc.ad_type.sat_substr = some mr
    ∧ ∀ bv ∈ a.a_nvals, (env.value_match a.a_desc mr 0 (MatchValue.bv bv)
        (AssertedValue.sub sub)).status = LDAP_SUCCESS

/-- The error an instance records in a substrings scan, in the words of the
specification: INSUFFICIENT_ACCESS if its own description differs from the one
of the filter and is denied, else INAPPROPRIATE_MATCHING if its type has no
substring rule, else the status of the first value on which the matcher fails. -/
def sub_recorded (env : Env) (op : Option Operation) (e : Entry)
    (sub : SubstringsAssertion) (a : Attribute) : Option Int :=
  if sub.sa_desc ≠ a.a_desc ∧ env.access_allowed op e a.a_desc none = false then
    some LDAP_INSUFFICIENT_ACCESS
  else
    match a.a_desc.ad_type.sat_substr with
    | none => some LDAP_INAPPROPRIATE_MATCHING
    | some mr =>
      first_failure (fun bv => (env.value_match a.a_desc mr 0 (MatchValue.bv bv)
        (AssertedValue.sub sub)).status) a.a_nvals

/-- On some normalized value of some instance of the filter description the
value matcher, applied with the substring rule, returned `r` as its status. -/
def sub_matcher_reported (env : Env) (e : Entry) (sub : SubstringsAssertion) (r : Int) : Prop :=
  ∃ a ∈ e.e_attrs, is_instance_of env sub.sa_desc a
    ∧ ∃ mr, a.a_desc.ad_type.sat_substr = some mr
      ∧ ∃ bv ∈ a.a_nvals, (env.value_match a.a_desc mr 0 (MatchValue.bv bv)
          (AssertedValue.sub sub)).status = r

/-- Sample substrings assertion over `sn`. -/
def demoSub : SubstringsAssertion :=
  { sa_desc := adSn, sa_initial := some [7], sa_any := [], sa_final := none }

/-- Sample value matcher for substrings: succeeds, and matches when the stored
value starts with the initial piece of the assertion. -/
def startsMatch (_ad : AttributeDescription) (_mr : MatchingRule) (_flags : Nat) :
    MatchValue → AssertedValue → MatchOutcome
  | MatchValue.bv v, AssertedValue.sub s =>
    { status := LDAP_SUCCESS,
      cmp := if (s.sa_initial.getD []).isPrefixOf v then 0 else 1 }
  | MatchValue.bv v, AssertedValue.bv w => { status := LDAP_SUCCESS, cmp := demoCompare v w }
  | _, _ => { status := LDAP_SUCCESS, cmp := 1 }

/-- Sample collaborators with the substrings matcher `startsMatch`. -/
def startsEnv : Env := { demoEnv with value_match := startsMatch }

/-- The verdict of a sequence of matcher outcomes, in the words of the
specification: the first outcome that is an error or has match 0 decides, with
the status of the matcher on error and TRUE on match 0; `none` when no outcome
decides. -/
def first_decisive : List MatchOutcome → Option Int
  | [] => none
  | o :: os =>
    if o.status ≠ LDAP_SUCCESS then some o.status
    else if o.cmp = 0 then some LDAP_COMPARE_TRUE
    else first_decisive os

/-- The matcher outcomes of an extensible match with a description, in scan
order: the instances of `desc` (description `desc` or a subtype) in entry
order, and within an instance its normalized values if the rule of the
assertion is the equality rule of the attribute type and its raw values
otherwise, each compared with the asserted value as given. -/
def mra_desc_outcomes (env : Env) (e : Entry) (mra : MatchingRuleAssertion)
    (desc : AttributeDescription) : List MatchOutcome :=
  (e.e_attrs.filter (fun a => decide (a.a_desc = desc) || env.is_ad_subtype a.a_desc desc)).flatMap
    (fun a =>
      (if a.a_desc.ad_type.sat_equality = some mra.ma_rule then a.a_nvals else a.a_vals).map
        (fun bv => env.value_match a.a_desc mra.ma_rule 0 (MatchValue.bv bv)
          (AssertedValue.bv mra.ma_value)))

/-- Sample extensible assertion `(name:caseIgnoreMatch:=[7])`. -/
def demoMraName : MatchingRuleAssertion :=
  { ma_desc := some adName, ma_rule := mrEq, ma_dnattrs := false, ma_value := [7], ma_cf := none }

/-- Sample collaborators whose DN parser yields the DN `mail=[5]+cn=[1],sn=[7]`:
a first RDN with the AVAs `mail=[5]` and `cn=[1]`, a second RDN with `sn=[7]`. -/
def dnEnv : Env :=
  { demoEnv with
    dnPrettyDN := fun _ =>
      (LDAP_SUCCESS,
        [[{ la_private := adMail, la_value := [5] }, { la_private := adCn, la_value := [1] }],
         [{ la_private := adSn, la_value := [7] }]]) }

/-- Sample entry that stores `sn` only. -/
def snOnlyEntry : Entry :=
  { e_name := [9, 9], e_nname := [9, 9],
    e_attrs := [{ a_desc := adSn, a_vals := [[7]], a_nvals := [[7]] }] }

/-- Sample extensible assertion `(cn:dn:caseIgnoreMatch:=[1])`. -/
def demoMraCnDn : MatchingRuleAssertion :=
  { ma_desc := some adCn, ma_rule := mrEq, ma_dnattrs := true, ma_value := [1], ma_cf := none }

/-- An attribute that the extensible match without a description skips, in the
words of the specification: the rule is not usable with its type, or
normalizing the asserted value for it fails, or SEARCH access to it with the
normalized value is denied. -/
def mra_skipped (env : Env) (op : Option Operation) (e : Entry)
    (mra : MatchingRuleAssertion) (a : Attribute) : Bool :=
  !(env.mr_usable_with_at mra.ma_rule a.a_desc.ad_type)
  || decide ((env.asserted_value_validate_normalize a.a_desc mra.ma_rule mra.ma_value).1
        ≠ LDAP_SUCCESS)
  || !(env.access_allowed op e a.a_desc
        (some (env.asserted_value_validate_normalize a.a_desc mra.ma_rule mra.ma_value).2))

/-- The matcher outcomes on the values of one attribute in the extensible match
without a description: its normalized values if the rule is the equality rule
of the type and its raw values otherwise, each compared with the asserted value
normalized for that attribute. -/
def mra_attr_outcomes (env : Env) (mra : MatchingRuleAssertion) (a : Attribute) :
    List MatchOutcome :=
  (if a.a_desc.ad_type.sat_equality = some mra.ma_rule then a.a_nvals else a.a_vals).map
    (fun bv => env.value_match a.a_desc mra.ma_rule 0 (MatchValue.bv bv)
      (AssertedValue.bv (env.asserted_value_validate_normalize a.a_desc mra.ma_rule
        mra.ma_value).2))

/-- The matcher outcomes of the extensible match without a description, in
attribute then value order, over the attributes that are not skipped. -/
def mra_all_outcomes (env : Env) (op : Option Operation) (e : Entry)
    (mra : MatchingRuleAssertion) : List MatchOutcome :=
  (e.e_attrs.filter (fun a => !(mra_skipped env op e mra a))).flatMap
    (mra_attr_outcomes env mra)

/-- The entry with the skipped attributes removed. -/
def without_skipped (env : Env) (op : Option Operation) (e : Entry)
    (mra : MatchingRuleAssertion) : Entry :=
  { e with e_attrs := e.e_attrs.filter (fun a => !(mra_skipped env op e mra a)) }

/-- Sample description `seeAlso`, of DN type. -/
def adSeeAlso : AttributeDescription := { ad_cname := 34, ad_type := tyDN }

/-- Sample entry with `cn: [1]` and `seeAlso: [9]`. -/
def seeAlsoEntry : Entry :=
  { e_name := [9, 9], e_nname := [9, 9],
    e_attrs := [
      { a_desc := adCn, a_vals := [[1]], a_nvals := [[1]] },
      { a_desc := adSeeAlso, a_vals := [[9]], a_nvals := [[9]] } ] }

/-- Sample collaborators whose access oracle looks at the entry: SEARCH is
allowed on entries that store a `seeAlso` attribute and denied on the others. -/
def entryAclEnv : Env :=
  { demoEnv with
    access_allowed := fun _ e _ _ => e.e_attrs.any (fun a => decide (a.a_desc = adSeeAlso)) }

/-- Sample extensible assertion `(:caseIgnoreMatch:=[1])`, without description. -/
def demoMraAll : MatchingRuleAssertion :=
  { ma_desc := none, ma_rule := mrEq, ma_dnattrs := false, ma_value := [1], ma_cf := none }

/-- Sample collaborators whose DN parser fails with the status `LDAP_OTHER`. -/
def badDnEnv : Env := { demoEnv with dnPrettyDN := fun _ => (LDAP_OTHER, []) }

/-- The error an instance records in the generic attribute assertion, in the
words of the specification: INSUFFICIENT_ACCESS if its own description differs
from `desc` and is denied, else INAPPROPRIATE_MATCHING if its type lacks the
rule of the kind, else the status of the first value on which the matcher
fails; `none` if it records nothing. -/
def ava_recorded (env : Env) (op : Option Operation) (e : Entry)
    (ava : AttributeAssertion) (K : MatchKind) (a : Attribute) : Option Int :=
  if ava.aa_desc ≠ a.a_desc ∧ env.access_allowed op e a.a_desc (some ava.aa_value) = false then
    some LDAP_INSUFFICIENT_ACCESS
  else
    match kind_rule K a.a_desc.ad_type with
    | none => some LDAP_INAPPROPRIATE_MATCHING
    | some mr =>
      first_failure (fun bv => (env.value_match a.a_desc mr 0 (MatchValue.bv bv)
        (AssertedValue.bv ava.aa_value)).status) a.a_nvals

/-- A clean instance of the generic attribute assertion: it is accessible, its
type has the rule required by the kind, and the matcher succeeds on all of its
normalized values. -/
def ava_instance_clean (env : Env) (op : Option Operation) (e : Entry)
    (ava : AttributeAssertion) (K : MatchKind) (a : Attribute) : Prop :=
  (a.a_desc = ava.aa_desc ∨ env.access_allowed op e a.a_desc (some ava.aa_value) = true)
  ∧ ∃ mr, kind_rule K a.a_desc.ad_type = some mr
    ∧ ∀ bv ∈ a.a_nvals, (env.value_match a.a_desc mr 0 (MatchValue.bv bv)
        (AssertedValue.bv ava.aa_value)).status = LDAP_SUCCESS

/-- Sample collaborators whose value matcher fails with `LDAP_OTHER` on every
call and never reports match 0. -/
def otherStatusEnv : Env :=
  { demoEnv with value_match := fun _ _ _ _ _ => { status := LDAP_OTHER, cmp := 1 } }

/-- Sample collaborators whose value matcher fails with `LDAP_OTHER` on the
stored value `[1]` and succeeds without match on every other value. -/
def failOnOneEnv : Env :=
  { demoEnv with
    value_match := fun _ _ _ v _ =>
      if v = MatchValue.bv [1] then { status := LDAP_OTHER, cmp := 1 }
      else { status := LDAP_SUCCESS, cmp := 1 } }

/-- Sample rule that declares COMPONENT usage: componentFilterMatch. -/
def mrComp : MatchingRule := { smr_oid := 5, smr_usage := 0x200 }

/-- Sample extensible assertion without description, with a component filter
and the rule `mrComp`, dnAttrs not set. -/
def demoMraComp : MatchingRuleAssertion :=
  { ma_desc := none, ma_rule := mrComp, ma_dnattrs := false, ma_value := [1], ma_cf := some 1 }

/-- The same assertion as `demoMraComp` with the description `cn`. -/
def demoMraCompCn : MatchingRuleAssertion :=
  { demoMraComp with ma_desc := some adCn }

/-- Sample collaborators of a build with component matching: every rule is
usable with every type, and the value matcher succeeds with match 0 in
component mode (attribute against assertion) and with a non-zero match on
plain values. -/
def compEnv : Env :=
  { demoEnv with
    LDAP_COMP_MATCH := true
    mr_usable_with_at := fun _ _ => true
    value_match := fun _ _ _ v w =>
      match v, w with
      | MatchValue.attr _, AssertedValue.mra _ => { status := LDAP_SUCCESS, cmp := 0 }
      | _, _ => { status := LDAP_SUCCESS, cmp := 1 } }

/-- As `compEnv`, but the value matcher fails with `LDAP_OTHER` in component
mode. -/
def compFailEnv : Env :=
  { compEnv with
    value_match := fun _ _ _ v w =>
      match v, w with
      | MatchValue.attr _, AssertedValue.mra _ => { status := LDAP_OTHER, cmp := 1 }
      | _, _ => { status := LDAP_SUCCESS, cmp := 1 } }

/-- A leaf of a filter tree: any node that is not AND, OR or NOT. -/
def is_leaf : Filter → Prop
  | Filter.AND _ => False
  | Filter.OR _ => False
  | Filter.NOT _ => False
  | _ => True

/-- Every leaf of the tree evaluates to TRUE or FALSE. -/
inductive TwoValuedLeaves (env : Env) (op : Option Operation) (e : Entry) : Filter → Prop where
  | leaf (f : Filter) : is_leaf f →
      (test_filter env op e f = LDAP_COMPARE_TRUE ∨ test_filter env op e f = LDAP_COMPARE_FALSE) →
      TwoValuedLeaves env op e f
  | and (l : List Filter) : (∀ f ∈ l, TwoValuedLeaves env op e f) →
      TwoValuedLeaves env op e (Filter.AND l)
  | or (l : List Filter) : (∀ f ∈ l, TwoValuedLeaves env op e f) →
      TwoValuedLeaves env op e (Filter.OR l)
  | not (f : Filter) : TwoValuedLeaves env op e f → TwoValuedLeaves env op e (Filter.NOT f)

mutual

/-- The classical boolean evaluation of a filter tree over the outcomes of its
leaves: AND is true when all children are, OR when some child is, NOT negates,
and a leaf is true when it evaluates to TRUE. -/
def bool_eval (env : Env) (op : Option Operation) (e : Entry) : Filter → Bool
  | Filter.AND l => bool_eval_all env op e l
  | Filter.OR l => bool_eval_any env op e l
  | Filter.NOT f => !(bool_eval env op e f)
  | Filter.COMPUTED r => decide (test_filter env op e (Filter.COMPUTED r) = LDAP_COMPARE_TRUE)
  | Filter.EQUALITY a => decide (test_filter env op e (Filter.EQUALITY a) = LDAP_COMPARE_TRUE)
  | Filter.SUBSTRINGS a => decide (test_filter env op e (Filter.SUBSTRINGS a) = LDAP_COMPARE_TRUE)
  | Filter.GE a => decide (test_filter env op e (Filter.GE a) = LDAP_COMPARE_TRUE)
  | Filter.LE a => decide (test_filter env op e (Filter.LE a) = LDAP_COMPARE_TRUE)
  | Filter.PRESENT a => decide (test_filter env op e (Filter.PRESENT a) = LDAP_COMPARE_TRUE)
  | Filter.APPROX a => decide (test_filter env op e (Filter.APPROX a) = LDAP_COMPARE_TRUE)
  | Filter.EXT a => decide (test_filter env op e (Filter.EXT a) = LDAP_COMPARE_TRUE)
  | Filter.UNKNOWN c => decide (test_filter env op e (Filter.UNKNOWN c) = LDAP_COMPARE_TRUE)

/-- All children are true; the empty conjunction is true. -/
def bool_eval_all (env : Env) (op : Option Operation) (e : Entry) : List Filter → Bool
  | [] => true
  | f :: fs => bool_eval env op e f && bool_eval_all env op e fs

/-- Some child is true; the empty disjunction is false. -/
def bool_eval_any (env : Env) (op : Option Operation) (e : Entry) : List Filter → Bool
  | [] => false
  | f :: fs => bool_eval env op e f || bool_eval_any env op e fs

end

/-- Sample filter tree `(&(|(cn=[9])(sn=[7]))(!(mail=*)))`. -/
def demoTree : Filter :=
  Filter.AND [
    Filter.OR [Filter.EQUALITY { aa_desc := adCn, aa_value := [9] },
      Filter.EQUALITY { aa_desc := adSn, aa_value := [7] }],
    Filter.NOT (Filter.PRESENT adMail)]

/-! ## Theorems -/

theorem and_loop_eq_fold (env : Env) (op : Option Operation) (e : Entry)
    (l : List Filter) (rtn : Int) :
    test_filter_and_loop env op e rtn l = and_fold rtn (l.map (test_filter env op e)) := by
  induction l generalizing rtn with
  | nil => simp [test_filter_and_loop, and_fold]
  | cons f fs ih =>
    simp only [test_filter_and_loop, and_fold, List.map_cons]
    split
    · rfl
    · split
      · exact ih _
      · exact ih _

theorem or_loop_eq_fold (env : Env) (op : Option Operation) (e : Entry)
    (l : List Filter) (rtn : Int) :
    test_filter_or_loop env op e rtn l = or_fold rtn (l.map (test_filter env op e)) := by
  induction l generalizing rtn with
  | nil => simp [test_filter_or_loop, or_fold]
  | cons f fs ih =>
    simp only [test_filter_or_loop, or_fold, List.map_cons]
    split
    · rfl
    · split
      · exact ih _
      · exact ih _

theorem test_filter_AND (env : Env) (op : Option Operation) (e : Entry) (l : List Filter) :
    test_filter env op e (Filter.AND l)
      = and_fold LDAP_COMPARE_TRUE (l.map (test_filter env op e)) := by
  rw [test_filter, and_loop_eq_fold]

theorem test_filter_OR (env : Env) (op : Option Operation) (e : Entry) (l : List Filter) :
    test_filter env op e (Filter.OR l)
      = or_fold LDAP_COMPARE_FALSE (l.map (test_filter env op e)) := by
  rw [test_filter, or_loop_eq_fold]

theorem test_filter_and_eq (env : Env) (op : Option Operation) (e : Entry) (l : List Filter) :
    test_filter_and env op e l = test_filter env op e (Filter.AND l) := by
  rw [test_filter, test_filter_and]

theorem test_filter_or_eq (env : Env) (op : Option Operation) (e : Entry) (l : List Filter) :
    test_filter_or env op e l = test_filter env op e (Filter.OR l) := by
  rw [test_filter, test_filter_or]

theorem test_filter_NOT (env : Env) (op : Option Operation) (e : Entry) (f : Filter) :
    test_filter env op e (Filter.NOT f)
      = (if test_filter env op e f = LDAP_COMPARE_TRUE then LDAP_COMPARE_FALSE
         else if test_filter env op e f = LDAP_COMPARE_FALSE then LDAP_COMPARE_TRUE
         else test_filter env op e f) := by
  rw [test_filter]

theorem true_ne_false : LDAP_COMPARE_TRUE ≠ LDAP_COMPARE_FALSE := by decide

theorem and_fold_false (rs : List Int) (rtn : Int) (h : LDAP_COMPARE_FALSE ∈ rs) :
    and_fold rtn rs = LDAP_COMPARE_FALSE := by
  induction rs generalizing rtn with
  | nil => simp at h
  | cons r rs ih =>
    simp only [and_fold]
    by_cases hr : r = LDAP_COMPARE_FALSE
    · simp [hr]
    · have hm : LDAP_COMPARE_FALSE ∈ rs := by
        rcases List.mem_cons.mp h with h1 | h1
        · exact absurd h1.symm hr
        · exact h1
      rw [if_neg hr]
      split
      · exact ih _ hm
      · exact ih _ hm

theorem or_fold_true (rs : List Int) (rtn : Int) (h : LDAP_COMPARE_TRUE ∈ rs) :
    or_fold rtn rs = LDAP_COMPARE_TRUE := by
  induction rs generalizing rtn with
  | nil => simp at h
  | cons r rs ih =>
    simp only [or_fold]
    by_cases hr : r = LDAP_COMPARE_TRUE
    · simp [hr]
    · have hm : LDAP_COMPARE_TRUE ∈ rs := by
        rcases List.mem_cons.mp h with h1 | h1
        · exact absurd h1.symm hr
        · exact h1
      rw [if_neg hr]
      split
      · exact ih _ hm
      · exact ih _ hm

theorem last_other_nil (v d : Int) : last_other v d [] = d := by
  simp [last_other]

theorem last_other_cons_same (v d : Int) (rs : List Int) :
    last_other v d (v :: rs) = last_other v d rs := by
  simp [last_other]

theorem last_other_cons_other (v d r : Int) (rs : List Int) (h : r ≠ v) :
    last_other v d (r :: rs) = last_other v r rs := by
  simp only [last_other]
  rw [List.filter_cons_of_pos (by simpa using h)]
  cases hf : rs.filter (fun r => decide (r ≠ v)) with
  | nil => simp
  | cons x xs =>
    rw [List.getLast?_cons_cons, List.getLast?_eq_getLast _ (List.cons_ne_nil x xs)]
    simp

theorem and_fold_recorded (rs : List Int) (rtn : Int)
    (h : ∀ r ∈ rs, r ≠ LDAP_COMPARE_FALSE) :
    and_fold rtn rs = last_other LDAP_COMPARE_TRUE rtn rs := by
  induction rs generalizing rtn with
  | nil => simp [and_fold, last_other_nil]
  | cons r rs ih =>
    have hr : r ≠ LDAP_COMPARE_FALSE := h r (List.mem_cons_self _ _)
    have hrs : ∀ x ∈ rs, x ≠ LDAP_COMPARE_FALSE := fun x hx => h x (List.mem_cons_of_mem _ hx)
    simp only [and_fold]
    rw [if_neg hr]
    by_cases ht : r = LDAP_COMPARE_TRUE
    · subst ht
      rw [if_neg (by simp), last_other_cons_same]
      exact ih _ hrs
    · rw [if_pos ht, last_other_cons_other _ _ _ _ ht]
      exact ih _ hrs

theorem or_fold_recorded (rs : List Int) (rtn : Int)
    (h : ∀ r ∈ rs, r ≠ LDAP_COMPARE_TRUE) :
    or_fold rtn rs = last_other LDAP_COMPARE_FALSE rtn rs := by
  induction rs generalizing rtn with
  | nil => simp [or_fold, last_other_nil]
  | cons r rs ih =>
    have hr : r ≠ LDAP_COMPARE_TRUE := h r (List.mem_cons_self _ _)
    have hrs : ∀ x ∈ rs, x ≠ LDAP_COMPARE_TRUE := fun x hx => h x (List.mem_cons_of_mem _ hx)
    simp only [or_fold]
    rw [if_neg hr]
    by_cases ht : r = LDAP_COMPARE_FALSE
    · subst ht
      rw [if_neg (by simp), last_other_cons_same]
      exact ih _ hrs
    · rw [if_pos ht, last_other_cons_other _ _ _ _ ht]
      exact ih _ hrs

theorem last_other_spec (v d : Int) (rs : List Int) :
    ((∀ r ∈ rs, r = v) ∧ last_other v d rs = d)
      ∨ (last_other v d rs ∈ rs ∧ last_other v d rs ≠ v) := by
  unfold last_other
  cases hf : rs.filter (fun r => decide (r ≠ v)) with
  | nil =>
    left
    refine ⟨?_, by simp⟩
    intro r hr
    have := List.filter_eq_nil_iff.mp hf r hr
    simpa using this
  | cons x xs =>
    right
    have hne : x :: xs ≠ [] := List.cons_ne_nil x xs
    rw [List.getLast?_eq_getLast _ hne]
    have hmem : (x :: xs).getLast hne ∈ rs.filter (fun r => decide (r ≠ v)) := by
      rw [hf]; exact List.getLast_mem hne
    have := List.mem_filter.mp hmem
    exact ⟨this.1, by simpa using this.2⟩

theorem and_fold_kleene (rs : List Int) (h : ∀ r ∈ rs, is_truth_value r) :
    and_fold LDAP_COMPARE_TRUE rs
      = (if LDAP_COMPARE_FALSE ∈ rs then LDAP_COMPARE_FALSE
         else if SLAPD_COMPARE_UNDEFINED ∈ rs then SLAPD_COMPARE_UNDEFINED
         else LDAP_COMPARE_TRUE) := by
  by_cases hF : LDAP_COMPARE_FALSE ∈ rs
  · rw [if_pos hF, and_fold_false _ _ hF]
  · rw [if_neg hF, and_fold_recorded rs _ (fun r hr hEq => hF (hEq ▸ hr))]
    rcases last_other_spec LDAP_COMPARE_TRUE LDAP_COMPARE_TRUE rs with ⟨hall, hd⟩ | ⟨hmem, hne⟩
    · have hU : SLAPD_COMPARE_UNDEFINED ∉ rs := fun hu => by
        have := hall _ hu
        revert this; decide
      rw [if_neg hU, hd]
    · rcases h _ hmem with h1 | h1 | h1
      · exact absurd h1 hne
      · exact absurd (h1 ▸ hmem) hF
      · rw [if_pos (h1 ▸ hmem), h1]

theorem or_fold_kleene (rs : List Int) (h : ∀ r ∈ rs, is_truth_value r) :
    or_fold LDAP_COMPARE_FALSE rs
      = (if LDAP_COMPARE_TRUE ∈ rs then LDAP_COMPARE_TRUE
         else if SLAPD_COMPARE_UNDEFINED ∈ rs then SLAPD_COMPARE_UNDEFINED
         else LDAP_COMPARE_FALSE) := by
  by_cases hT : LDAP_COMPARE_TRUE ∈ rs
  · rw [if_pos hT, or_fold_true _ _ hT]
  · rw [if_neg hT, or_fold_recorded rs _ (fun r hr hEq => hT (hEq ▸ hr))]
    rcases last_other_spec LDAP_COMPARE_FALSE LDAP_COMPARE_FALSE rs with ⟨hall, hd⟩ | ⟨hmem, hne⟩
    · have hU : SLAPD_COMPARE_UNDEFINED ∉ rs := fun hu => by
        have := hall _ hu
        revert this; decide
      rw [if_neg hU, hd]
    · rcases h _ hmem with h1 | h1 | h1
      · exact absurd (h1 ▸ hmem) hT
      · exact absurd h1 hne
      · rw [if_pos (h1 ▸ hmem), h1]

theorem map_truth_values (env : Env) (op : Option Operation) (e : Entry) (l : List Filter)
    (h : ∀ f ∈ l, is_truth_value (test_filter env op e f)) :
    ∀ r ∈ l.map (test_filter env op e), is_truth_value r := by
  intro r hr
  obtain ⟨f, hf, rfl⟩ := List.mem_map.mp hr
  exact h f hf

/-! ## The AND / OR / NOT combinators (C1 to C6) -/

/-- C1. Dominance: an AND filter with at least one child that evaluates to FALSE
evaluates to FALSE, and an OR filter with at least one child that evaluates to
TRUE evaluates to TRUE, whatever the other children (before or after it)
evaluate to; the same holds for `test_filter_and` and `test_filter_or` called
on the child list. -/
theorem C1_dominance (env : Env) (op : Option Operation) (e : Entry) (l : List Filter) :
    ((∃ f ∈ l, test_filter env op e f = LDAP_COMPARE_FALSE) →
        test_filter env op e (Filter.AND l) = LDAP_COMPARE_FALSE
        ∧ test_filter_and env op e l = LDAP_COMPARE_FALSE)
    ∧ ((∃ f ∈ l, test_filter env op e f = LDAP_COMPARE_TRUE) →
        test_filter env op e (Filter.OR l) = LDAP_COMPARE_TRUE
        ∧ test_filter_or env op e l = LDAP_COMPARE_TRUE) := by
  constructor
  · rintro ⟨f, hf, hv⟩
    have hm : LDAP_COMPARE_FALSE ∈ l.map (test_filter env op e) :=
      List.mem_map.mpr ⟨f, hf, hv⟩
    rw [test_filter_and_eq, test_filter_AND]
    exact ⟨and_fold_false _ _ hm, and_fold_false _ _ hm⟩
  · rintro ⟨f, hf, hv⟩
    have hm : LDAP_COMPARE_TRUE ∈ l.map (test_filter env op e) :=
      List.mem_map.mpr ⟨f, hf, hv⟩
    rw [test_filter_or_eq, test_filter_OR]
    exact ⟨or_fold_true _ _ hm, or_fold_true _ _ hm⟩

/-- C1 at a concrete input: an error before and UNDEFINED after the FALSE child
of an AND, an error before and UNDEFINED after the TRUE child of an OR. -/
theorem C1_dominance_witness :
    test_filter demoEnv none demoEntry
        (Filter.AND [Filter.COMPUTED LDAP_OTHER, Filter.COMPUTED LDAP_COMPARE_FALSE,
          Filter.COMPUTED SLAPD_COMPARE_UNDEFINED]) = LDAP_COMPARE_FALSE
    ∧ test_filter demoEnv none demoEntry
        (Filter.OR [Filter.COMPUTED LDAP_OTHER, Filter.COMPUTED LDAP_COMPARE_TRUE,
          Filter.COMPUTED SLAPD_COMPARE_UNDEFINED]) = LDAP_COMPARE_TRUE :=
  ⟨((C1_dominance demoEnv none demoEntry _).1
      ⟨Filter.COMPUTED LDAP_COMPARE_FALSE, by simp, by decide⟩).1,
   ((C1_dominance demoEnv none demoEntry _).2
      ⟨Filter.COMPUTED LDAP_COMPARE_TRUE, by simp, by decide⟩).1⟩

/-- C2. Recorded value: when no child of an AND evaluates to FALSE, the AND
evaluates to the result of the last child (in list order) whose result is not
TRUE, and to TRUE when every child is TRUE (in particular for the empty list);
when no child of an OR evaluates to TRUE, the OR evaluates to the result of the
last child whose result is not FALSE, and to FALSE when every child is FALSE
(in particular for the empty list). -/
theorem C2_recorded_value (env : Env) (op : Option Operation) (e : Entry) (l : List Filter) :
    ((∀ f ∈ l, test_filter env op e f ≠ LDAP_COMPARE_FALSE) →
        test_filter env op e (Filter.AND l)
          = (((l.map (test_filter env op e)).filter
              (fun r => decide (r ≠ LDAP_COMPARE_TRUE))).getLast?).getD LDAP_COMPARE_TRUE)
    ∧ ((∀ f ∈ l, test_filter env op e f ≠ LDAP_COMPARE_TRUE) →
        test_filter env op e (Filter.OR l)
          = (((l.map (test_filter env op e)).filter
              (fun r => decide (r ≠ LDAP_COMPARE_FALSE))).getLast?).getD LDAP_COMPARE_FALSE)
    ∧ test_filter env op e (Filter.AND []) = LDAP_COMPARE_TRUE
    ∧ test_filter env op e (Filter.OR []) = LDAP_COMPARE_FALSE := by
  refine ⟨?_, ?_, ?_, ?_⟩
  · intro h
    rw [test_filter_AND, and_fold_recorded]
    · rfl
    · intro r hr
      obtain ⟨f, hf, rfl⟩ := List.mem_map.mp hr
      exact h f hf
  · intro h
    rw [test_filter_OR, or_fold_recorded]
    · rfl
    · intro r hr
      obtain ⟨f, hf, rfl⟩ := List.mem_map.mp hr
      exact h f hf
  · rw [test_filter_AND]; rfl
  · rw [test_filter_OR]; rfl

/-- C2 at a concrete input: the AND of INSUFFICIENT_ACCESS, TRUE, UNDEFINED,
TRUE records UNDEFINED; the OR of OTHER, FALSE, INVALID_SYNTAX, FALSE records
INVALID_SYNTAX. -/
theorem C2_recorded_value_witness :
    test_filter demoEnv none demoEntry
        (Filter.AND [Filter.COMPUTED LDAP_INSUFFICIENT_ACCESS, Filter.COMPUTED LDAP_COMPARE_TRUE,
          Filter.COMPUTED SLAPD_COMPARE_UNDEFINED, Filter.COMPUTED LDAP_COMPARE_TRUE])
      = SLAPD_COMPARE_UNDEFINED
    ∧ test_filter demoEnv none demoEntry
        (Filter.OR [Filter.COMPUTED LDAP_OTHER, Filter.COMPUTED LDAP_COMPARE_FALSE,
          Filter.COMPUTED LDAP_INVALID_SYNTAX, Filter.COMPUTED LDAP_COMPARE_FALSE])
      = LDAP_INVALID_SYNTAX :=
  ⟨((C2_recorded_value demoEnv none demoEntry _).1 (by decide)).trans (by decide),
   ((C2_recorded_value demoEnv none demoEntry _).2.1 (by decide)).trans (by decide)⟩

/-- C3. Three-valued semantics: over children that all evaluate to TRUE, FALSE
or UNDEFINED, an AND is FALSE if some child is FALSE, otherwise UNDEFINED if
some child is UNDEFINED, otherwise TRUE; an OR is TRUE if some child is TRUE,
otherwise UNDEFINED if some child is UNDEFINED, otherwise FALSE; and neither
result changes when the children are reordered. -/
theorem C3_three_valued (env : Env) (op : Option Operation) (e : Entry) (l : List Filter)
    (h : ∀ f ∈ l, is_truth_value (test_filter env op e f)) :
    test_filter env op e (Filter.AND l)
        = (if ∃ f ∈ l, test_filter env op e f = LDAP_COMPARE_FALSE then LDAP_COMPARE_FALSE
           else if ∃ f ∈ l, test_filter env op e f = SLAPD_COMPARE_UNDEFINED
             then SLAPD_COMPARE_UNDEFINED
           else LDAP_COMPARE_TRUE)
    ∧ test_filter env op e (Filter.OR l)
        = (if ∃ f ∈ l, test_filter env op e f = LDAP_COMPARE_TRUE then LDAP_COMPARE_TRUE
           else if ∃ f ∈ l, test_filter env op e f = SLAPD_COMPARE_UNDEFINED
             then SLAPD_COMPARE_UNDEFINED
           else LDAP_COMPARE_FALSE)
    ∧ (∀ l2 : List Filter, List.Perm l l2 →
        test_filter env op e (Filter.AND l2) = test_filter env op e (Filter.AND l)
        ∧ test_filter env op e (Filter.OR l2) = test_filter env op e (Filter.OR l)) := by
  have hmem : ∀ (v : Int) (k : List Filter),
      (v ∈ k.map (test_filter env op e)) ↔ ∃ f ∈ k, test_filter env op e f = v := by
    intro v k
    exact List.mem_map
  have hA : ∀ k : List Filter, (∀ f ∈ k, is_truth_value (test_filter env op e f)) →
      test_filter env op e (Filter.AND k)
        = (if ∃ f ∈ k, test_filter env op e f = LDAP_COMPARE_FALSE then LDAP_COMPARE_FALSE
           else if ∃ f ∈ k, test_filter env op e f = SLAPD_COMPARE_UNDEFINED
             then SLAPD_COMPARE_UNDEFINED
           else LDAP_COMPARE_TRUE) := by
    intro k hk
    rw [test_filter_AND, and_fold_kleene _ (map_truth_values env op e k hk)]
    simp only [hmem]
  have hO : ∀ k : List Filter, (∀ f ∈ k, is_truth_value (test_filter env op e f)) →
      test_filter env op e (Filter.OR k)
        = (if ∃ f ∈ k, test_filter env op e f = LDAP_COMPARE_TRUE then LDAP_COMPARE_TRUE
           else if ∃ f ∈ k, test_filter env op e f = SLAPD_COMPARE_UNDEFINED
             then SLAPD_COMPARE_UNDEFINED
           else LDAP_COMPARE_FALSE) := by
    intro k hk
    rw [test_filter_OR, or_fold_kleene _ (map_truth_values env op e k hk)]
    simp only [hmem]
  refine ⟨hA l h, hO l h, ?_⟩
  intro l2 hp
  have h2 : ∀ f ∈ l2, is_truth_value (test_filter env op e f) :=
    fun f hf => h f (hp.mem_iff.mpr hf)
  have hex : ∀ v : Int, (∃ f ∈ l2, test_filter env op e f = v)
      ↔ (∃ f ∈ l, test_filter env op e f = v) := by
    intro v
    constructor
    · rintro ⟨f, hf, hv⟩; exact ⟨f, hp.mem_iff.mpr hf, hv⟩
    · rintro ⟨f, hf, hv⟩; exact ⟨f, hp.mem_iff.mp hf, hv⟩
  rw [hA l2 h2, hO l2 h2, hA l h, hO l h]
  simp only [hex]
  exact ⟨trivial, trivial⟩

/-- C3 at a concrete input: AND and OR of the children UNDEFINED, TRUE, FALSE,
and the same children in the order FALSE, UNDEFINED, TRUE. -/
theorem C3_three_valued_witness :
    test_filter demoEnv none demoEntry
        (Filter.AND [Filter.COMPUTED SLAPD_COMPARE_UNDEFINED, Filter.COMPUTED LDAP_COMPARE_TRUE,
          Filter.COMPUTED LDAP_COMPARE_FALSE]) = LDAP_COMPARE_FALSE
    ∧ test_filter demoEnv none demoEntry
        (Filter.OR [Filter.COMPUTED LDAP_COMPARE_FALSE, Filter.COMPUTED SLAPD_COMPARE_UNDEFINED,
          Filter.COMPUTED LDAP_COMPARE_TRUE])
      = test_filter demoEnv none demoEntry
        (Filter.OR [Filter.COMPUTED SLAPD_COMPARE_UNDEFINED, Filter.COMPUTED LDAP_COMPARE_TRUE,
          Filter.COMPUTED LDAP_COMPARE_FALSE]) :=
  ⟨(C3_three_valued demoEnv none demoEntry
      [Filter.COMPUTED SLAPD_COMPARE_UNDEFINED, Filter.COMPUTED LDAP_COMPARE_TRUE,
        Filter.COMPUTED LDAP_COMPARE_FALSE]
      (by unfold is_truth_value; decide)).1.trans (by decide),
   ((C3_three_valued demoEnv none demoEntry
      [Filter.COMPUTED SLAPD_COMPARE_UNDEFINED, Filter.COMPUTED LDAP_COMPARE_TRUE,
        Filter.COMPUTED LDAP_COMPARE_FALSE]
      (by unfold is_truth_value; decide)).2.2
      [Filter.COMPUTED LDAP_COMPARE_FALSE, Filter.COMPUTED SLAPD_COMPARE_UNDEFINED,
        Filter.COMPUTED LDAP_COMPARE_TRUE]
      (by
        refine (List.Perm.cons _ (List.Perm.swap _ _ _)).trans ?_
        refine (List.Perm.swap _ _ _).trans ?_
        exact List.Perm.refl _)).2⟩

/-- C4. NOT: `test_filter` on NOT(f) returns FALSE when f evaluates to TRUE, TRUE
when f evaluates to FALSE, and the result of f unchanged for every other value
(UNDEFINED and every error code). -/
theorem C4_not (env : Env) (op : Option Operation) (e : Entry) (f : Filter) :
    (test_filter env op e f = LDAP_COMPARE_TRUE →
        test_filter env op e (Filter.NOT f) = LDAP_COMPARE_FALSE)
    ∧ (test_filter env op e f = LDAP_COMPARE_FALSE →
        test_filter env op e (Filter.NOT f) = LDAP_COMPARE_TRUE)
    ∧ (test_filter env op e f ≠ LDAP_COMPARE_TRUE →
        test_filter env op e f ≠ LDAP_COMPARE_FALSE →
        test_filter env op e (Filter.NOT f) = test_filter env op e f) := by
  refine ⟨?_, ?_, ?_⟩
  · intro h
    rw [test_filter_NOT, if_pos h]
  · intro h
    rw [test_filter_NOT, if_neg (by rw [h]; decide), if_pos h]
  · intro h1 h2
    rw [test_filter_NOT, if_neg h1, if_neg h2]

/-- C4 at concrete inputs: NOT of TRUE, of FALSE, and of INSUFFICIENT_ACCESS. -/
theorem C4_not_witness :
    test_filter demoEnv none demoEntry (Filter.NOT (Filter.COMPUTED LDAP_COMPARE_TRUE))
      = LDAP_COMPARE_FALSE
    ∧ test_filter demoEnv none demoEntry (Filter.NOT (Filter.COMPUTED LDAP_COMPARE_FALSE))
      = LDAP_COMPARE_TRUE
    ∧ test_filter demoEnv none demoEntry (Filter.NOT (Filter.COMPUTED LDAP_INSUFFICIENT_ACCESS))
      = test_filter demoEnv none demoEntry (Filter.COMPUTED LDAP_INSUFFICIENT_ACCESS) :=
  ⟨(C4_not demoEnv none demoEntry (Filter.COMPUTED LDAP_COMPARE_TRUE)).1 (by decide),
   (C4_not demoEnv none demoEntry (Filter.COMPUTED LDAP_COMPARE_FALSE)).2.1 (by decide),
   (C4_not demoEnv none demoEntry (Filter.COMPUTED LDAP_INSUFFICIENT_ACCESS)).2.2
      (by decide) (by decide)⟩

/-- C5. Double negation: `test_filter` on NOT(NOT(f)) equals `test_filter` on f,
whatever f evaluates to. -/
theorem C5_double_negation (env : Env) (op : Option Operation) (e : Entry) (f : Filter) :
    test_filter env op e (Filter.NOT (Filter.NOT f)) = test_filter env op e f := by
  rw [test_filter_NOT, test_filter_NOT]
  have := true_ne_false
  by_cases h1 : test_filter env op e f = LDAP_COMPARE_TRUE
  · simp [h1, true_ne_false.symm]
  · by_cases h2 : test_filter env op e f = LDAP_COMPARE_FALSE
    · simp [h2, true_ne_false.symm]
    · simp [h1, h2]

/-- C6. De Morgan: `test_filter` on NOT(AND(a,b)) equals `test_filter` on
OR(NOT(a), NOT(b)), and on NOT(OR(a,b)) it equals AND(NOT(a), NOT(b)), for every
pair of results of a and b; when a and b evaluate to TRUE, FALSE or UNDEFINED
both sides of the first law follow the three-valued table (TRUE if a or b is
FALSE, else UNDEFINED if a or b is UNDEFINED, else FALSE), and both sides of the
second its dual. -/
theorem C6_de_morgan (env : Env) (op : Option Operation) (e : Entry) (a b : Filter) :
    test_filter env op e (Filter.NOT (Filter.AND [a, b]))
        = test_filter env op e (Filter.OR [Filter.NOT a, Filter.NOT b])
    ∧ test_filter env op e (Filter.NOT (Filter.OR [a, b]))
        = test_filter env op e (Filter.AND [Filter.NOT a, Filter.NOT b])
    ∧ (is_truth_value (test_filter env op e a) → is_truth_value (test_filter env op e b) →
        test_filter env op e (Filter.NOT (Filter.AND [a, b]))
          = (if test_filter env op e a = LDAP_COMPARE_FALSE
                ∨ test_filter env op e b = LDAP_COMPARE_FALSE then LDAP_COMPARE_TRUE
             else if test_filter env op e a = SLAPD_COMPARE_UNDEFINED
                ∨ test_filter env op e b = SLAPD_COMPARE_UNDEFINED then SLAPD_COMPARE_UNDEFINED
             else LDAP_COMPARE_FALSE)
        ∧ test_filter env op e (Filter.NOT (Filter.OR [a, b]))
          = (if test_filter env op e a = LDAP_COMPARE_TRUE
                ∨ test_filter env op e b = LDAP_COMPARE_TRUE then LDAP_COMPARE_FALSE
             else if test_filter env op e a = SLAPD_COMPARE_UNDEFINED
                ∨ test_filter env op e b = SLAPD_COMPARE_UNDEFINED then SLAPD_COMPARE_UNDEFINED
             else LDAP_COMPARE_TRUE)) := by
  have hTF : LDAP_COMPARE_TRUE ≠ LDAP_COMPARE_FALSE := true_ne_false
  have hFT : LDAP_COMPARE_FALSE ≠ LDAP_COMPARE_TRUE := true_ne_false.symm
  have hUT : SLAPD_COMPARE_UNDEFINED ≠ LDAP_COMPARE_TRUE := by decide
  have hUF : SLAPD_COMPARE_UNDEFINED ≠ LDAP_COMPARE_FALSE := by decide
  have hTU : LDAP_COMPARE_TRUE ≠ SLAPD_COMPARE_UNDEFINED := by decide
  have hFU : LDAP_COMPARE_FALSE ≠ SLAPD_COMPARE_UNDEFINED := by decide
  simp only [test_filter_NOT, test_filter_AND, test_filter_OR, List.map_cons, List.map_nil,
    and_fold, or_fold, is_truth_value]
  generalize test_filter env op e a = x
  generalize test_filter env op e b = y
  refine ⟨?_, ?_, ?_⟩
  · by_cases hx1 : x = LDAP_COMPARE_TRUE <;> by_cases hx2 : x = LDAP_COMPARE_FALSE <;>
      by_cases hy1 : y = LDAP_COMPARE_TRUE <;> by_cases hy2 : y = LDAP_COMPARE_FALSE <;>
      simp_all
  · by_cases hx1 : x = LDAP_COMPARE_TRUE <;> by_cases hx2 : x = LDAP_COMPARE_FALSE <;>
      by_cases hy1 : y = LDAP_COMPARE_TRUE <;> by_cases hy2 : y = LDAP_COMPARE_FALSE <;>
      simp_all
  · rintro (hx | hx | hx) (hy | hy | hy) <;> subst hx <;> subst hy <;> simp_all

/-- C6 at a concrete input: a UNDEFINED, b FALSE. -/
theorem C6_de_morgan_witness :
    test_filter demoEnv none demoEntry
        (Filter.NOT (Filter.AND [Filter.COMPUTED SLAPD_COMPARE_UNDEFINED,
          Filter.COMPUTED LDAP_COMPARE_FALSE])) = LDAP_COMPARE_TRUE
    ∧ test_filter demoEnv none demoEntry
        (Filter.NOT (Filter.OR [Filter.COMPUTED SLAPD_COMPARE_UNDEFINED,
          Filter.COMPUTED LDAP_COMPARE_FALSE])) = SLAPD_COMPARE_UNDEFINED :=
  ⟨((C6_de_morgan demoEnv none demoEntry (Filter.COMPUTED SLAPD_COMPARE_UNDEFINED)
      (Filter.COMPUTED LDAP_COMPARE_FALSE)).2.2
      (by unfold is_truth_value; decide) (by unfold is_truth_value; decide)).1.trans (by decide),
   ((C6_de_morgan demoEnv none demoEntry (Filter.COMPUTED SLAPD_COMPARE_UNDEFINED)
      (Filter.COMPUTED LDAP_COMPARE_FALSE)).2.2
      (by unfold is_truth_value; decide) (by unfold is_truth_value; decide)).2.trans (by decide)⟩

/-! ## Induction over filter trees -/

mutual

/-- Structural induction over filter trees, with the children of AND / OR
handled through list membership. -/
theorem filter_induction (P : Filter → Prop)
    (hleaf : ∀ f : Filter, (∀ l, f ≠ Filter.AND l) → (∀ l, f ≠ Filter.OR l) →
      (∀ g, f ≠ Filter.NOT g) → P f)
    (hand : ∀ l : List Filter, (∀ f ∈ l, P f) → P (Filter.AND l))
    (hor : ∀ l : List Filter, (∀ f ∈ l, P f) → P (Filter.OR l))
    (hnot : ∀ f : Filter, P f → P (Filter.NOT f)) : ∀ f : Filter, P f
  | Filter.AND l => hand l (filter_list_induction P hleaf hand hor hnot l)
  | Filter.OR l => hor l (filter_list_induction P hleaf hand hor hnot l)
  | Filter.NOT g => hnot g (filter_induction P hleaf hand hor hnot g)
  | Filter.COMPUTED _ => hleaf _ (by simp) (by simp) (by simp)
  | Filter.EQUALITY _ => hleaf _ (by simp) (by simp) (by simp)
  | Filter.SUBSTRINGS _ => hleaf _ (by simp) (by simp) (by simp)
  | Filter.GE _ => hleaf _ (by simp) (by simp) (by simp)
  | Filter.LE _ => hleaf _ (by simp) (by simp) (by simp)
  | Filter.PRESENT _ => hleaf _ (by simp) (by simp) (by simp)
  | Filter.APPROX _ => hleaf _ (by simp) (by simp) (by simp)
  | Filter.EXT _ => hleaf _ (by simp) (by simp) (by simp)
  | Filter.UNKNOWN _ => hleaf _ (by simp) (by simp) (by simp)

/-- The list part of `filter_induction`. -/
theorem filter_list_induction (P : Filter → Prop)
    (hleaf : ∀ f : Filter, (∀ l, f ≠ Filter.AND l) → (∀ l, f ≠ Filter.OR l) →
      (∀ g, f ≠ Filter.NOT g) → P f)
    (hand : ∀ l : List Filter, (∀ f ∈ l, P f) → P (Filter.AND l))
    (hor : ∀ l : List Filter, (∀ f ∈ l, P f) → P (Filter.OR l))
    (hnot : ∀ f : Filter, P f → P (Filter.NOT f)) : ∀ l : List Filter, ∀ f ∈ l, P f
  | [] => fun _ hf => absurd hf (List.not_mem_nil _)
  | g :: gs => fun f hf =>
    (List.mem_cons.mp hf).elim
      (fun h => h ▸ filter_induction P hleaf hand hor hnot g)
      (fun h => filter_list_induction P hleaf hand hor hnot gs f h)

end

theorem and_fold_mem (rs : List Int) (rtn : Int) :
    and_fold rtn rs = rtn ∨ and_fold rtn rs ∈ rs := by
  induction rs generalizing rtn with
  | nil => left; rfl
  | cons r rs ih =>
    simp only [and_fold]
    split
    · right; exact List.mem_cons_self _ _
    · split
      · rcases ih r with h | h
        · right; rw [h]; exact List.mem_cons_self _ _
        · right; exact List.mem_cons_of_mem _ h
      · rcases ih rtn with h | h
        · left; exact h
        · right; exact List.mem_cons_of_mem _ h

theorem or_fold_mem (rs : List Int) (rtn : Int) :
    or_fold rtn rs = rtn ∨ or_fold rtn rs ∈ rs := by
  induction rs generalizing rtn with
  | nil => left; rfl
  | cons r rs ih =>
    simp only [or_fold]
    split
    · right; exact List.mem_cons_self _ _
    · split
      · rcases ih r with h | h
        · right; rw [h]; exact List.mem_cons_self _ _
        · right; exact List.mem_cons_of_mem _ h
      · rcases ih rtn with h | h
        · left; exact h
        · right; exact List.mem_cons_of_mem _ h

/-! ## Range of the leaf evaluators -/

theorem own_true : is_own_result LDAP_COMPARE_TRUE := Or.inl rfl

theorem own_false : is_own_result LDAP_COMPARE_FALSE := Or.inr (Or.inl rfl)

theorem own_access : is_own_result LDAP_INSUFFICIENT_ACCESS :=
  Or.inr (Or.inr (Or.inr (Or.inl rfl)))

theorem own_matching : is_own_result LDAP_INAPPROPRIATE_MATCHING :=
  Or.inr (Or.inr (Or.inr (Or.inr (Or.inl rfl))))

theorem own_other : is_own_result LDAP_OTHER :=
  Or.inr (Or.inr (Or.inr (Or.inr (Or.inr (Or.inr rfl)))))

theorem own_invalid_syntax : is_own_result LDAP_INVALID_SYNTAX :=
  Or.inr (Or.inr (Or.inr (Or.inr (Or.inr (Or.inl rfl)))))

theorem own_protocol_error : is_own_result LDAP_PROTOCOL_ERROR :=
  Or.inr (Or.inr (Or.inl rfl))

theorem matcher_status_intro (env : Env) (ad : AttributeDescription) (mr : MatchingRule)
    (fl : Nat) (v : MatchValue) (w : AssertedValue)
    (h : (env.value_match ad mr fl v w).status ≠ LDAP_SUCCESS) :
    is_matcher_status env (env.value_match ad mr fl v w).status :=
  ⟨h, ad, mr, fl, v, w, rfl⟩

theorem test_ava_values_range (env : Env) (ava : AttributeAssertion) (type : Int)
    (a : Attribute) (mr : MatchingRule) (rc : Int) (bvs : List berval) :
    (∀ v, test_ava_values env ava type a mr rc bvs = Flow.ret v → v = LDAP_COMPARE_TRUE)
    ∧ (∀ rc1, test_ava_values env ava type a mr rc bvs = Flow.next rc1 →
        rc1 = rc ∨ is_matcher_status env rc1) := by
  induction bvs with
  | nil =>
    simp only [test_ava_values]
    exact ⟨fun v h => (by cases h), fun rc1 h => (by cases h; exact Or.inl rfl)⟩
  | cons bv bvs ih =>
    simp only [test_ava_values]
    split
    · rename_i hs
      exact ⟨fun v h => (by cases h),
        fun rc1 h => (by cases h; exact Or.inr (matcher_status_intro _ _ _ _ _ _ hs))⟩
    · split
      · exact ⟨fun v h => (by cases h; rfl), fun rc1 h => (by cases h)⟩
      · exact ih

theorem test_ava_attrs_range (env : Env) (op : Option Operation) (e : Entry)
    (ava : AttributeAssertion) (type : Int) (l : List Attribute) (rc : Int)
    (h : in_leaf_range env rc) :
    in_leaf_range env (test_ava_attrs env op e ava type rc l) := by
  induction l generalizing rc with
  | nil => simpa [test_ava_attrs] using h
  | cons a rest ih =>
    simp only [test_ava_attrs]
    split
    · exact ih _ (Or.inl own_access)
    · cases hr : ava_rule type a.a_desc.ad_type with
      | none => exact ih _ (Or.inl own_matching)
      | some mr =>
        have hv := test_ava_values_range env ava type a mr rc a.a_nvals
        cases hf : test_ava_values env ava type a mr rc a.a_nvals with
        | ret v =>
          simp only [hf]
          rw [hv.1 v hf]
          exact Or.inl own_true
        | next rc1 =>
          simp only [hf]
          rcases hv.2 rc1 hf with h1 | h1
          · rw [h1]; exact ih _ h
          · exact ih _ (Or.inr h1)

theorem test_ava_filter_range (env : Env) (op : Option Operation) (e : Entry)
    (ava : AttributeAssertion) (type : Int) :
    in_leaf_range env (test_ava_filter env op e ava type) := by
  unfold test_ava_filter
  split
  · exact Or.inl own_access
  · split
    · simp only []
      split
      · exact Or.inl own_matching
      · split
        · exact Or.inl own_other
        · split
          · split
            · exact Or.inl own_true
            · exact Or.inl own_false
          · split
            · split
              · exact Or.inl own_true
              · exact Or.inl own_false
            · exact Or.inl own_other
    · split
      · split
        · exact Or.inl own_matching
        · simp only []
          split
          · rename_i hs
            exact Or.inr (matcher_status_intro _ _ _ _ _ _ hs)
          · split
            · exact Or.inl own_true
            · exact Or.inl own_false
      · exact test_ava_attrs_range _ _ _ _ _ _ _ (Or.inl own_false)

theorem test_presence_attrs_range (env : Env) (op : Option Operation) (e : Entry)
    (desc : AttributeDescription) (l : List Attribute) (rc : Int)
    (h : is_own_result rc) :
    is_own_result (test_presence_attrs env op e desc rc l) := by
  induction l generalizing rc with
  | nil => simpa [test_presence_attrs] using h
  | cons a rest ih =>
    simp only [test_presence_attrs]
    split
    · exact ih _ own_access
    · exact own_true

theorem test_presence_filter_range (env : Env) (op : Option Operation) (e : Entry)
    (desc : AttributeDescription) :
    is_own_result (test_presence_filter env op e desc) := by
  unfold test_presence_filter
  split
  · exact own_access
  · split
    · split
      · exact own_true
      · exact own_false
    · split
      · exact own_true
      · exact test_presence_attrs_range _ _ _ _ _ _ own_false

theorem test_substrings_values_range (env : Env) (sub : SubstringsAssertion)
    (a : Attribute) (mr : MatchingRule) (rc : Int) (bvs : List berval) :
    (∀ v, test_substrings_values env sub a mr rc bvs = Flow.ret v → v = LDAP_COMPARE_TRUE)
    ∧ (∀ rc1, test_substrings_values env sub a mr rc bvs = Flow.next rc1 →
        rc1 = rc ∨ is_matcher_status env rc1) := by
  induction bvs with
  | nil =>
    simp only [test_substrings_values]
    exact ⟨fun v h => (by cases h), fun rc1 h => (by cases h; exact Or.inl rfl)⟩
  | cons bv bvs ih =>
    simp only [test_substrings_values]
    split
    · rename_i hs
      exact ⟨fun v h => (by cases h),
        fun rc1 h => (by cases h; exact Or.inr (matcher_status_intro _ _ _ _ _ _ hs))⟩
    · split
      · exact ⟨fun v h => (by cases h; rfl), fun rc1 h => (by cases h)⟩
      · exact ih

theorem test_substrings_attrs_range (env : Env) (op : Option Operation) (e : Entry)
    (sub : SubstringsAssertion) (l : List Attribute) (rc : Int)
    (h : in_leaf_range env rc) :
    in_leaf_range env (test_substrings_attrs env op e sub rc l) := by
  induction l generalizing rc with
  | nil => simpa [test_substrings_attrs] using h
  | cons a rest ih =>
    simp only [test_substrings_attrs]
    split
    · exact ih _ (Or.inl own_access)
    · cases hr : a.a_desc.ad_type.sat_substr with
      | none => exact ih _ (Or.inl own_matching)
      | some mr =>
        have hv := test_substrings_values_range env sub a mr rc a.a_nvals
        cases hf : test_substrings_values env sub a mr rc a.a_nvals with
        | ret v =>
          simp only [hf]
          rw [hv.1 v hf]
          exact Or.inl own_true
        | next rc1 =>
          simp only [hf]
          rcases hv.2 rc1 hf with h1 | h1
          · rw [h1]; exact ih _ h
          · exact ih _ (Or.inr h1)

theorem test_substrings_filter_range (env : Env) (op : Option Operation) (e : Entry)
    (sub : SubstringsAssertion) :
    in_leaf_range env (test_substrings_filter env op e sub) := by
  unfold test_substrings_filter
  split
  · exact Or.inl own_access
  · exact test_substrings_attrs_range _ _ _ _ _ _ (Or.inl own_false)

theorem test_mra_desc_values_range (env : Env) (mra : MatchingRuleAssertion) (a : Attribute)
    (bvs : List berval) (rc : Int)
    (h : test_mra_desc_values env mra a bvs = some rc) : in_leaf_range env rc := by
  induction bvs with
  | nil => simp [test_mra_desc_values] at h
  | cons bv bvs ih =>
    simp only [test_mra_desc_values] at h
    split at h
    · rename_i hs
      cases h
      exact Or.inr (matcher_status_intro _ _ _ _ _ _ hs)
    · split at h
      · cases h
        exact Or.inl own_true
      · exact ih h

theorem test_mra_desc_attrs_range (env : Env) (mra : MatchingRuleAssertion)
    (l : List Attribute) (rc : Int)
    (h : test_mra_desc_attrs env mra l = some rc) : in_leaf_range env rc := by
  induction l with
  | nil => simp [test_mra_desc_attrs] at h
  | cons a rest ih =>
    simp only [test_mra_desc_attrs] at h
    split at h
    · split at h
      · rename_i hs
        cases h
        exact Or.inr (matcher_status_intro _ _ _ _ _ _ hs)
      · split at h
        · cases h
          exact Or.inl own_true
        · cases h
          exact Or.inl own_false
    · cases hv : test_mra_desc_values env mra a (mra_values mra a) with
      | some rc1 =>
        simp only [hv] at h
        cases h
        exact test_mra_desc_values_range _ _ _ _ _ hv
      | none =>
        simp only [hv] at h
        exact ih h

theorem test_mra_all_values_range (env : Env) (mra : MatchingRuleAssertion) (a : Attribute)
    (value : berval) (bvs : List berval) (rc : Int) :
    test_mra_all_values env mra a value rc bvs = rc
      ∨ test_mra_all_values env mra a value rc bvs = LDAP_SUCCESS
      ∨ in_leaf_range env (test_mra_all_values env mra a value rc bvs) := by
  induction bvs generalizing rc with
  | nil => left; rfl
  | cons bv bvs ih =>
    simp only [test_mra_all_values]
    split
    · rename_i hs
      exact Or.inr (Or.inr (Or.inr (matcher_status_intro _ _ _ _ _ _ hs)))
    · split
      · exact Or.inr (Or.inr (Or.inl own_true))
      · rename_i hs _
        rcases ih (env.value_match a.a_desc mra.ma_rule 0 (MatchValue.bv bv)
          (AssertedValue.bv value)).status with h1 | h1 | h1
        · right; left
          rw [h1]
          exact not_not.mp hs
        · exact Or.inr (Or.inl h1)
        · exact Or.inr (Or.inr h1)

theorem test_mra_all_attrs_range (env : Env) (op : Option Operation) (e : Entry)
    (mra : MatchingRuleAssertion) (l : List Attribute) (rc : Int)
    (h : test_mra_all_attrs env op e mra l = some rc) : in_leaf_range env rc := by
  induction l with
  | nil => simp [test_mra_all_attrs] at h
  | cons a rest ih =>
    have tail : ∀ rc0 : Int, rc0 = LDAP_SUCCESS →
        (if test_mra_all_values env mra a
              (env.asserted_value_validate_normalize a.a_desc mra.ma_rule mra.ma_value).2
              rc0 (mra_values mra a) ≠ LDAP_SUCCESS
          then some (test_mra_all_values env mra a
              (env.asserted_value_validate_normalize a.a_desc mra.ma_rule mra.ma_value).2
              rc0 (mra_values mra a))
          else test_mra_all_attrs env op e mra rest) = some rc →
        in_leaf_range env rc := by
      intro rc0 h0 ht
      by_cases h5 : test_mra_all_values env mra a
          (env.asserted_value_validate_normalize a.a_desc mra.ma_rule mra.ma_value).2
          rc0 (mra_values mra a) ≠ LDAP_SUCCESS
      · rw [if_pos h5] at ht
        cases ht
        rcases test_mra_all_values_range env mra a
          (env.asserted_value_validate_normalize a.a_desc mra.ma_rule mra.ma_value).2
          (mra_values mra a) rc0 with h6 | h6 | h6
        · exact absurd (h6.trans h0) h5
        · exact absurd h6 h5
        · exact h6
      · rw [if_neg h5] at ht
        exact ih ht
    simp only [test_mra_all_attrs] at h
    by_cases h1 : env.mr_usable_with_at mra.ma_rule a.a_desc.ad_type = false
    · rw [if_pos h1] at h
      exact ih h
    · rw [if_neg h1] at h
      by_cases h2 : (env.asserted_value_validate_normalize a.a_desc mra.ma_rule
          mra.ma_value).1 ≠ LDAP_SUCCESS
      · rw [if_pos h2] at h
        exact ih h
      · rw [if_neg h2] at h
        by_cases h3 : env.access_allowed op e a.a_desc
            (some (env.asserted_value_validate_normalize a.a_desc mra.ma_rule
              mra.ma_value).2) = false
        · rw [if_pos h3] at h
          exact ih h
        · rw [if_neg h3] at h
          by_cases h4 : mra_component env mra = true
          · rw [if_pos h4] at h
            by_cases h5 : (env.value_match a.a_desc mra.ma_rule 0 (MatchValue.attr a)
                (AssertedValue.mra mra)).status ≠ LDAP_SUCCESS
            · rw [if_pos h5] at h
              cases h
            · rw [if_neg h5] at h
              by_cases h6 : (env.value_match a.a_desc mra.ma_rule 0 (MatchValue.attr a)
                  (AssertedValue.mra mra)).cmp = 0
              · rw [if_pos h6] at h
                cases h
              · rw [if_neg h6] at h
                exact tail _ (not_not.mp h5) h
          · rw [if_neg h4] at h
            exact tail _ (not_not.mp h2) h

theorem test_mra_dn_avas_range (env : Env) (op : Option Operation) (e : Entry)
    (mra : MatchingRuleAssertion) (l : List LDAPAVA) (rc : Int)
    (h : test_mra_dn_avas env op e mra l = some rc) : in_leaf_range env rc := by
  induction l with
  | nil => simp [test_mra_dn_avas] at h
  | cons ava rest ih =>
    simp only [test_mra_dn_avas] at h
    cases hv : mra_dn_value env op e mra ava.la_private with
    | none =>
      simp only [hv] at h
      exact ih h
    | some value =>
      simp only [hv] at h
      by_cases hc : (env.value_match ava.la_private mra.ma_rule 0
            (MatchValue.bv ava.la_value) (AssertedValue.bv value)).status = LDAP_SUCCESS
          ∧ (env.value_match ava.la_private mra.ma_rule 0
            (MatchValue.bv ava.la_value) (AssertedValue.bv value)).cmp = 0
      · rw [if_pos hc, if_pos (by decide)] at h
        cases h
        exact Or.inl own_true
      · rw [if_neg hc] at h
        by_cases hs : (env.value_match ava.la_private mra.ma_rule 0
            (MatchValue.bv ava.la_value) (AssertedValue.bv value)).status ≠ LDAP_SUCCESS
        · rw [if_pos hs] at h
          cases h
          exact Or.inr (matcher_status_intro _ _ _ _ _ _ hs)
        · rw [if_neg hs] at h
          exact ih h

theorem test_mra_dn_rdns_range (env : Env) (op : Option Operation) (e : Entry)
    (mra : MatchingRuleAssertion) (dn : LDAPDN) (rc : Int)
    (h : test_mra_dn_rdns env op e mra dn = some rc) : in_leaf_range env rc := by
  induction dn with
  | nil => simp [test_mra_dn_rdns] at h
  | cons rdn rest ih =>
    simp only [test_mra_dn_rdns] at h
    cases hv : test_mra_dn_avas env op e mra rdn with
    | some rc1 =>
      simp only [hv] at h
      cases h
      exact test_mra_dn_avas_range _ _ _ _ _ _ hv
    | none =>
      simp only [hv] at h
      exact ih h

theorem test_mra_attrs_range (env : Env) (op : Option Operation) (e : Entry)
    (mra : MatchingRuleAssertion) (rc : Int)
    (h : test_mra_attrs env op e mra = some rc) : in_leaf_range env rc := by
  unfold test_mra_attrs at h
  split at h
  · split at h
    · cases h
      exact Or.inl own_access
    · split at h
      · simp only [] at h
        split at h
        · rename_i hs
          cases h
          exact Or.inr (matcher_status_intro _ _ _ _ _ _ hs)
        · split at h
          · cases h
            exact Or.inl own_true
          · cases h
            exact Or.inl own_false
      · exact test_mra_desc_attrs_range _ _ _ _ h
  · exact test_mra_all_attrs_range _ _ _ _ _ _ h

theorem test_mra_filter_range (env : Env) (op : Option Operation) (e : Entry)
    (mra : MatchingRuleAssertion) :
    in_leaf_range env (test_mra_filter env op e mra) := by
  unfold test_mra_filter
  cases h : test_mra_attrs env op e mra with
  | some rc =>
    simp only []
    exact test_mra_attrs_range _ _ _ _ _ h
  | none =>
    simp only []
    split
    · split
      · exact Or.inl own_invalid_syntax
      · cases hd : test_mra_dn_rdns env op e mra (env.dnPrettyDN e.e_name).2 with
        | some rc =>
          simp only []
          exact test_mra_dn_rdns_range _ _ _ _ _ _ hd
        | none =>
          simp only []
          exact Or.inl own_false
    · exact Or.inl own_false

/-! ## Access masking and the range of results (C7, C8) -/

/-- C7. Access masking: when the access oracle denies SEARCH on `desc` for the
entry (for every asserted value and for the null value), every leaf filter over
`desc` (EQUALITY, GE, LE, APPROX, PRESENT, SUBSTRINGS, EXTENSIBLE with that
`ma_desc`) evaluates to INSUFFICIENT_ACCESS, whatever the entry, the schema, the
value matcher and the backend hook are, also for the well-known descriptors;
and an OR that contains such a leaf and a sibling that evaluates to TRUE
evaluates to TRUE. -/
theorem C7_access_masking (env : Env) (op : Option Operation) (e : Entry)
    (desc : AttributeDescription)
    (hdeny : ∀ v : Option berval, env.access_allowed op e desc v = false)
    (leaf : Filter) (hleaf : leaf_over desc leaf) :
    test_filter env op e leaf = LDAP_INSUFFICIENT_ACCESS
    ∧ (∀ (l : List Filter) (g : Filter), leaf ∈ l → g ∈ l →
        test_filter env op e g = LDAP_COMPARE_TRUE →
        test_filter env op e (Filter.OR l) = LDAP_COMPARE_TRUE) := by
  constructor
  · cases leaf with
    | EQUALITY f_ava =>
      simp only [leaf_over] at hleaf
      simp [test_filter, test_ava_filter, hleaf, hdeny]
    | GE f_ava =>
      simp only [leaf_over] at hleaf
      simp [test_filter, test_ava_filter, hleaf, hdeny]
    | LE f_ava =>
      simp only [leaf_over] at hleaf
      simp [test_filter, test_ava_filter, hleaf, hdeny]
    | APPROX f_ava =>
      simp only [leaf_over] at hleaf
      simp [test_filter, test_ava_filter, hleaf, hdeny]
    | PRESENT f_desc =>
      simp only [leaf_over] at hleaf
      simp [test_filter, test_presence_filter, hleaf, hdeny]
    | SUBSTRINGS f_sub =>
      simp only [leaf_over] at hleaf
      simp [test_filter, test_substrings_filter, hleaf, hdeny]
    | EXT f_mra =>
      simp only [leaf_over] at hleaf
      simp [test_filter, test_mra_filter, test_mra_attrs, hleaf, hdeny]
    | COMPUTED _ => exact absurd hleaf (by simp [leaf_over])
    | AND _ => exact absurd hleaf (by simp [leaf_over])
    | OR _ => exact absurd hleaf (by simp [leaf_over])
    | NOT _ => exact absurd hleaf (by simp [leaf_over])
    | UNKNOWN _ => exact absurd hleaf (by simp [leaf_over])
  · intro l g _ hg hT
    rw [test_filter_OR]
    exact or_fold_true _ _ (List.mem_map.mpr ⟨g, hg, hT⟩)

/-- C7 at a concrete input: with SEARCH on `sn` denied, `(sn=[7])` is
INSUFFICIENT_ACCESS and `(|(sn=[7])(cn=[2]))` is TRUE on the sample entry. -/
theorem C7_access_masking_witness :
    test_filter denySnEnv none demoEntry (Filter.EQUALITY { aa_desc := adSn, aa_value := [7] })
      = LDAP_INSUFFICIENT_ACCESS
    ∧ test_filter denySnEnv none demoEntry
        (Filter.OR [Filter.EQUALITY { aa_desc := adSn, aa_value := [7] },
          Filter.EQUALITY { aa_desc := adCn, aa_value := [2] }]) = LDAP_COMPARE_TRUE :=
  ⟨(C7_access_masking denySnEnv none demoEntry adSn (fun _ => rfl)
      (Filter.EQUALITY { aa_desc := adSn, aa_value := [7] }) rfl).1,
   (C7_access_masking denySnEnv none demoEntry adSn (fun _ => rfl)
      (Filter.EQUALITY { aa_desc := adSn, aa_value := [7] }) rfl).2 _
      (Filter.EQUALITY { aa_desc := adCn, aa_value := [2] }) (by simp) (by simp) (by decide)⟩

theorem in_range_of_leaf (env : Env) (f : Filter) (r : Int) (h : in_leaf_range env r) :
    in_range env f r :=
  h.elim Or.inl (fun hm => Or.inr (Or.inr hm))

theorem test_filter_in_range (env : Env) (op : Option Operation) (e : Entry) (f : Filter) :
    in_range env f (test_filter env op e f) := by
  revert f
  apply filter_induction
  · intro f hA hO hN
    cases f with
    | COMPUTED r => exact Or.inr (Or.inl (by rw [test_filter]; exact Carries.computed r))
    | EQUALITY f_ava => rw [test_filter]; exact in_range_of_leaf _ _ _ (test_ava_filter_range _ _ _ _ _)
    | GE f_ava => rw [test_filter]; exact in_range_of_leaf _ _ _ (test_ava_filter_range _ _ _ _ _)
    | LE f_ava => rw [test_filter]; exact in_range_of_leaf _ _ _ (test_ava_filter_range _ _ _ _ _)
    | APPROX f_ava => rw [test_filter]; exact in_range_of_leaf _ _ _ (test_ava_filter_range _ _ _ _ _)
    | PRESENT f_desc =>
      rw [test_filter]; exact Or.inl (test_presence_filter_range _ _ _ _)
    | SUBSTRINGS f_sub =>
      rw [test_filter]; exact in_range_of_leaf _ _ _ (test_substrings_filter_range _ _ _ _)
    | EXT f_mra => rw [test_filter]; exact in_range_of_leaf _ _ _ (test_mra_filter_range _ _ _ _)
    | UNKNOWN c => rw [test_filter]; exact Or.inl own_protocol_error
    | AND l => exact absurd rfl (hA l)
    | OR l => exact absurd rfl (hO l)
    | NOT g => exact absurd rfl (hN g)
  · intro l ih
    rw [test_filter_AND]
    rcases and_fold_mem (l.map (test_filter env op e)) LDAP_COMPARE_TRUE with h | h
    · rw [h]; exact Or.inl own_true
    · obtain ⟨g, hg, hv⟩ := List.mem_map.mp h
      rw [← hv]
      rcases ih g hg with h1 | h1 | h1
      · exact Or.inl h1
      · exact Or.inr (Or.inl (Carries.and l g _ hg h1))
      · exact Or.inr (Or.inr h1)
  · intro l ih
    rw [test_filter_OR]
    rcases or_fold_mem (l.map (test_filter env op e)) LDAP_COMPARE_FALSE with h | h
    · rw [h]; exact Or.inl own_false
    · obtain ⟨g, hg, hv⟩ := List.mem_map.mp h
      rw [← hv]
      rcases ih g hg with h1 | h1 | h1
      · exact Or.inl h1
      · exact Or.inr (Or.inl (Carries.or l g _ hg h1))
      · exact Or.inr (Or.inr h1)
  · intro g ih
    rw [test_filter_NOT]
    split
    · exact Or.inl own_false
    · split
      · exact Or.inl own_true
      · rcases ih with h1 | h1 | h1
        · exact Or.inl h1
        · exact Or.inr (Or.inl (Carries.not g _ h1))
        · exact Or.inr (Or.inr h1)

/-- C8. Range of `test_filter`: for every filter tree, entry and operation
context the result is one of TRUE, FALSE, PROTOCOL_ERROR, INSUFFICIENT_ACCESS,
INAPPROPRIATE_MATCHING, INVALID_SYNTAX, OTHER, or a value carried by a COMPUTED
node of the tree, or a non-success status that the value matcher returns.
Consequently, when every COMPUTED node carries TRUE, FALSE or UNDEFINED and the
value matcher always reports success, the result is one of TRUE, FALSE,
UNDEFINED and the five error codes, whatever statuses the normalizer, the DN
parser and the has_subordinates hook report. -/
theorem C8_result_range (env : Env) (op : Option Operation) (e : Entry) (f : Filter) :
    (is_own_result (test_filter env op e f)
      ∨ Carries f (test_filter env op e f)
      ∨ is_matcher_status env (test_filter env op e f))
    ∧ ((∀ r, Carries f r → is_truth_value r) →
       (∀ ad mr fl v w, (env.value_match ad mr fl v w).status = LDAP_SUCCESS) →
        (test_filter env op e f = LDAP_COMPARE_TRUE
          ∨ test_filter env op e f = LDAP_COMPARE_FALSE
          ∨ test_filter env op e f = SLAPD_COMPARE_UNDEFINED
          ∨ test_filter env op e f = LDAP_PROTOCOL_ERROR
          ∨ test_filter env op e f = LDAP_INSUFFICIENT_ACCESS
          ∨ test_filter env op e f = LDAP_INAPPROPRIATE_MATCHING
          ∨ test_filter env op e f = LDAP_INVALID_SYNTAX
          ∨ test_filter env op e f = LDAP_OTHER)) := by
  have hr := test_filter_in_range env op e f
  refine ⟨hr, ?_⟩
  intro hC hM
  rcases hr with h | h | h
  · rcases h with h | h | h | h | h | h | h
    · exact Or.inl h
    · exact Or.inr (Or.inl h)
    · exact Or.inr (Or.inr (Or.inr (Or.inl h)))
    · exact Or.inr (Or.inr (Or.inr (Or.inr (Or.inl h))))
    · exact Or.inr (Or.inr (Or.inr (Or.inr (Or.inr (Or.inl h)))))
    · exact Or.inr (Or.inr (Or.inr (Or.inr (Or.inr (Or.inr (Or.inl h))))))
    · exact Or.inr (Or.inr (Or.inr (Or.inr (Or.inr (Or.inr (Or.inr h))))))
  · rcases hC _ h with h1 | h1 | h1
    · exact Or.inl h1
    · exact Or.inr (Or.inl h1)
    · exact Or.inr (Or.inr (Or.inl h1))
  · obtain ⟨hne, ad, mr, fl, v, w, hs⟩ := h
    exact absurd ((hM ad mr fl v w).symm.trans hs).symm hne

/-- C8 at a concrete input: `(&(?=undefined)(!(sn>=[8])))` on the sample entry,
with the sample matcher that always reports success. -/
theorem C8_result_range_witness :
    test_filter demoEnv none demoEntry
        (Filter.AND [Filter.COMPUTED SLAPD_COMPARE_UNDEFINED,
          Filter.NOT (Filter.GE { aa_desc := adSn, aa_value := [8] })]) = LDAP_COMPARE_TRUE
      ∨ test_filter demoEnv none demoEntry
        (Filter.AND [Filter.COMPUTED SLAPD_COMPARE_UNDEFINED,
          Filter.NOT (Filter.GE { aa_desc := adSn, aa_value := [8] })]) = LDAP_COMPARE_FALSE
      ∨ test_filter demoEnv none demoEntry
        (Filter.AND [Filter.COMPUTED SLAPD_COMPARE_UNDEFINED,
          Filter.NOT (Filter.GE { aa_desc := adSn, aa_value := [8] })]) = SLAPD_COMPARE_UNDEFINED
      ∨ test_filter demoEnv none demoEntry
        (Filter.AND [Filter.COMPUTED SLAPD_COMPARE_UNDEFINED,
          Filter.NOT (Filter.GE { aa_desc := adSn, aa_value := [8] })]) = LDAP_PROTOCOL_ERROR
      ∨ test_filter demoEnv none demoEntry
        (Filter.AND [Filter.COMPUTED SLAPD_COMPARE_UNDEFINED,
          Filter.NOT (Filter.GE { aa_desc := adSn, aa_value := [8] })]) = LDAP_INSUFFICIENT_ACCESS
      ∨ test_filter demoEnv none demoEntry
        (Filter.AND [Filter.COMPUTED SLAPD_COMPARE_UNDEFINED,
          Filter.NOT (Filter.GE { aa_desc := adSn, aa_value := [8] })]) = LDAP_INAPPROPRIATE_MATCHING
      ∨ test_filter demoEnv none demoEntry
        (Filter.AND [Filter.COMPUTED SLAPD_COMPARE_UNDEFINED,
          Filter.NOT (Filter.GE { aa_desc := adSn, aa_value := [8] })]) = LDAP_INVALID_SYNTAX
      ∨ test_filter demoEnv none demoEntry
        (Filter.AND [Filter.COMPUTED SLAPD_COMPARE_UNDEFINED,
          Filter.NOT (Filter.GE { aa_desc := adSn, aa_value := [8] })]) = LDAP_OTHER :=
  (C8_result_range demoEnv none demoEntry
    (Filter.AND [Filter.COMPUTED SLAPD_COMPARE_UNDEFINED,
      Filter.NOT (Filter.GE { aa_desc := adSn, aa_value := [8] })])).2
    (by
      intro r h
      cases h with
      | and l g r hg hc =>
        rcases List.mem_cons.mp hg with h1 | h1
        · subst h1
          cases hc
          exact Or.inr (Or.inr rfl)
        · rcases List.mem_cons.mp h1 with h2 | h2
          · subst h2
            cases hc with
            | not g r hc2 => cases hc2
          · exact absurd h2 (List.not_mem_nil _))
    (by
      intro ad mr fl v w
      cases v <;> cases w <;> rfl)

/-! ## The generic attribute assertion (C9) -/

theorem ava_rule_tag (K : MatchKind) (ty : AttributeType) :
    ava_rule K.tag ty = kind_rule K ty := by
  cases K <;> simp [ava_rule, kind_rule, MatchKind.tag, LDAP_FILTER_EQUALITY, LDAP_FILTER_GE,
    LDAP_FILTER_LE, LDAP_FILTER_APPROX]

theorem ava_hit_tag (K : MatchKind) (m : Int) :
    ava_hit K.tag m = true ↔ kind_holds K m := by
  cases K <;> simp [ava_hit, kind_holds, MatchKind.tag, LDAP_FILTER_EQUALITY, LDAP_FILTER_GE,
    LDAP_FILTER_LE, LDAP_FILTER_APPROX]

theorem hit_before_failure_nil (ok hit : berval → Prop) : ¬ hit_before_failure ok hit [] := by
  rintro ⟨i, bv, h, _⟩
  simp at h

theorem hit_before_failure_cons (ok hit : berval → Prop) (b : berval) (bs : List berval) :
    hit_before_failure ok hit (b :: bs)
      ↔ ok b ∧ (hit b ∨ hit_before_failure ok hit bs) := by
  constructor
  · rintro ⟨i, bv, hbv, hhit, hall⟩
    have h0 : ok b := hall 0 (Nat.zero_le _) b (by simp)
    refine ⟨h0, ?_⟩
    cases i with
    | zero =>
      left
      simp at hbv
      rw [hbv]; exact hhit
    | succ i =>
      right
      refine ⟨i, bv, by simpa using hbv, hhit, ?_⟩
      intro j hj bw hbw
      exact hall (j + 1) (Nat.succ_le_succ hj) bw (by simpa using hbw)
  · rintro ⟨h0, h | ⟨i, bv, hbv, hhit, hall⟩⟩
    · refine ⟨0, b, by simp, h, ?_⟩
      intro j hj bw hbw
      have : j = 0 := Nat.le_zero.mp hj
      subst this
      simp at hbw
      rw [← hbw]; exact h0
    · refine ⟨i + 1, bv, by simpa using hbv, hhit, ?_⟩
      intro j hj bw hbw
      cases j with
      | zero =>
        simp at hbw
        rw [← hbw]; exact h0
      | succ j =>
        exact hall j (Nat.le_of_succ_le_succ hj) bw (by simpa using hbw)

theorem test_ava_values_ret_iff (env : Env) (ava : AttributeAssertion) (K : MatchKind)
    (a : Attribute) (mr : MatchingRule) (rc : Int) (bvs : List berval) :
    test_ava_values env ava K.tag a mr rc bvs = Flow.ret LDAP_COMPARE_TRUE
      ↔ hit_before_failure
          (fun bw => (env.value_match a.a_desc mr 0 (MatchValue.bv bw)
            (AssertedValue.bv ava.aa_value)).status = LDAP_SUCCESS)
          (fun bv => kind_holds K (env.value_match a.a_desc mr 0 (MatchValue.bv bv)
            (AssertedValue.bv ava.aa_value)).cmp)
          bvs := by
  induction bvs with
  | nil =>
    simp only [test_ava_values]
    constructor
    · intro h; cases h
    · intro h; exact absurd h (hit_before_failure_nil _ _)
  | cons b bs ih =>
    rw [hit_before_failure_cons]
    simp only [test_ava_values]
    by_cases hs : (env.value_match a.a_desc mr 0 (MatchValue.bv b)
        (AssertedValue.bv ava.aa_value)).status ≠ LDAP_SUCCESS
    · rw [if_pos hs]
      constructor
      · intro h; cases h
      · intro h; exact absurd h.1 hs
    · rw [if_neg hs]
      by_cases hh : ava_hit K.tag (env.value_match a.a_desc mr 0 (MatchValue.bv b)
          (AssertedValue.bv ava.aa_value)).cmp = true
      · rw [if_pos hh]
        constructor
        · intro _
          exact ⟨not_not.mp hs, Or.inl ((ava_hit_tag K _).mp hh)⟩
        · intro _; rfl
      · rw [if_neg hh, ih]
        constructor
        · intro h
          exact ⟨not_not.mp hs, Or.inr h⟩
        · rintro ⟨_, h | h⟩
          · exact absurd ((ava_hit_tag K _).mpr h) hh
          · exact h

theorem test_ava_values_next (env : Env) (ava : AttributeAssertion) (type : Int)
    (a : Attribute) (mr : MatchingRule) (rc rc1 : Int) (bvs : List berval)
    (h : test_ava_values env ava type a mr rc bvs = Flow.next rc1) :
    rc1 = rc ∨ ∃ bv ∈ bvs, (env.value_match a.a_desc mr 0 (MatchValue.bv bv)
      (AssertedValue.bv ava.aa_value)).status = rc1 := by
  induction bvs with
  | nil =>
    simp only [test_ava_values] at h
    cases h
    exact Or.inl rfl
  | cons b bs ih =>
    simp only [test_ava_values] at h
    by_cases hs : (env.value_match a.a_desc mr 0 (MatchValue.bv b)
        (AssertedValue.bv ava.aa_value)).status ≠ LDAP_SUCCESS
    · rw [if_pos hs] at h
      cases h
      exact Or.inr ⟨b, List.mem_cons_self _ _, rfl⟩
    · rw [if_neg hs] at h
      by_cases hh : ava_hit type (env.value_match a.a_desc mr 0 (MatchValue.bv b)
          (AssertedValue.bv ava.aa_value)).cmp = true
      · rw [if_pos hh] at h
        cases h
      · rw [if_neg hh] at h
        rcases ih h with h1 | ⟨bv, hbv, h1⟩
        · exact Or.inl h1
        · exact Or.inr ⟨bv, List.mem_cons_of_mem _ hbv, h1⟩

theorem test_ava_attrs_true_of_instance (env : Env) (op : Option Operation) (e : Entry)
    (ava : AttributeAssertion) (K : MatchKind) (l : List Attribute) (rc : Int)
    (h : ∃ a ∈ l, ava_instance_true env op e ava K a) :
    test_ava_attrs env op e ava K.tag rc l = LDAP_COMPARE_TRUE := by
  induction l generalizing rc with
  | nil =>
    obtain ⟨a, ha, _⟩ := h
    exact absurd ha (List.not_mem_nil _)
  | cons a rest ih =>
    simp only [test_ava_attrs]
    have hrest : ¬ ava_instance_true env op e ava K a →
        ∃ b ∈ rest, ava_instance_true env op e ava K b := by
      intro hna
      obtain ⟨b, hb, hib⟩ := h
      rcases List.mem_cons.mp hb with h1 | h1
      · subst h1; exact absurd hib hna
      · exact ⟨b, h1, hib⟩
    by_cases hd : ava.aa_desc ≠ a.a_desc
        ∧ env.access_allowed op e a.a_desc (some ava.aa_value) = false
    · rw [if_pos hd]
      apply ih
      apply hrest
      rintro ⟨h1 | h1, _⟩
      · exact hd.1 h1.symm
      · rw [hd.2] at h1; cases h1
    · rw [if_neg hd, ava_rule_tag]
      cases hr : kind_rule K a.a_desc.ad_type with
      | none =>
        simp only []
        apply ih
        apply hrest
        rintro ⟨_, mr, hmr, _⟩
        rw [hr] at hmr; cases hmr
      | some mr =>
        simp only []
        cases hf : test_ava_values env ava K.tag a mr rc a.a_nvals with
        | ret v =>
          simp only []
          exact (test_ava_values_range env ava K.tag a mr rc a.a_nvals).1 v hf
        | next rc1 =>
          simp only []
          apply ih
          apply hrest
          rintro ⟨_, mr2, hmr, hhit⟩
          rw [hr] at hmr
          cases hmr
          have := (test_ava_values_ret_iff env ava K a mr rc a.a_nvals).mpr hhit
          rw [hf] at this
          cases this

theorem test_ava_attrs_true_inv (env : Env) (op : Option Operation) (e : Entry)
    (ava : AttributeAssertion) (K : MatchKind) (l : List Attribute) (rc : Int)
    (h : test_ava_attrs env op e ava K.tag rc l = LDAP_COMPARE_TRUE) :
    (∃ a ∈ l, ava_instance_true env op e ava K a)
      ∨ rc = LDAP_COMPARE_TRUE
      ∨ (∃ a ∈ l, ∃ mr, kind_rule K a.a_desc.ad_type = some mr
          ∧ ∃ bv ∈ a.a_nvals, (env.value_match a.a_desc mr 0 (MatchValue.bv bv)
              (AssertedValue.bv ava.aa_value)).status = LDAP_COMPARE_TRUE) := by
  induction l generalizing rc with
  | nil =>
    simp only [test_ava_attrs] at h
    exact Or.inr (Or.inl h)
  | cons a rest ih =>
    have lift : ((∃ b ∈ rest, ava_instance_true env op e ava K b)
        ∨ (∃ b ∈ rest, ∃ mr, kind_rule K b.a_desc.ad_type = some mr
          ∧ ∃ bv ∈ b.a_nvals, (env.value_match b.a_desc mr 0 (MatchValue.bv bv)
              (AssertedValue.bv ava.aa_value)).status = LDAP_COMPARE_TRUE)) →
        ((∃ b ∈ a :: rest, ava_instance_true env op e ava K b)
        ∨ rc = LDAP_COMPARE_TRUE
        ∨ (∃ b ∈ a :: rest, ∃ mr, kind_rule K b.a_desc.ad_type = some mr
          ∧ ∃ bv ∈ b.a_nvals, (env.value_match b.a_desc mr 0 (MatchValue.bv bv)
              (AssertedValue.bv ava.aa_value)).status = LDAP_COMPARE_TRUE)) := by
      rintro (⟨b, hb, h1⟩ | ⟨b, hb, h1⟩)
      · exact Or.inl ⟨b, List.mem_cons_of_mem _ hb, h1⟩
      · exact Or.inr (Or.inr ⟨b, List.mem_cons_of_mem _ hb, h1⟩)
    simp only [test_ava_attrs] at h
    by_cases hd : ava.aa_desc ≠ a.a_desc
        ∧ env.access_allowed op e a.a_desc (some ava.aa_value) = false
    · rw [if_pos hd] at h
      rcases ih _ h with h1 | h1 | h1
      · exact lift (Or.inl h1)
      · exact absurd h1 (by decide)
      · exact lift (Or.inr h1)
    · rw [if_neg hd, ava_rule_tag] at h
      cases hr : kind_rule K a.a_desc.ad_type with
      | none =>
        simp only [hr] at h
        rcases ih _ h with h1 | h1 | h1
        · exact lift (Or.inl h1)
        · exact absurd h1 (by decide)
        · exact lift (Or.inr h1)
      | some mr =>
        simp only [hr] at h
        cases hf : test_ava_values env ava K.tag a mr rc a.a_nvals with
        | ret v =>
          left
          refine ⟨a, List.mem_cons_self _ _, ?_, mr, hr, ?_⟩
          · by_cases hEq : ava.aa_desc = a.a_desc
            · exact Or.inl hEq.symm
            · right
              by_contra hacc
              exact hd ⟨hEq, by simpa using hacc⟩
          · apply (test_ava_values_ret_iff env ava K a mr rc a.a_nvals).mp
            rw [hf, (test_ava_values_range env ava K.tag a mr rc a.a_nvals).1 v hf]
        | next rc1 =>
          simp only [hf] at h
          rcases ih _ h with h1 | h1 | h1
          · exact lift (Or.inl h1)
          · rcases test_ava_values_next env ava K.tag a mr rc rc1 a.a_nvals hf with h2 | h2
            · exact Or.inr (Or.inl (h2 ▸ h1))
            · obtain ⟨bv, hbv, hst⟩ := h2
              exact Or.inr (Or.inr ⟨a, List.mem_cons_self _ _, mr, hr, bv, hbv, hst.trans h1⟩)
          · exact lift (Or.inr h1)

theorem mem_attrs_find (env : Env) (l : List Attribute) (desc : AttributeDescription)
    (a : Attribute) :
    a ∈ attrs_find env l desc ↔ a ∈ l ∧ is_instance_of env desc a := by
  simp [attrs_find, is_instance_of, List.mem_filter]

theorem test_ava_filter_generic (env : Env) (op : Option Operation) (e : Entry)
    (ava : AttributeAssertion) (type : Int)
    (hacc : env.access_allowed op e ava.aa_desc (some ava.aa_value) = true)
    (hhs : ¬ (ava.aa_desc = env.slap_schema.si_ad_hasSubordinates
              ∧ (has_subordinates_hook op).isSome = true))
    (hdn : ava.aa_desc ≠ env.slap_schema.si_ad_entryDN) :
    test_ava_filter env op e ava type
      = test_ava_attrs env op e ava type LDAP_COMPARE_FALSE
          (attrs_find env e.e_attrs ava.aa_desc) := by
  have hnone : (if ava.aa_desc = env.slap_schema.si_ad_hasSubordinates
      then has_subordinates_hook op else none) = none := by
    by_cases h1 : ava.aa_desc = env.slap_schema.si_ad_hasSubordinates
    · rw [if_pos h1]
      cases hh : has_subordinates_hook op with
      | none => rfl
      | some hook => exact absurd ⟨h1, by rw [hh]; rfl⟩ hhs
    · rw [if_neg h1]
  unfold test_ava_filter
  rw [if_neg (by rw [hacc]; decide), hnone]
  simp only []
  rw [if_neg hdn]

/-- The generic attribute assertion and the value TRUE, for an arbitrary value
matcher: with SEARCH access to `desc` with the value allowed and `desc` not
handled by a special-descriptor branch, `test_ava_filter` returns TRUE whenever
some attribute instance of the entry satisfies (i), (ii) and (iii) of
`ava_instance_true`; when TRUE is returned, either such an instance exists or
the value matcher returned the status LDAP_COMPARE_TRUE on a value of an
instance; so for a value matcher that never reports LDAP_COMPARE_TRUE as its
status the result is TRUE if and only if such an instance exists. -/
theorem ava_true_characterisation (env : Env) (op : Option Operation) (e : Entry)
    (ava : AttributeAssertion) (K : MatchKind)
    (hacc : env.access_allowed op e ava.aa_desc (some ava.aa_value) = true)
    (hhs : ¬ (ava.aa_desc = env.slap_schema.si_ad_hasSubordinates
              ∧ (has_subordinates_hook op).isSome = true))
    (hdn : ava.aa_desc ≠ env.slap_schema.si_ad_entryDN) :
    ((∃ a ∈ e.e_attrs, is_instance_of env ava.aa_desc a ∧ ava_instance_true env op e ava K a) →
        test_ava_filter env op e ava K.tag = LDAP_COMPARE_TRUE)
    ∧ (test_ava_filter env op e ava K.tag = LDAP_COMPARE_TRUE →
        (∃ a ∈ e.e_attrs, is_instance_of env ava.aa_desc a ∧ ava_instance_true env op e ava K a)
        ∨ matcher_reported env e ava K LDAP_COMPARE_TRUE)
    ∧ ((∀ ad mr fl v w, (env.value_match ad mr fl v w).status ≠ LDAP_COMPARE_TRUE) →
        (test_ava_filter env op e ava K.tag = LDAP_COMPARE_TRUE
          ↔ ∃ a ∈ e.e_attrs, is_instance_of env ava.aa_desc a
              ∧ ava_instance_true env op e ava K a)) := by
  have hgen := test_ava_filter_generic env op e ava K.tag hacc hhs hdn
  have hfwd : (∃ a ∈ e.e_attrs, is_instance_of env ava.aa_desc a
        ∧ ava_instance_true env op e ava K a) →
      test_ava_filter env op e ava K.tag = LDAP_COMPARE_TRUE := by
    rintro ⟨a, ha, hi, ht⟩
    rw [hgen]
    exact test_ava_attrs_true_of_instance env op e ava K _ _
      ⟨a, (mem_attrs_find env _ _ a).mpr ⟨ha, hi⟩, ht⟩
  have hbwd : test_ava_filter env op e ava K.tag = LDAP_COMPARE_TRUE →
      (∃ a ∈ e.e_attrs, is_instance_of env ava.aa_desc a ∧ ava_instance_true env op e ava K a)
      ∨ matcher_reported env e ava K LDAP_COMPARE_TRUE := by
    intro h
    rw [hgen] at h
    rcases test_ava_attrs_true_inv env op e ava K _ _ h with h1 | h1 | h1
    · obtain ⟨a, ha, ht⟩ := h1
      have hm := (mem_attrs_find env _ _ a).mp ha
      exact Or.inl ⟨a, hm.1, hm.2, ht⟩
    · exact absurd h1 (by decide)
    · obtain ⟨a, ha, mr, hmr, bv, hbv, hst⟩ := h1
      have hm := (mem_attrs_find env _ _ a).mp ha
      exact Or.inr ⟨a, hm.1, hm.2, mr, hmr, bv, hbv, hst⟩
  refine ⟨hfwd, hbwd, ?_⟩
  intro hM
  constructor
  · intro h
    rcases hbwd h with h1 | ⟨a, _, _, mr, _, bv, _, hst⟩
    · exact h1
    · exact absurd hst (hM _ _ _ _ _)
  · exact hfwd

/-- C9. Generic attribute assertion, when it is TRUE: for every entry, match kind
K in EQUALITY, GE, LE, APPROX and assertion of `desc` and a value, where SEARCH
access to `desc` with the value is allowed, `desc` is not handled by a
special-descriptor branch, and the value matcher keeps its contract (its status
is SUCCESS or an error, never a truth value), `test_ava_filter` returns TRUE if
and only if some attribute instance of the entry whose description is `desc` or
a subtype of `desc` satisfies all of: (i) its description equals `desc` or
access to its own description with the value is allowed; (ii) its own attribute
type supplies the rule for K; (iii) there is an index in its normalized values
such that the value matcher, applied with that rule, reports success on every
value up to that index and its match integer there satisfies K.  The condition
is on one instance only: an access denial, a missing rule or a matcher error on
another instance does not prevent the TRUE. -/
theorem C9_generic_assertion_true (env : Env) (op : Option Operation) (e : Entry)
    (ava : AttributeAssertion) (K : MatchKind)
    (hacc : env.access_allowed op e ava.aa_desc (some ava.aa_value) = true)
    (hhs : ¬ (ava.aa_desc = env.slap_schema.si_ad_hasSubordinates
              ∧ (has_subordinates_hook op).isSome = true))
    (hdn : ava.aa_desc ≠ env.slap_schema.si_ad_entryDN)
    (hM : value_match_contract env) :
    test_ava_filter env op e ava K.tag = LDAP_COMPARE_TRUE
      ↔ ∃ a ∈ e.e_attrs, is_instance_of env ava.aa_desc a
          ∧ ava_instance_true env op e ava K a :=
  (ava_true_characterisation env op e ava K hacc hhs hdn).2.2
    (fun ad mr fl v w => (hM ad mr fl v w).1)

/-- C9 at a concrete input: the sample matcher keeps the contract, and
`(name=[7])` on the sample entry is TRUE through the instance `sn`, a subtype of
`name`, although the earlier instance `cn` has no matching value. -/
theorem C9_generic_assertion_true_witness :
    value_match_contract demoEnv
    ∧ test_ava_filter demoEnv none demoEntry { aa_desc := adName, aa_value := [7] }
        MatchKind.EQUALITY.tag = LDAP_COMPARE_TRUE :=
  ⟨fun _ _ _ v w => by
      cases v <;> cases w <;>
        exact ⟨(by decide : LDAP_SUCCESS ≠ LDAP_COMPARE_TRUE),
          (by decide : LDAP_SUCCESS ≠ LDAP_COMPARE_FALSE)⟩,
    (C9_generic_assertion_true demoEnv none demoEntry { aa_desc := adName, aa_value := [7] }
      MatchKind.EQUALITY rfl (by decide) (by decide)
      (fun _ _ _ v w => by
        cases v <;> cases w <;>
          exact ⟨(by decide : LDAP_SUCCESS ≠ LDAP_COMPARE_TRUE),
            (by decide : LDAP_SUCCESS ≠ LDAP_COMPARE_FALSE)⟩)).mpr
      ⟨{ a_desc := adSn, a_vals := [[7]], a_nvals := [[7]] }, by decide, Or.inr rfl,
        Or.inr rfl, mrEq, rfl, 0, [7], rfl, (by decide : demoCompare [7] [7] = 0),
        fun _ _ _ _ => rfl⟩⟩

/-! ## The entryDN attribute assertion (C10) -/

theorem option_get_eq (o : Option MatchingRule) (h : o.isSome = true) (x : MatchingRule)
    (hx : o = some x) : o.get h = x := by
  subst hx
  rfl

theorem test_ava_filter_entryDN (env : Env) (op : Option Operation) (e : Entry)
    (v : berval) (type : Int) (mr : MatchingRule)
    (hmr : env.slap_schema.si_ad_entryDN.ad_type.sat_equality = some mr)
    (hacc : env.access_allowed op e env.slap_schema.si_ad_entryDN (some v) = true) :
    test_ava_filter env op e { aa_desc := env.slap_schema.si_ad_entryDN, aa_value := v } type
      = (if type ≠ LDAP_FILTER_EQUALITY ∧ type ≠ LDAP_FILTER_APPROX then
           LDAP_INAPPROPRIATE_MATCHING
         else if (env.value_match env.slap_schema.si_ad_entryDN mr 0
             (MatchValue.bv e.e_nname) (AssertedValue.bv v)).status ≠ LDAP_SUCCESS then
           (env.value_match env.slap_schema.si_ad_entryDN mr 0
             (MatchValue.bv e.e_nname) (AssertedValue.bv v)).status
         else if (env.value_match env.slap_schema.si_ad_entryDN mr 0
             (MatchValue.bv e.e_nname) (AssertedValue.bv v)).cmp = 0 then LDAP_COMPARE_TRUE
         else LDAP_COMPARE_FALSE) := by
  have hget : env.slap_schema.si_ad_entryDN.ad_type.sat_equality.get
      env.slap_schema.entryDN_equality = mr := by
    exact option_get_eq _ _ _ hmr
  unfold test_ava_filter
  simp only []
  rw [if_neg (by rw [hacc]; decide), if_neg env.slap_schema.entryDN_ne_hasSubordinates]
  simp only []
  rw [if_pos trivial, hget]

/-- C10. The entryDN attribute assertion: with SEARCH access to entryDN with the
value `v` allowed, `test_ava_filter` over `desc = entryDN` returns
INAPPROPRIATE_MATCHING for GE and LE; for EQUALITY and APPROX it applies the
value matcher with the equality rule `mr` of entryDN to the normalized DN of the
entry and `v`, and returns TRUE if the matcher succeeds with match 0, FALSE if
it succeeds with a non-zero match, and the status of the matcher if it fails.
The stored attributes are not consulted: two entries with the same normalized
DN (both with access allowed) get the same result. -/
theorem C10_entryDN_assertion (env : Env) (op : Option Operation) (e : Entry)
    (v : berval) (K : MatchKind) (mr : MatchingRule)
    (hmr : env.slap_schema.si_ad_entryDN.ad_type.sat_equality = some mr)
    (hacc : env.access_allowed op e env.slap_schema.si_ad_entryDN (some v) = true) :
    ((K = MatchKind.GE ∨ K = MatchKind.LE) →
        test_ava_filter env op e { aa_desc := env.slap_schema.si_ad_entryDN, aa_value := v } K.tag
          = LDAP_INAPPROPRIATE_MATCHING)
    ∧ ((K = MatchKind.EQUALITY ∨ K = MatchKind.APPROX) →
        ((env.value_match env.slap_schema.si_ad_entryDN mr 0
              (MatchValue.bv e.e_nname) (AssertedValue.bv v)).status = LDAP_SUCCESS →
          (env.value_match env.slap_schema.si_ad_entryDN mr 0
              (MatchValue.bv e.e_nname) (AssertedValue.bv v)).cmp = 0 →
          test_ava_filter env op e
            { aa_desc := env.slap_schema.si_ad_entryDN, aa_value := v } K.tag
            = LDAP_COMPARE_TRUE)
        ∧ ((env.value_match env.slap_schema.si_ad_entryDN mr 0
              (MatchValue.bv e.e_nname) (AssertedValue.bv v)).status = LDAP_SUCCESS →
          (env.value_match env.slap_schema.si_ad_entryDN mr 0
              (MatchValue.bv e.e_nname) (AssertedValue.bv v)).cmp ≠ 0 →
          test_ava_filter env op e
            { aa_desc := env.slap_schema.si_ad_entryDN, aa_value := v } K.tag
            = LDAP_COMPARE_FALSE)
        ∧ ((env.value_match env.slap_schema.si_ad_entryDN mr 0
              (MatchValue.bv e.e_nname) (AssertedValue.bv v)).status ≠ LDAP_SUCCESS →
          test_ava_filter env op e
            { aa_desc := env.slap_schema.si_ad_entryDN, aa_value := v } K.tag
            = (env.value_match env.slap_schema.si_ad_entryDN mr 0
                (MatchValue.bv e.e_nname) (AssertedValue.bv v)).status))
    ∧ (∀ e2 : Entry, e2.e_nname = e.e_nname →
        env.access_allowed op e2 env.slap_schema.si_ad_entryDN (some v) = true →
        test_ava_filter env op e2
            { aa_desc := env.slap_schema.si_ad_entryDN, aa_value := v } K.tag
          = test_ava_filter env op e
            { aa_desc := env.slap_schema.si_ad_entryDN, aa_value := v } K.tag) := by
  refine ⟨?_, ?_, ?_⟩
  · intro hK
    rw [test_ava_filter_entryDN env op e v K.tag mr hmr hacc]
    rcases hK with h | h <;> subst h <;> rw [if_pos (by decide)]
  · intro hK
    have hk : ¬ (K.tag ≠ LDAP_FILTER_EQUALITY ∧ K.tag ≠ LDAP_FILTER_APPROX) := by
      rcases hK with h | h <;> subst h <;> decide
    rw [test_ava_filter_entryDN env op e v K.tag mr hmr hacc, if_neg hk]
    refine ⟨?_, ?_, ?_⟩
    · intro hs hc
      rw [if_neg (not_not.mpr hs), if_pos hc]
    · intro hs hc
      rw [if_neg (not_not.mpr hs), if_neg hc]
    · intro hs
      rw [if_pos hs]
  · intro e2 hn hacc2
    rw [test_ava_filter_entryDN env op e v K.tag mr hmr hacc,
      test_ava_filter_entryDN env op e2 v K.tag mr hmr hacc2, hn]

/-- C10 at a concrete input: on the sample entry, whose normalized DN is
`[9, 9]`, `(entryDN=[9, 9])` is TRUE, `(entryDN=[9])` is FALSE and
`(entryDN>=[9, 9])` is INAPPROPRIATE_MATCHING. -/
theorem C10_entryDN_assertion_witness :
    test_ava_filter demoEnv none demoEntry { aa_desc := adEntryDN, aa_value := [9, 9] }
        MatchKind.EQUALITY.tag = LDAP_COMPARE_TRUE
    ∧ test_ava_filter demoEnv none demoEntry { aa_desc := adEntryDN, aa_value := [9] }
        MatchKind.EQUALITY.tag = LDAP_COMPARE_FALSE
    ∧ test_ava_filter demoEnv none demoEntry { aa_desc := adEntryDN, aa_value := [9, 9] }
        MatchKind.GE.tag = LDAP_INAPPROPRIATE_MATCHING :=
  ⟨((C10_entryDN_assertion demoEnv none demoEntry [9, 9] MatchKind.EQUALITY mrDN rfl rfl).2.1
      (Or.inl rfl)).1 rfl (by decide),
   ((C10_entryDN_assertion demoEnv none demoEntry [9] MatchKind.EQUALITY mrDN rfl rfl).2.1
      (Or.inl rfl)).2.1 rfl (by decide),
   (C10_entryDN_assertion demoEnv none demoEntry [9, 9] MatchKind.GE mrDN rfl rfl).1
      (Or.inl rfl)⟩

/-! ## The hasSubordinates attribute assertion (C11, C12) -/

theorem test_ava_filter_hook (env : Env) (op : Option Operation) (e : Entry)
    (v : berval) (type : Int) (hook : Entry → Int × Int)
    (hhook : has_subordinates_hook op = some hook)
    (hacc : env.access_allowed op e env.slap_schema.si_ad_hasSubordinates (some v) = true) :
    test_ava_filter env op e
        { aa_desc := env.slap_schema.si_ad_hasSubordinates, aa_value := v } type
      = (if type ≠ LDAP_FILTER_EQUALITY ∧ type ≠ LDAP_FILTER_APPROX then
           LDAP_INAPPROPRIATE_MATCHING
         else if (hook e).1 ≠ LDAP_SUCCESS then LDAP_OTHER
         else if (hook e).2 = LDAP_COMPARE_TRUE then
           (if bvmatch v slap_true_bv then LDAP_COMPARE_TRUE else LDAP_COMPARE_FALSE)
         else if (hook e).2 = LDAP_COMPARE_FALSE then
           (if bvmatch v slap_false_bv then LDAP_COMPARE_TRUE else LDAP_COMPARE_FALSE)
         else LDAP_OTHER) := by
  unfold test_ava_filter
  simp only []
  rw [if_neg (by rw [hacc]; decide), if_pos trivial, hhook]

/-- C11 (amended). hasSubordinates requires EQUALITY or APPROX when the backend
has the hook: with SEARCH access allowed and an operation context whose backend
provides has_subordinates, an attribute assertion over hasSubordinates with
match kind GE or LE evaluates to INAPPROPRIATE_MATCHING.  Without a hook the
special branch is not entered: the assertion is evaluated by the generic
attribute loop, and it is FALSE when the entry stores no attribute that is
hasSubordinates or a subtype of it. -/
theorem C11_hasSubordinates_ordering (env : Env) (op : Option Operation) (e : Entry)
    (v : berval) (K : MatchKind) (hK : K = MatchKind.GE ∨ K = MatchKind.LE)
    (hacc : env.access_allowed op e env.slap_schema.si_ad_hasSubordinates (some v) = true) :
    ((has_subordinates_hook op).isSome = true →
        test_ava_filter env op e
          { aa_desc := env.slap_schema.si_ad_hasSubordinates, aa_value := v } K.tag
          = LDAP_INAPPROPRIATE_MATCHING)
    ∧ (has_subordinates_hook op = none →
        test_ava_filter env op e
          { aa_desc := env.slap_schema.si_ad_hasSubordinates, aa_value := v } K.tag
          = test_ava_attrs env op e
              { aa_desc := env.slap_schema.si_ad_hasSubordinates, aa_value := v } K.tag
              LDAP_COMPARE_FALSE
              (attrs_find env e.e_attrs env.slap_schema.si_ad_hasSubordinates))
    ∧ (has_subordinates_hook op = none →
        (∀ a ∈ e.e_attrs, ¬ is_instance_of env env.slap_schema.si_ad_hasSubordinates a) →
        test_ava_filter env op e
          { aa_desc := env.slap_schema.si_ad_hasSubordinates, aa_value := v } K.tag
          = LDAP_COMPARE_FALSE) := by
  have hgen : has_subordinates_hook op = none →
      test_ava_filter env op e
          { aa_desc := env.slap_schema.si_ad_hasSubordinates, aa_value := v } K.tag
        = test_ava_attrs env op e
            { aa_desc := env.slap_schema.si_ad_hasSubordinates, aa_value := v } K.tag
            LDAP_COMPARE_FALSE
            (attrs_find env e.e_attrs env.slap_schema.si_ad_hasSubordinates) := by
    intro hno
    apply test_ava_filter_generic env op e _ K.tag hacc
    · rintro ⟨_, h2⟩
      rw [hno] at h2
      cases h2
    · exact fun h => env.slap_schema.entryDN_ne_hasSubordinates h.symm
  refine ⟨?_, hgen, ?_⟩
  · intro hs
    cases hh : has_subordinates_hook op with
    | none => rw [hh] at hs; cases hs
    | some hook =>
      rw [test_ava_filter_hook env op e v K.tag hook hh hacc]
      rcases hK with h | h <;> subst h <;> rw [if_pos (by decide)]
  · intro hno hnone
    rw [hgen hno]
    have hnil : attrs_find env e.e_attrs env.slap_schema.si_ad_hasSubordinates = [] := by
      apply List.eq_nil_iff_forall_not_mem.mpr
      intro a ha
      have hm := (mem_attrs_find env _ _ a).mp ha
      exact hnone a hm.1 hm.2
    rw [hnil]
    rfl

/-- C11 at a concrete input: with the sample backend hook,
`(hasSubordinates>=TRUE)` is INAPPROPRIATE_MATCHING on the sample entry. -/
theorem C11_hasSubordinates_ordering_witness :
    test_ava_filter demoEnv (some demoOp) demoEntry
        { aa_desc := adHasSubordinates, aa_value := slap_true_bv } MatchKind.GE.tag
      = LDAP_INAPPROPRIATE_MATCHING :=
  (C11_hasSubordinates_ordering demoEnv (some demoOp) demoEntry slap_true_bv MatchKind.GE
    (Or.inl rfl) rfl).1 rfl

/-- C11 refuted as stated: without an operation context (hence without a hook),
SEARCH access allowed, `(hasSubordinates>=TRUE)` on the sample entry, which
stores no hasSubordinates attribute, evaluates to FALSE and not to
INAPPROPRIATE_MATCHING. -/
theorem C11_counterexample :
    demoEnv.access_allowed none demoEntry demoEnv.slap_schema.si_ad_hasSubordinates
        (some slap_true_bv) = true
    ∧ test_ava_filter demoEnv none demoEntry
        { aa_desc := demoEnv.slap_schema.si_ad_hasSubordinates, aa_value := slap_true_bv }
        MatchKind.GE.tag = LDAP_COMPARE_FALSE
    ∧ test_ava_filter demoEnv none demoEntry
        { aa_desc := demoEnv.slap_schema.si_ad_hasSubordinates, aa_value := slap_true_bv }
        MatchKind.GE.tag ≠ LDAP_INAPPROPRIATE_MATCHING := by
  refine ⟨rfl, by decide, by decide⟩

/-- C12. hasSubordinates with a backend hook, K EQUALITY or APPROX, SEARCH access
allowed: a non-success status of the hook gives OTHER; a successful hook whose
value is neither TRUE nor FALSE gives OTHER; otherwise the result is TRUE when
the bytes of the asserted value equal the canonical form of the boolean of the
hook and FALSE otherwise.  The stored attributes and the value matcher are not
consulted: any entry and any collaborators with the same hook outcome (access
allowed, same schema) give the same result. -/
theorem C12_hasSubordinates_hook (env : Env) (op : Option Operation) (e : Entry)
    (v : berval) (K : MatchKind) (hook : Entry → Int × Int)
    (hK : K = MatchKind.EQUALITY ∨ K = MatchKind.APPROX)
    (hhook : has_subordinates_hook op = some hook)
    (hacc : env.access_allowed op e env.slap_schema.si_ad_hasSubordinates (some v) = true) :
    ((hook e).1 ≠ LDAP_SUCCESS →
        test_ava_filter env op e
          { aa_desc := env.slap_schema.si_ad_hasSubordinates, aa_value := v } K.tag = LDAP_OTHER)
    ∧ ((hook e).1 = LDAP_SUCCESS → (hook e).2 ≠ LDAP_COMPARE_TRUE →
        (hook e).2 ≠ LDAP_COMPARE_FALSE →
        test_ava_filter env op e
          { aa_desc := env.slap_schema.si_ad_hasSubordinates, aa_value := v } K.tag = LDAP_OTHER)
    ∧ ((hook e).1 = LDAP_SUCCESS → (hook e).2 = LDAP_COMPARE_TRUE →
        test_ava_filter env op e
          { aa_desc := env.slap_schema.si_ad_hasSubordinates, aa_value := v } K.tag
          = (if v = slap_true_bv then LDAP_COMPARE_TRUE else LDAP_COMPARE_FALSE))
    ∧ ((hook e).1 = LDAP_SUCCESS → (hook e).2 = LDAP_COMPARE_FALSE →
        test_ava_filter env op e
          { aa_desc := env.slap_schema.si_ad_hasSubordinates, aa_value := v } K.tag
          = (if v = slap_false_bv then LDAP_COMPARE_TRUE else LDAP_COMPARE_FALSE))
    ∧ (∀ (env2 : Env) (e2 : Entry), env2.slap_schema = env.slap_schema →
        env2.access_allowed op e2 env.slap_schema.si_ad_hasSubordinates (some v) = true →
        hook e2 = hook e →
        test_ava_filter env2 op e2
          { aa_desc := env.slap_schema.si_ad_hasSubordinates, aa_value := v } K.tag
        = test_ava_filter env op e
          { aa_desc := env.slap_schema.si_ad_hasSubordinates, aa_value := v } K.tag) := by
  have hk : ¬ (K.tag ≠ LDAP_FILTER_EQUALITY ∧ K.tag ≠ LDAP_FILTER_APPROX) := by
    rcases hK with h | h <;> subst h <;> decide
  have hTF : LDAP_COMPARE_FALSE ≠ LDAP_COMPARE_TRUE := true_ne_false.symm
  refine ⟨?_, ?_, ?_, ?_, ?_⟩
  · intro h1
    rw [test_ava_filter_hook env op e v K.tag hook hhook hacc, if_neg hk, if_pos h1]
  · intro h1 h2 h3
    rw [test_ava_filter_hook env op e v K.tag hook hhook hacc, if_neg hk,
      if_neg (not_not.mpr h1), if_neg h2, if_neg h3]
  · intro h1 h2
    rw [test_ava_filter_hook env op e v K.tag hook hhook hacc, if_neg hk,
      if_neg (not_not.mpr h1), if_pos h2]
    simp [bvmatch]
  · intro h1 h2
    rw [test_ava_filter_hook env op e v K.tag hook hhook hacc, if_neg hk,
      if_neg (not_not.mpr h1), if_neg (by rw [h2]; exact hTF), if_pos h2]
    simp [bvmatch]
  · intro env2 e2 hs hacc2 hh
    have h2 := test_ava_filter_hook env2 op e2 v K.tag hook hhook (by rw [hs]; exact hacc2)
    rw [hs] at h2
    rw [h2, test_ava_filter_hook env op e v K.tag hook hhook hacc, hh]

/-- C12 at a concrete input: the sample hook answers TRUE, so
`(hasSubordinates=TRUE)` is TRUE and `(hasSubordinates=FALSE)` is FALSE. -/
theorem C12_hasSubordinates_hook_witness :
    test_ava_filter demoEnv (some demoOp) demoEntry
        { aa_desc := adHasSubordinates, aa_value := slap_true_bv } MatchKind.EQUALITY.tag
      = LDAP_COMPARE_TRUE
    ∧ test_ava_filter demoEnv (some demoOp) demoEntry
        { aa_desc := adHasSubordinates, aa_value := slap_false_bv } MatchKind.EQUALITY.tag
      = LDAP_COMPARE_FALSE :=
  ⟨((C12_hasSubordinates_hook demoEnv (some demoOp) demoEntry slap_true_bv
      MatchKind.EQUALITY (fun _ => (LDAP_SUCCESS, LDAP_COMPARE_TRUE)) (Or.inl rfl) rfl rfl).2.2.1
      rfl rfl).trans (by decide),
   ((C12_hasSubordinates_hook demoEnv (some demoOp) demoEntry slap_false_bv
      MatchKind.EQUALITY (fun _ => (LDAP_SUCCESS, LDAP_COMPARE_TRUE)) (Or.inl rfl) rfl rfl).2.2.1
      rfl rfl).trans (by decide)⟩

/-! ## The presence evaluator (C13) -/

theorem test_presence_attrs_true (env : Env) (op : Option Operation) (e : Entry)
    (desc : AttributeDescription) (l : List Attribute) (rc : Int)
    (h : ∃ a ∈ l, presence_accessible env op e desc a) :
    test_presence_attrs env op e desc rc l = LDAP_COMPARE_TRUE := by
  induction l generalizing rc with
  | nil =>
    obtain ⟨a, ha, _⟩ := h
    exact absurd ha (List.not_mem_nil _)
  | cons a rest ih =>
    simp only [test_presence_attrs]
    by_cases hd : desc ≠ a.a_desc ∧ env.access_allowed op e a.a_desc none = false
    · rw [if_pos hd]
      apply ih
      obtain ⟨b, hb, hacc⟩ := h
      rcases List.mem_cons.mp hb with h1 | h1
      · subst h1
        rcases hacc with h2 | h2
        · exact absurd h2.symm hd.1
        · rw [hd.2] at h2; cases h2
      · exact ⟨b, h1, hacc⟩
    · rw [if_neg hd]

theorem test_presence_attrs_denied (env : Env) (op : Option Operation) (e : Entry)
    (desc : AttributeDescription) (l : List Attribute) (rc : Int)
    (h : ∀ a ∈ l, ¬ presence_accessible env op e desc a) :
    test_presence_attrs env op e desc rc l
      = (if l = [] then rc else LDAP_INSUFFICIENT_ACCESS) := by
  induction l generalizing rc with
  | nil => simp [test_presence_attrs]
  | cons a rest ih =>
    simp only [test_presence_attrs]
    have ha := h a (List.mem_cons_self _ _)
    have hd : desc ≠ a.a_desc ∧ env.access_allowed op e a.a_desc none = false := by
      constructor
      · intro hEq
        exact ha (Or.inl hEq.symm)
      · cases hacc : env.access_allowed op e a.a_desc none with
        | false => rfl
        | true => exact absurd (Or.inr hacc) ha
    rw [if_pos hd, ih _ (fun b hb => h b (List.mem_cons_of_mem _ hb))]
    simp

/-- C13. The presence evaluator, with SEARCH access to `desc` (null value)
allowed: for hasSubordinates the result is TRUE if the operation context has a
backend with the has_subordinates hook and FALSE otherwise; for entryDN and
subschemaSubentry it is TRUE whatever the entry contains; for any other `desc`
it is TRUE if and only if some instance (description `desc` or a subtype) has
description exactly `desc` or passes the access check on its own description,
INSUFFICIENT_ACCESS if and only if an instance exists but none is accessible,
and FALSE if and only if the entry has no instance.  No other value is
returned. -/
theorem C13_presence (env : Env) (op : Option Operation) (e : Entry)
    (desc : AttributeDescription)
    (hacc : env.access_allowed op e desc none = true) :
    (desc = env.slap_schema.si_ad_hasSubordinates →
        ((has_subordinates_hook op).isSome = true →
          test_presence_filter env op e desc = LDAP_COMPARE_TRUE)
        ∧ ((has_subordinates_hook op).isSome = false →
          test_presence_filter env op e desc = LDAP_COMPARE_FALSE))
    ∧ ((desc = env.slap_schema.si_ad_entryDN ∨ desc = env.slap_schema.si_ad_subschemaSubentry) →
        test_presence_filter env op e desc = LDAP_COMPARE_TRUE)
    ∧ (desc ≠ env.slap_schema.si_ad_hasSubordinates → desc ≠ env.slap_schema.si_ad_entryDN →
        desc ≠ env.slap_schema.si_ad_subschemaSubentry →
        (test_presence_filter env op e desc = LDAP_COMPARE_TRUE
          ↔ ∃ a ∈ e.e_attrs, is_instance_of env desc a ∧ presence_accessible env op e desc a)
        ∧ (test_presence_filter env op e desc = LDAP_INSUFFICIENT_ACCESS
          ↔ (∃ a ∈ e.e_attrs, is_instance_of env desc a)
            ∧ ¬ ∃ a ∈ e.e_attrs, is_instance_of env desc a
                ∧ presence_accessible env op e desc a)
        ∧ (test_presence_filter env op e desc = LDAP_COMPARE_FALSE
          ↔ ∀ a ∈ e.e_attrs, ¬ is_instance_of env desc a))
    ∧ (test_presence_filter env op e desc = LDAP_COMPARE_TRUE
        ∨ test_presence_filter env op e desc = LDAP_COMPARE_FALSE
        ∨ test_presence_filter env op e desc = LDAP_INSUFFICIENT_ACCESS) := by
  have hna : ¬ env.access_allowed op e desc none = false := by rw [hacc]; decide
  refine ⟨?_, ?_, ?_, ?_⟩
  · intro hd
    unfold test_presence_filter
    rw [if_neg hna, if_pos hd]
    constructor
    · intro h; rw [if_pos h]
    · intro h; rw [if_neg (by rw [h]; decide)]
  · intro hd
    have hne : desc ≠ env.slap_schema.si_ad_hasSubordinates := by
      rcases hd with h | h
      · rw [h]; exact env.slap_schema.entryDN_ne_hasSubordinates
      · rw [h]; exact env.slap_schema.subschemaSubentry_ne_hasSubordinates
    unfold test_presence_filter
    rw [if_neg hna, if_neg hne, if_pos hd]
  · intro h1 h2 h3
    have hgen : test_presence_filter env op e desc
        = test_presence_attrs env op e desc LDAP_COMPARE_FALSE
            (attrs_find env e.e_attrs desc) := by
      unfold test_presence_filter
      rw [if_neg hna, if_neg h1, if_neg (by rintro (h | h); exact h2 h; exact h3 h)]
    by_cases hex : ∃ a ∈ e.e_attrs, is_instance_of env desc a
        ∧ presence_accessible env op e desc a
    · have hT : test_presence_filter env op e desc = LDAP_COMPARE_TRUE := by
        rw [hgen]
        obtain ⟨a, ha, hi, hp⟩ := hex
        exact test_presence_attrs_true env op e desc _ _
          ⟨a, (mem_attrs_find env _ _ a).mpr ⟨ha, hi⟩, hp⟩
      refine ⟨⟨fun _ => hex, fun _ => hT⟩, ?_, ?_⟩
      · rw [hT]
        constructor
        · intro h; exact absurd h (by decide)
        · rintro ⟨_, hn⟩; exact absurd hex hn
      · rw [hT]
        constructor
        · intro h; exact absurd h (by decide)
        · intro hn
          obtain ⟨a, ha, hi, _⟩ := hex
          exact absurd hi (hn a ha)
    · have hD := test_presence_attrs_denied env op e desc (attrs_find env e.e_attrs desc)
        LDAP_COMPARE_FALSE (by
          intro a ha hp
          have hm := (mem_attrs_find env _ _ a).mp ha
          exact hex ⟨a, hm.1, hm.2, hp⟩)
      rw [← hgen] at hD
      by_cases hnil : attrs_find env e.e_attrs desc = []
      · rw [if_pos hnil] at hD
        have hno : ∀ a ∈ e.e_attrs, ¬ is_instance_of env desc a := by
          intro a ha hi
          have hm := (mem_attrs_find env _ _ a).mpr ⟨ha, hi⟩
          rw [hnil] at hm
          exact absurd hm (List.not_mem_nil _)
        rw [hD]
        refine ⟨⟨fun h => absurd h (by decide), fun h => absurd h hex⟩, ?_, ?_⟩
        · constructor
          · intro h; exact absurd h (by decide)
          · rintro ⟨⟨a, ha, hi⟩, _⟩; exact absurd hi (hno a ha)
        · exact ⟨fun _ => hno, fun _ => rfl⟩
      · rw [if_neg hnil] at hD
        have hsome : ∃ a ∈ e.e_attrs, is_instance_of env desc a := by
          obtain ⟨a, ha⟩ := List.exists_mem_of_ne_nil _ hnil
          have hm := (mem_attrs_find env _ _ a).mp ha
          exact ⟨a, hm.1, hm.2⟩
        rw [hD]
        refine ⟨⟨fun h => absurd h (by decide), fun h => absurd h hex⟩, ?_, ?_⟩
        · exact ⟨fun _ => ⟨hsome, hex⟩, fun _ => rfl⟩
        · constructor
          · intro h; exact absurd h (by decide)
          · intro hn
            obtain ⟨a, ha, hi⟩ := hsome
            exact absurd hi (hn a ha)
  · have h := test_presence_filter_range env op e desc
    unfold test_presence_filter at h ⊢
    rw [if_neg hna] at h ⊢
    by_cases h1 : desc = env.slap_schema.si_ad_hasSubordinates
    · rw [if_pos h1]
      by_cases hh : (has_subordinates_hook op).isSome = true
      · rw [if_pos hh]; exact Or.inl rfl
      · rw [if_neg hh]; exact Or.inr (Or.inl rfl)
    · rw [if_neg h1]
      by_cases h2 : desc = env.slap_schema.si_ad_entryDN
          ∨ desc = env.slap_schema.si_ad_subschemaSubentry
      · rw [if_pos h2]; exact Or.inl rfl
      · rw [if_neg h2]
        by_cases hex : ∃ a ∈ attrs_find env e.e_attrs desc, presence_accessible env op e desc a
        · exact Or.inl (test_presence_attrs_true env op e desc _ _ hex)
        · rw [test_presence_attrs_denied env op e desc _ _ (by
            intro a ha hp
            exact hex ⟨a, ha, hp⟩)]
          by_cases hnil : attrs_find env e.e_attrs desc = []
          · rw [if_pos hnil]; exact Or.inr (Or.inl rfl)
          · rw [if_neg hnil]; exact Or.inr (Or.inr rfl)

/-- C13 at concrete inputs: on the sample entry `(cn=*)` and `(name=*)` are TRUE
and `(mail=*)` is FALSE; when SEARCH on `cn` is denied, `(name=*)` on an entry
that stores `cn` only is INSUFFICIENT_ACCESS. -/
theorem C13_presence_witness :
    test_presence_filter demoEnv none demoEntry adCn = LDAP_COMPARE_TRUE
    ∧ test_presence_filter demoEnv none demoEntry adMail = LDAP_COMPARE_FALSE
    ∧ test_presence_filter denyCnEnv none cnOnlyEntry adName = LDAP_INSUFFICIENT_ACCESS :=
  ⟨((C13_presence demoEnv none demoEntry adCn rfl).2.2.1
      (by decide) (by decide) (by decide)).1.mpr
      ⟨{ a_desc := adCn, a_vals := [[1], [2]], a_nvals := [[1], [2]] }, by decide,
        Or.inl rfl, Or.inl rfl⟩,
   ((C13_presence demoEnv none demoEntry adMail rfl).2.2.1
      (by decide) (by decide) (by decide)).2.2.mpr
      (by
        intro a ha hi
        rcases List.mem_cons.mp ha with h | h
        · subst h
          rcases hi with h1 | h1
          · exact absurd h1 (by decide)
          · exact absurd h1 (by decide)
        · rcases List.mem_cons.mp h with h2 | h2
          · subst h2
            rcases hi with h1 | h1
            · exact absurd h1 (by decide)
            · exact absurd h1 (by decide)
          · exact absurd h2 (List.not_mem_nil _)),
   ((C13_presence denyCnEnv none cnOnlyEntry adName rfl).2.2.1
      (by decide) (by decide) (by decide)).2.1.mpr
      ⟨⟨{ a_desc := adCn, a_vals := [[1]], a_nvals := [[1]] }, by decide, Or.inr rfl⟩,
        by
          rintro ⟨a, ha, _, hp⟩
          rcases List.mem_cons.mp ha with h | h
          · subst h
            rcases hp with h1 | h1
            · exact absurd h1 (by decide)
            · exact absurd h1 (by decide)
          · exact absurd h (List.not_mem_nil _)⟩⟩

/-! ## The common shape of the attribute scans -/

theorem scan_values_ret_true (vm : berval → MatchOutcome) (hit : Int → Bool) (rc v : Int)
    (bvs : List berval) (h : scan_values vm hit rc bvs = Flow.ret v) :
    v = LDAP_COMPARE_TRUE := by
  induction bvs with
  | nil => simp [scan_values] at h
  | cons b bs ih =>
    simp only [scan_values] at h
    by_cases hs : (vm b).status ≠ LDAP_SUCCESS
    · rw [if_pos hs] at h; cases h
    · rw [if_neg hs] at h
      by_cases hh : hit (vm b).cmp = true
      · rw [if_pos hh] at h; cases h; rfl
      · rw [if_neg hh] at h; exact ih h

theorem scan_values_ret_iff (vm : berval → MatchOutcome) (hit : Int → Bool) (rc : Int)
    (bvs : List berval) :
    scan_values vm hit rc bvs = Flow.ret LDAP_COMPARE_TRUE
      ↔ hit_before_failure (fun bw => (vm bw).status = LDAP_SUCCESS)
          (fun bv => hit (vm bv).cmp = true) bvs := by
  induction bvs with
  | nil =>
    simp only [scan_values]
    constructor
    · intro h; cases h
    · intro h; exact absurd h (hit_before_failure_nil _ _)
  | cons b bs ih =>
    rw [hit_before_failure_cons]
    simp only [scan_values]
    by_cases hs : (vm b).status ≠ LDAP_SUCCESS
    · rw [if_pos hs]
      constructor
      · intro h; cases h
      · intro h; exact absurd h.1 hs
    · rw [if_neg hs]
      by_cases hh : hit (vm b).cmp = true
      · rw [if_pos hh]
        exact ⟨fun _ => ⟨not_not.mp hs, Or.inl hh⟩, fun _ => rfl⟩
      · rw [if_neg hh, ih]
        constructor
        · intro h; exact ⟨not_not.mp hs, Or.inr h⟩
        · rintro ⟨_, h | h⟩
          · exact absurd h hh
          · exact h

theorem scan_values_next (vm : berval → MatchOutcome) (hit : Int → Bool) (rc rc1 : Int)
    (bvs : List berval) (h : scan_values vm hit rc bvs = Flow.next rc1) :
    rc1 = (first_failure (fun bv => (vm bv).status) bvs).getD rc := by
  induction bvs with
  | nil =>
    simp only [scan_values] at h
    cases h
    rfl
  | cons b bs ih =>
    simp only [scan_values] at h
    simp only [first_failure]
    by_cases hs : (vm b).status ≠ LDAP_SUCCESS
    · rw [if_pos hs] at h
      rw [if_pos hs]
      cases h
      rfl
    · rw [if_neg hs] at h
      rw [if_neg hs]
      by_cases hh : hit (vm b).cmp = true
      · rw [if_pos hh] at h; cases h
      · rw [if_neg hh] at h; exact ih h

theorem first_failure_none_iff (st : berval → Int) (bvs : List berval) :
    first_failure st bvs = none ↔ ∀ bv ∈ bvs, st bv = LDAP_SUCCESS := by
  induction bvs with
  | nil => simp [first_failure]
  | cons b bs ih =>
    simp only [first_failure]
    by_cases hs : st b ≠ LDAP_SUCCESS
    · rw [if_pos hs]
      constructor
      · intro h; cases h
      · intro h; exact absurd (h b (List.mem_cons_self _ _)) hs
    · rw [if_neg hs, ih]
      constructor
      · intro h bv hbv
        rcases List.mem_cons.mp hbv with h1 | h1
        · rw [h1]; exact not_not.mp hs
        · exact h bv h1
      · intro h bv hbv
        exact h bv (List.mem_cons_of_mem _ hbv)

theorem first_failure_some (st : berval → Int) (bvs : List berval) (r : Int)
    (h : first_failure st bvs = some r) : r ≠ LDAP_SUCCESS ∧ ∃ bv ∈ bvs, st bv = r := by
  induction bvs with
  | nil => simp [first_failure] at h
  | cons b bs ih =>
    simp only [first_failure] at h
    by_cases hs : st b ≠ LDAP_SUCCESS
    · rw [if_pos hs] at h
      cases h
      exact ⟨hs, b, List.mem_cons_self _ _, rfl⟩
    · rw [if_neg hs] at h
      obtain ⟨h1, bv, hbv, h2⟩ := ih h
      exact ⟨h1, bv, List.mem_cons_of_mem _ hbv, h2⟩

theorem last_recorded_nil (recorded : Attribute → Option Int) (d : Int) :
    last_recorded recorded d [] = d := by
  simp [last_recorded]

theorem last_recorded_cons_none (recorded : Attribute → Option Int) (d : Int) (a : Attribute)
    (l : List Attribute) (h : recorded a = none) :
    last_recorded recorded d (a :: l) = last_recorded recorded d l := by
  simp [last_recorded, List.filterMap_cons, h]

theorem last_recorded_cons_some (recorded : Attribute → Option Int) (d r : Int) (a : Attribute)
    (l : List Attribute) (h : recorded a = some r) :
    last_recorded recorded d (a :: l) = last_recorded recorded r l := by
  simp only [last_recorded, List.filterMap_cons, h]
  cases hf : l.filterMap recorded with
  | nil => simp
  | cons x xs =>
    rw [List.getLast?_cons_cons, List.getLast?_eq_getLast _ (List.cons_ne_nil x xs)]
    simp

theorem last_recorded_cases (recorded : Attribute → Option Int) (d : Int) (l : List Attribute) :
    ((∀ a ∈ l, recorded a = none) ∧ last_recorded recorded d l = d)
      ∨ (∃ a ∈ l, recorded a = some (last_recorded recorded d l)) := by
  induction l generalizing d with
  | nil => left; exact ⟨fun a ha => absurd ha (List.not_mem_nil _), last_recorded_nil _ _⟩
  | cons a rest ih =>
    cases hr : recorded a with
    | none =>
      rw [last_recorded_cons_none _ _ _ _ hr]
      rcases ih d with ⟨h1, h2⟩ | ⟨b, hb, h2⟩
      · left
        refine ⟨?_, h2⟩
        intro b hb
        rcases List.mem_cons.mp hb with h3 | h3
        · rw [h3]; exact hr
        · exact h1 b h3
      · right; exact ⟨b, List.mem_cons_of_mem _ hb, h2⟩
    | some r =>
      rw [last_recorded_cons_some _ _ _ _ _ hr]
      rcases ih r with ⟨_, h2⟩ | ⟨b, hb, h2⟩
      · right
        refine ⟨a, List.mem_cons_self _ _, ?_⟩
        rw [h2]; exact hr
      · right; exact ⟨b, List.mem_cons_of_mem _ hb, h2⟩

theorem scan_true_of_instance (denied : Attribute → Bool) (rule : Attribute → Option MatchingRule)
    (vm : Attribute → MatchingRule → berval → MatchOutcome) (hit : Int → Bool)
    (l : List Attribute) (rc : Int)
    (h : ∃ a ∈ l, scan_instance_true denied rule vm hit a) :
    scan_attrs denied rule vm hit rc l = LDAP_COMPARE_TRUE := by
  induction l generalizing rc with
  | nil =>
    obtain ⟨a, ha, _⟩ := h
    exact absurd ha (List.not_mem_nil _)
  | cons a rest ih =>
    simp only [scan_attrs]
    have hrest : ¬ scan_instance_true denied rule vm hit a →
        ∃ b ∈ rest, scan_instance_true denied rule vm hit b := by
      intro hna
      obtain ⟨b, hb, hib⟩ := h
      rcases List.mem_cons.mp hb with h1 | h1
      · subst h1; exact absurd hib hna
      · exact ⟨b, h1, hib⟩
    by_cases hd : denied a = true
    · rw [if_pos hd]
      apply ih
      apply hrest
      rintro ⟨h1, _⟩
      rw [hd] at h1; cases h1
    · rw [if_neg hd]
      cases hr : rule a with
      | none =>
        simp only []
        apply ih
        apply hrest
        rintro ⟨_, mr, hmr, _⟩
        rw [hr] at hmr; cases hmr
      | some mr =>
        simp only []
        cases hf : scan_values (vm a mr) hit rc a.a_nvals with
        | ret v =>
          simp only []
          exact scan_values_ret_true _ _ _ _ _ hf
        | next rc1 =>
          simp only []
          apply ih
          apply hrest
          rintro ⟨_, mr2, hmr, hhit⟩
          rw [hr] at hmr
          cases hmr
          have := (scan_values_ret_iff (vm a mr) hit rc a.a_nvals).mpr hhit
          rw [hf] at this
          cases this

theorem scan_pending (denied : Attribute → Bool) (rule : Attribute → Option MatchingRule)
    (vm : Attribute → MatchingRule → berval → MatchOutcome) (hit : Int → Bool)
    (l : List Attribute) (rc : Int)
    (h : ∀ a ∈ l, ¬ scan_instance_true denied rule vm hit a) :
    scan_attrs denied rule vm hit rc l
      = last_recorded (scan_recorded denied rule vm) rc l := by
  induction l generalizing rc with
  | nil => simp [scan_attrs, last_recorded_nil]
  | cons a rest ih =>
    have hrest : ∀ b ∈ rest, ¬ scan_instance_true denied rule vm hit b :=
      fun b hb => h b (List.mem_cons_of_mem _ hb)
    simp only [scan_attrs]
    by_cases hd : denied a = true
    · rw [if_pos hd, ih _ hrest]
      rw [last_recorded_cons_some _ _ LDAP_INSUFFICIENT_ACCESS]
      simp [scan_recorded, hd]
    · rw [if_neg hd]
      cases hr : rule a with
      | none =>
        simp only []
        rw [ih _ hrest, last_recorded_cons_some _ _ LDAP_INAPPROPRIATE_MATCHING]
        simp [scan_recorded, hd, hr]
      | some mr =>
        simp only []
        cases hf : scan_values (vm a mr) hit rc a.a_nvals with
        | ret v =>
          exfalso
          apply h a (List.mem_cons_self _ _)
          refine ⟨by simpa using hd, mr, hr, ?_⟩
          apply (scan_values_ret_iff (vm a mr) hit rc a.a_nvals).mp
          rw [hf, scan_values_ret_true _ _ _ _ _ hf]
        | next rc1 =>
          simp only []
          rw [ih _ hrest]
          have h1 := scan_values_next _ _ _ _ _ hf
          cases hff : first_failure (fun bv => (vm a mr bv).status) a.a_nvals with
          | none =>
            rw [hff] at h1
            rw [last_recorded_cons_none, h1]
            · rfl
            · simp [scan_recorded, hd, hr, hff]
          | some r =>
            rw [hff] at h1
            rw [last_recorded_cons_some _ _ r, h1]
            · rfl
            · simp [scan_recorded, hd, hr, hff]

theorem scan_recorded_some (denied : Attribute → Bool) (rule : Attribute → Option MatchingRule)
    (vm : Attribute → MatchingRule → berval → MatchOutcome) (a : Attribute) (r : Int)
    (h : scan_recorded denied rule vm a = some r) :
    r = LDAP_INSUFFICIENT_ACCESS ∨ r = LDAP_INAPPROPRIATE_MATCHING
      ∨ ∃ mr, rule a = some mr ∧ ∃ bv ∈ a.a_nvals, (vm a mr bv).status = r := by
  unfold scan_recorded at h
  by_cases hd : denied a = true
  · rw [if_pos hd] at h
    cases h
    exact Or.inl rfl
  · rw [if_neg hd] at h
    cases hr : rule a with
    | none =>
      simp only [hr] at h
      cases h
      exact Or.inr (Or.inl rfl)
    | some mr =>
      simp only [hr] at h
      obtain ⟨_, bv, hbv, hst⟩ := first_failure_some _ _ _ h
      exact Or.inr (Or.inr ⟨mr, rfl, bv, hbv, hst⟩)

theorem scan_characterisation (denied : Attribute → Bool)
    (rule : Attribute → Option MatchingRule)
    (vm : Attribute → MatchingRule → berval → MatchOutcome) (hit : Int → Bool)
    (l : List Attribute) :
    ((∃ a ∈ l, scan_instance_true denied rule vm hit a) →
        scan_attrs denied rule vm hit LDAP_COMPARE_FALSE l = LDAP_COMPARE_TRUE)
    ∧ (scan_attrs denied rule vm hit LDAP_COMPARE_FALSE l = LDAP_COMPARE_TRUE →
        (∃ a ∈ l, scan_instance_true denied rule vm hit a)
        ∨ ∃ a ∈ l, ∃ mr, rule a = some mr
            ∧ ∃ bv ∈ a.a_nvals, (vm a mr bv).status = LDAP_COMPARE_TRUE)
    ∧ (scan_attrs denied rule vm hit LDAP_COMPARE_FALSE l ≠ LDAP_COMPARE_TRUE →
        scan_attrs denied rule vm hit LDAP_COMPARE_FALSE l
          = last_recorded (scan_recorded denied rule vm) LDAP_COMPARE_FALSE l)
    ∧ (scan_attrs denied rule vm hit LDAP_COMPARE_FALSE l ≠ LDAP_COMPARE_TRUE →
        (∀ a ∈ l, scan_recorded denied rule vm a = none) →
        scan_attrs denied rule vm hit LDAP_COMPARE_FALSE l = LDAP_COMPARE_FALSE)
    ∧ (scan_attrs denied rule vm hit LDAP_COMPARE_FALSE l = LDAP_COMPARE_FALSE →
        (∀ a ∈ l, scan_recorded denied rule vm a = none)
        ∨ ∃ a ∈ l, ∃ mr, rule a = some mr
            ∧ ∃ bv ∈ a.a_nvals, (vm a mr bv).status = LDAP_COMPARE_FALSE) := by
  have hfwd := scan_true_of_instance denied rule vm hit l LDAP_COMPARE_FALSE
  have hpend : (¬ ∃ a ∈ l, scan_instance_true denied rule vm hit a) →
      scan_attrs denied rule vm hit LDAP_COMPARE_FALSE l
        = last_recorded (scan_recorded denied rule vm) LDAP_COMPARE_FALSE l := by
    intro hno
    exact scan_pending denied rule vm hit l LDAP_COMPARE_FALSE
      (fun a ha hi => hno ⟨a, ha, hi⟩)
  have hcases := last_recorded_cases (scan_recorded denied rule vm) LDAP_COMPARE_FALSE l
  refine ⟨hfwd, ?_, ?_, ?_, ?_⟩
  · intro hT
    by_cases hex : ∃ a ∈ l, scan_instance_true denied rule vm hit a
    · exact Or.inl hex
    · right
      rw [hpend hex] at hT
      rw [hT] at hcases
      rcases hcases with ⟨_, h2⟩ | ⟨a, ha, hrec⟩
      · exact absurd h2 (by decide)
      · rcases scan_recorded_some _ _ _ _ _ hrec with h | h | ⟨mr, hmr, bv, hbv, hst⟩
        · exact absurd h (by decide)
        · exact absurd h (by decide)
        · exact ⟨a, ha, mr, hmr, bv, hbv, hst⟩
  · intro hne
    exact hpend (fun hex => hne (hfwd hex))
  · intro hne hall
    rw [hpend (fun hex => hne (hfwd hex))]
    rcases hcases with ⟨_, h2⟩ | ⟨a, ha, hrec⟩
    · exact h2
    · rw [hall a ha] at hrec
      cases hrec
  · intro hF
    have hne : scan_attrs denied rule vm hit LDAP_COMPARE_FALSE l ≠ LDAP_COMPARE_TRUE := by
      rw [hF]; decide
    rw [hpend (fun hex => hne (hfwd hex))] at hF
    rw [hF] at hcases
    rcases hcases with ⟨h1, _⟩ | ⟨a, ha, hrec⟩
    · exact Or.inl h1
    · rcases scan_recorded_some _ _ _ _ _ hrec with h | h | ⟨mr, hmr, bv, hbv, hst⟩
      · exact absurd h (by decide)
      · exact absurd h (by decide)
      · exact Or.inr ⟨a, ha, mr, hmr, bv, hbv, hst⟩

/-! ## The substrings evaluator (C14) -/

theorem test_substrings_values_eq_scan (env : Env) (sub : SubstringsAssertion)
    (a : Attribute) (mr : MatchingRule) (rc : Int) (bvs : List berval) :
    test_substrings_values env sub a mr rc bvs
      = scan_values
          (fun bv => env.value_match a.a_desc mr 0 (MatchValue.bv bv) (AssertedValue.sub sub))
          (fun c => decide (c = 0)) rc bvs := by
  induction bvs with
  | nil => rfl
  | cons b bs ih =>
    simp only [test_substrings_values, scan_values, ih, decide_eq_true_eq]

theorem test_substrings_attrs_eq_scan (env : Env) (op : Option Operation) (e : Entry)
    (sub : SubstringsAssertion) (l : List Attribute) (rc : Int) :
    test_substrings_attrs env op e sub rc l
      = scan_attrs
          (fun a => decide (sub.sa_desc ≠ a.a_desc
            ∧ env.access_allowed op e a.a_desc none = false))
          (fun a => a.a_desc.ad_type.sat_substr)
          (fun a mr bv =>
            env.value_match a.a_desc mr 0 (MatchValue.bv bv) (AssertedValue.sub sub))
          (fun c => decide (c = 0)) rc l := by
  induction l generalizing rc with
  | nil => rfl
  | cons a rest ih =>
    simp only [test_substrings_attrs, scan_attrs, decide_eq_true_eq]
    by_cases hd : sub.sa_desc ≠ a.a_desc ∧ env.access_allowed op e a.a_desc none = false
    · rw [if_pos hd, if_pos hd, ih]
    · rw [if_neg hd, if_neg hd]
      cases hr : a.a_desc.ad_type.sat_substr with
      | none => simp only []; rw [ih]
      | some mr =>
        simp only []
        rw [test_substrings_values_eq_scan]
        cases hf : scan_values
            (fun bv => env.value_match a.a_desc mr 0 (MatchValue.bv bv) (AssertedValue.sub sub))
            (fun c => decide (c = 0)) rc a.a_nvals with
        | ret v => rfl
        | next rc1 => simp only []; rw [ih]

theorem sub_instance_true_iff_scan (env : Env) (op : Option Operation) (e : Entry)
    (sub : SubstringsAssertion) (a : Attribute) :
    sub_instance_true env op e sub a
      ↔ scan_instance_true
          (fun a => decide (sub.sa_desc ≠ a.a_desc
            ∧ env.access_allowed op e a.a_desc none = false))
          (fun a => a.a_desc.ad_type.sat_substr)
          (fun a mr bv =>
            env.value_match a.a_desc mr 0 (MatchValue.bv bv) (AssertedValue.sub sub))
          (fun c => decide (c = 0)) a := by
  have hacc : (a.a_desc = sub.sa_desc ∨ env.access_allowed op e a.a_desc none = true)
      ↔ decide (sub.sa_desc ≠ a.a_desc
          ∧ env.access_allowed op e a.a_desc none = false) = false := by
    rw [decide_eq_false_iff_not]
    constructor
    · rintro (h | h) ⟨h1, h2⟩
      · exact h1 h.symm
      · rw [h] at h2; cases h2
    · intro h
      by_cases hEq : sub.sa_desc = a.a_desc
      · exact Or.inl hEq.symm
      · right
        cases hv : env.access_allowed op e a.a_desc none with
        | true => rfl
        | false => exact absurd ⟨hEq, hv⟩ h
  unfold sub_instance_true scan_instance_true
  simp only [decide_eq_true_eq]
  rw [hacc]

theorem sub_recorded_eq_scan (env : Env) (op : Option Operation) (e : Entry)
    (sub : SubstringsAssertion) :
    sub_recorded env op e sub
      = scan_recorded
          (fun a => decide (sub.sa_desc ≠ a.a_desc
            ∧ env.access_allowed op e a.a_desc none = false))
          (fun a => a.a_desc.ad_type.sat_substr)
          (fun a mr bv =>
            env.value_match a.a_desc mr 0 (MatchValue.bv bv) (AssertedValue.sub sub)) := by
  funext a
  simp only [sub_recorded, scan_recorded, decide_eq_true_eq]

theorem sub_recorded_none_iff (env : Env) (op : Option Operation) (e : Entry)
    (sub : SubstringsAssertion) (a : Attribute) :
    sub_recorded env op e sub a = none ↔ sub_instance_clean env op e sub a := by
  unfold sub_recorded sub_instance_clean
  by_cases hd : sub.sa_desc ≠ a.a_desc ∧ env.access_allowed op e a.a_desc none = false
  · rw [if_pos hd]
    constructor
    · intro h; cases h
    · rintro ⟨h | h, _⟩
      · exact absurd h.symm hd.1
      · rw [hd.2] at h; cases h
  · rw [if_neg hd]
    have hacc : a.a_desc = sub.sa_desc ∨ env.access_allowed op e a.a_desc none = true := by
      by_cases hEq : sub.sa_desc = a.a_desc
      · exact Or.inl hEq.symm
      · right
        cases hv : env.access_allowed op e a.a_desc none with
        | true => rfl
        | false => exact absurd ⟨hEq, hv⟩ hd
    cases hr : a.a_desc.ad_type.sat_substr with
    | none =>
      simp only []
      constructor
      · intro h; cases h
      · rintro ⟨_, mr, hmr, _⟩; cases hmr
    | some mr =>
      simp only []
      rw [first_failure_none_iff]
      constructor
      · intro h; exact ⟨hacc, mr, rfl, h⟩
      · rintro ⟨_, mr2, hmr, h⟩
        cases hmr
        exact h

/-- The substrings evaluator for an arbitrary value matcher, with SEARCH access
to `desc` (null value) allowed.  It returns TRUE whenever some instance
satisfies (a), (b) and (c) of `sub_instance_true`; when it returns TRUE, such
an instance exists or the value matcher returned LDAP_COMPARE_TRUE as its
status on a value of an instance.  When it does not return TRUE, it returns
the error recorded last in iteration order, and FALSE when every instance is
clean; when it returns FALSE, either every instance is clean or the matcher
returned LDAP_COMPARE_FALSE as its status.  So for a value matcher that never
reports LDAP_COMPARE_TRUE or LDAP_COMPARE_FALSE as its status both
equivalences hold. -/
theorem substrings_characterisation (env : Env) (op : Option Operation) (e : Entry)
    (sub : SubstringsAssertion)
    (hacc : env.access_allowed op e sub.sa_desc none = true) :
    ((∃ a ∈ e.e_attrs, is_instance_of env sub.sa_desc a ∧ sub_instance_true env op e sub a) →
        test_substrings_filter env op e sub = LDAP_COMPARE_TRUE)
    ∧ (test_substrings_filter env op e sub = LDAP_COMPARE_TRUE →
        (∃ a ∈ e.e_attrs, is_instance_of env sub.sa_desc a ∧ sub_instance_true env op e sub a)
        ∨ sub_matcher_reported env e sub LDAP_COMPARE_TRUE)
    ∧ (test_substrings_filter env op e sub ≠ LDAP_COMPARE_TRUE →
        test_substrings_filter env op e sub
          = last_recorded (sub_recorded env op e sub) LDAP_COMPARE_FALSE
              (attrs_find env e.e_attrs sub.sa_desc))
    ∧ (test_substrings_filter env op e sub ≠ LDAP_COMPARE_TRUE →
        (∀ a ∈ e.e_attrs, is_instance_of env sub.sa_desc a → sub_instance_clean env op e sub a) →
        test_substrings_filter env op e sub = LDAP_COMPARE_FALSE)
    ∧ (test_substrings_filter env op e sub = LDAP_COMPARE_FALSE →
        (∀ a ∈ e.e_attrs, is_instance_of env sub.sa_desc a → sub_instance_clean env op e sub a)
        ∨ sub_matcher_reported env e sub LDAP_COMPARE_FALSE)
    ∧ ((∀ ad mr fl v w, (env.value_match ad mr fl v w).status ≠ LDAP_COMPARE_TRUE
          ∧ (env.value_match ad mr fl v w).status ≠ LDAP_COMPARE_FALSE) →
        (test_substrings_filter env op e sub = LDAP_COMPARE_TRUE
          ↔ ∃ a ∈ e.e_attrs, is_instance_of env sub.sa_desc a
              ∧ sub_instance_true env op e sub a)
        ∧ (test_substrings_filter env op e sub ≠ LDAP_COMPARE_TRUE →
            (test_substrings_filter env op e sub = LDAP_COMPARE_FALSE
              ↔ ∀ a ∈ e.e_attrs, is_instance_of env sub.sa_desc a →
                  sub_instance_clean env op e sub a))) := by
  have hgen : test_substrings_filter env op e sub
      = scan_attrs
          (fun a => decide (sub.sa_desc ≠ a.a_desc
            ∧ env.access_allowed op e a.a_desc none = false))
          (fun a => a.a_desc.ad_type.sat_substr)
          (fun a mr bv =>
            env.value_match a.a_desc mr 0 (MatchValue.bv bv) (AssertedValue.sub sub))
          (fun c => decide (c = 0)) LDAP_COMPARE_FALSE
          (attrs_find env e.e_attrs sub.sa_desc) := by
    unfold test_substrings_filter
    rw [if_neg (by rw [hacc]; decide), test_substrings_attrs_eq_scan]
  obtain ⟨c1, c2, c3, c4, c5⟩ := scan_characterisation
    (fun a => decide (sub.sa_desc ≠ a.a_desc
      ∧ env.access_allowed op e a.a_desc none = false))
    (fun a => a.a_desc.ad_type.sat_substr)
    (fun a mr bv =>
      env.value_match a.a_desc mr 0 (MatchValue.bv bv) (AssertedValue.sub sub))
    (fun c => decide (c = 0)) (attrs_find env e.e_attrs sub.sa_desc)
  rw [← hgen] at c1 c2 c3 c4 c5
  rw [← sub_recorded_eq_scan env op e sub] at c3 c4 c5
  have hclean : (∀ a ∈ e.e_attrs, is_instance_of env sub.sa_desc a →
        sub_instance_clean env op e sub a)
      ↔ ∀ a ∈ attrs_find env e.e_attrs sub.sa_desc, sub_recorded env op e sub a = none := by
    constructor
    · intro h a ha
      have hm := (mem_attrs_find env _ _ a).mp ha
      exact (sub_recorded_none_iff env op e sub a).mpr (h a hm.1 hm.2)
    · intro h a ha hi
      exact (sub_recorded_none_iff env op e sub a).mp
        (h a ((mem_attrs_find env _ _ a).mpr ⟨ha, hi⟩))
  have p1 : (∃ a ∈ e.e_attrs, is_instance_of env sub.sa_desc a
        ∧ sub_instance_true env op e sub a) →
      test_substrings_filter env op e sub = LDAP_COMPARE_TRUE := by
    rintro ⟨a, ha, hi, ht⟩
    exact c1 ⟨a, (mem_attrs_find env _ _ a).mpr ⟨ha, hi⟩,
      (sub_instance_true_iff_scan env op e sub a).mp ht⟩
  have p2 : test_substrings_filter env op e sub = LDAP_COMPARE_TRUE →
      (∃ a ∈ e.e_attrs, is_instance_of env sub.sa_desc a ∧ sub_instance_true env op e sub a)
      ∨ sub_matcher_reported env e sub LDAP_COMPARE_TRUE := by
    intro hT
    rcases c2 hT with ⟨a, ha, ht⟩ | ⟨a, ha, mr, hmr, bv, hbv, hst⟩
    · have hm := (mem_attrs_find env _ _ a).mp ha
      exact Or.inl ⟨a, hm.1, hm.2, (sub_instance_true_iff_scan env op e sub a).mpr ht⟩
    · have hm := (mem_attrs_find env _ _ a).mp ha
      exact Or.inr ⟨a, hm.1, hm.2, mr, hmr, bv, hbv, hst⟩
  have p4 : test_substrings_filter env op e sub ≠ LDAP_COMPARE_TRUE →
      (∀ a ∈ e.e_attrs, is_instance_of env sub.sa_desc a → sub_instance_clean env op e sub a) →
      test_substrings_filter env op e sub = LDAP_COMPARE_FALSE :=
    fun hne h => c4 hne (hclean.mp h)
  have p5 : test_substrings_filter env op e sub = LDAP_COMPARE_FALSE →
      (∀ a ∈ e.e_attrs, is_instance_of env sub.sa_desc a → sub_instance_clean env op e sub a)
      ∨ sub_matcher_reported env e sub LDAP_COMPARE_FALSE := by
    intro hF
    rcases c5 hF with h | ⟨a, ha, mr, hmr, bv, hbv, hst⟩
    · exact Or.inl (hclean.mpr h)
    · have hm := (mem_attrs_find env _ _ a).mp ha
      exact Or.inr ⟨a, hm.1, hm.2, mr, hmr, bv, hbv, hst⟩
  refine ⟨p1, p2, c3, p4, p5, ?_⟩
  intro hM
  refine ⟨⟨?_, p1⟩, fun hne => ⟨?_, p4 hne⟩⟩
  · intro hT
    rcases p2 hT with h | ⟨a, _, _, mr, _, bv, _, hst⟩
    · exact h
    · exact absurd hst (hM _ _ _ _ _).1
  · intro hF
    rcases p5 hF with h | ⟨a, _, _, mr, _, bv, _, hst⟩
    · exact h
    · exact absurd hst (hM _ _ _ _ _).2

/-- C14. The substrings evaluator: for every entry and SUBSTRINGS filter over
`desc` with SEARCH access to `desc` (null value) allowed, and a value matcher
that keeps its contract (its status is SUCCESS or an error, never a truth
value), `test_substrings_filter` returns TRUE if and only if some attribute
instance of the entry whose description is `desc` or a subtype (a) has
description `desc` or passes the access check on its own description, (b) has a
substring rule on its attribute type, and (c) has an index in its normalized
values such that the value matcher succeeds on every value up to that index and
reports match 0 there.  When it does not return TRUE, it returns FALSE if and
only if no instance was denied, lacked a substring rule or hit a matcher error;
and in every case where it does not return TRUE it returns what the last
instance, in iteration order, that recorded an error recorded
(INSUFFICIENT_ACCESS, INAPPROPRIATE_MATCHING or the status of the matcher),
which is FALSE only when none recorded one.  The well-known descriptors get no
special treatment: all of this holds for every `desc`. -/
theorem C14_substrings (env : Env) (op : Option Operation) (e : Entry)
    (sub : SubstringsAssertion)
    (hacc : env.access_allowed op e sub.sa_desc none = true)
    (hM : value_match_contract env) :
    (test_substrings_filter env op e sub = LDAP_COMPARE_TRUE
      ↔ ∃ a ∈ e.e_attrs, is_instance_of env sub.sa_desc a
          ∧ sub_instance_true env op e sub a)
    ∧ (test_substrings_filter env op e sub ≠ LDAP_COMPARE_TRUE →
        (test_substrings_filter env op e sub = LDAP_COMPARE_FALSE
          ↔ ∀ a ∈ e.e_attrs, is_instance_of env sub.sa_desc a →
              sub_instance_clean env op e sub a))
    ∧ (test_substrings_filter env op e sub ≠ LDAP_COMPARE_TRUE →
        test_substrings_filter env op e sub
          = last_recorded (sub_recorded env op e sub) LDAP_COMPARE_FALSE
              (attrs_find env e.e_attrs sub.sa_desc)) :=
  ⟨((substrings_characterisation env op e sub hacc).2.2.2.2.2 hM).1,
    ((substrings_characterisation env op e sub hacc).2.2.2.2.2 hM).2,
    (substrings_characterisation env op e sub hacc).2.2.1⟩

/-- C14 at a concrete input: the sample matcher that compares the initial piece
keeps the contract, and `(sn=[7]*)` is TRUE on the sample entry. -/
theorem C14_substrings_witness :
    value_match_contract startsEnv
    ∧ test_substrings_filter startsEnv none demoEntry demoSub = LDAP_COMPARE_TRUE :=
  ⟨fun _ _ _ v w => by
      cases v <;> cases w <;>
        exact ⟨(by decide : LDAP_SUCCESS ≠ LDAP_COMPARE_TRUE),
          (by decide : LDAP_SUCCESS ≠ LDAP_COMPARE_FALSE)⟩,
    (C14_substrings startsEnv none demoEntry demoSub rfl
      (fun _ _ _ v w => by
        cases v <;> cases w <;>
          exact ⟨(by decide : LDAP_SUCCESS ≠ LDAP_COMPARE_TRUE),
            (by decide : LDAP_SUCCESS ≠ LDAP_COMPARE_FALSE)⟩)).1.mpr
      ⟨{ a_desc := adSn, a_vals := [[7]], a_nvals := [[7]] }, by decide, Or.inl rfl,
        Or.inl rfl, mrSub, rfl, 0, [7], rfl, rfl, fun _ _ _ _ => rfl⟩⟩

/-! ## Extensible match with a description (C15) -/

theorem first_decisive_append (xs ys : List MatchOutcome) :
    first_decisive (xs ++ ys)
      = (match first_decisive xs with
         | some rc => some rc
         | none => first_decisive ys) := by
  induction xs with
  | nil => rfl
  | cons o os ih =>
    simp only [List.cons_append, first_decisive]
    by_cases hs : o.status = LDAP_SUCCESS
    · by_cases hc : o.cmp = 0
      · simp [hs, hc]
      · simp [hs, hc, ih]
    · simp [hs]

theorem test_mra_desc_values_eq (env : Env) (mra : MatchingRuleAssertion) (a : Attribute)
    (bvs : List berval) :
    test_mra_desc_values env mra a bvs
      = first_decisive (bvs.map (fun bv => env.value_match a.a_desc mra.ma_rule 0
          (MatchValue.bv bv) (AssertedValue.bv mra.ma_value))) := by
  induction bvs with
  | nil => rfl
  | cons b bs ih =>
    simp only [test_mra_desc_values, List.map_cons, first_decisive, ih]

theorem mra_values_eq (mra : MatchingRuleAssertion) (a : Attribute) :
    mra_values mra a
      = (if a.a_desc.ad_type.sat_equality = some mra.ma_rule then a.a_nvals else a.a_vals) := by
  unfold mra_values
  by_cases h : some mra.ma_rule = a.a_desc.ad_type.sat_equality
  · rw [if_pos h, if_pos h.symm]
  · rw [if_neg h, if_neg (fun h2 => h h2.symm)]

theorem test_mra_desc_attrs_eq (env : Env) (mra : MatchingRuleAssertion)
    (hcomp : mra_component env mra = false) (l : List Attribute) :
    test_mra_desc_attrs env mra l
      = first_decisive (l.flatMap (fun a =>
          (if a.a_desc.ad_type.sat_equality = some mra.ma_rule then a.a_nvals else a.a_vals).map
            (fun bv => env.value_match a.a_desc mra.ma_rule 0 (MatchValue.bv bv)
              (AssertedValue.bv mra.ma_value)))) := by
  induction l with
  | nil => rfl
  | cons a rest ih =>
    simp only [test_mra_desc_attrs, List.flatMap_cons]
    rw [if_neg (by rw [hcomp]; decide), first_decisive_append, test_mra_desc_values_eq,
      mra_values_eq, ih]

theorem test_mra_attrs_desc (env : Env) (op : Option Operation) (e : Entry)
    (mra : MatchingRuleAssertion) (desc : AttributeDescription)
    (hdesc : mra.ma_desc = some desc)
    (hne : desc ≠ env.slap_schema.si_ad_entryDN)
    (hacc : env.access_allowed op e desc (some mra.ma_value) = true) :
    test_mra_attrs env op e mra
      = test_mra_desc_attrs env mra (attrs_find env e.e_attrs desc) := by
  unfold test_mra_attrs
  rw [hdesc]
  simp only []
  rw [if_neg (by rw [hacc]; decide), if_neg hne]

/-- C15. Extensible match with a description (`desc` present and not entryDN, no
component matching, SEARCH access to `desc` with the asserted value allowed):
the scan of the stored attributes goes through the instances of `desc` in entry
order and, within an instance, through its normalized values if the rule of
the assertion is the equality rule of the attribute type and its raw values
otherwise; the first value on which the matcher reports an error or match 0
decides the result, the status of the matcher verbatim on error and TRUE on
match 0.  If no value decides and dnAttrs is not set, the result is FALSE. -/
theorem C15_extensible_with_desc (env : Env) (op : Option Operation) (e : Entry)
    (mra : MatchingRuleAssertion) (desc : AttributeDescription)
    (hdesc : mra.ma_desc = some desc)
    (hne : desc ≠ env.slap_schema.si_ad_entryDN)
    (hcomp : mra_component env mra = false)
    (hacc : env.access_allowed op e desc (some mra.ma_value) = true) :
    test_mra_attrs env op e mra = first_decisive (mra_desc_outcomes env e mra desc)
    ∧ (∀ rc, first_decisive (mra_desc_outcomes env e mra desc) = some rc →
        test_mra_filter env op e mra = rc)
    ∧ (first_decisive (mra_desc_outcomes env e mra desc) = none → mra.ma_dnattrs = false →
        test_mra_filter env op e mra = LDAP_COMPARE_FALSE) := by
  have hscan : test_mra_attrs env op e mra
      = first_decisive (mra_desc_outcomes env e mra desc) := by
    rw [test_mra_attrs_desc env op e mra desc hdesc hne hacc,
      test_mra_desc_attrs_eq env mra hcomp]
    rfl
  refine ⟨hscan, ?_, ?_⟩
  · intro rc h
    unfold test_mra_filter
    rw [hscan, h]
  · intro h hdn
    unfold test_mra_filter
    rw [hscan, h]
    simp only []
    rw [if_neg (by rw [hdn]; decide)]

/-- C15 at a concrete input: `(name:caseIgnoreMatch:=[7])` on the sample entry
is decided by the value `[7]` of the instance `sn`, after the values of `cn`
did not match. -/
theorem C15_extensible_with_desc_witness :
    test_mra_filter demoEnv none demoEntry demoMraName = LDAP_COMPARE_TRUE :=
  (C15_extensible_with_desc demoEnv none demoEntry demoMraName adName rfl (by decide) rfl
    rfl).2.1 LDAP_COMPARE_TRUE (by decide)

/-! ## Extensible match through the DN (C16, C17) -/

theorem test_mra_dn_avas_append (env : Env) (op : Option Operation) (e : Entry)
    (mra : MatchingRuleAssertion) (xs ys : List LDAPAVA) :
    test_mra_dn_avas env op e mra (xs ++ ys)
      = (match test_mra_dn_avas env op e mra xs with
         | some rc => some rc
         | none => test_mra_dn_avas env op e mra ys) := by
  induction xs with
  | nil => rfl
  | cons x xs ih =>
    simp only [List.cons_append, test_mra_dn_avas]
    cases hv : mra_dn_value env op e mra x.la_private with
    | none => simp only []; exact ih
    | some value =>
      simp only []
      by_cases hrc : (if (env.value_match x.la_private mra.ma_rule 0 (MatchValue.bv x.la_value)
            (AssertedValue.bv value)).status = LDAP_SUCCESS
          ∧ (env.value_match x.la_private mra.ma_rule 0 (MatchValue.bv x.la_value)
            (AssertedValue.bv value)).cmp = 0 then LDAP_COMPARE_TRUE
          else (env.value_match x.la_private mra.ma_rule 0 (MatchValue.bv x.la_value)
            (AssertedValue.bv value)).status) ≠ LDAP_SUCCESS
      · rw [if_pos hrc, if_pos hrc]
      · rw [if_neg hrc, if_neg hrc]; exact ih

theorem test_mra_dn_rdns_flatten (env : Env) (op : Option Operation) (e : Entry)
    (mra : MatchingRuleAssertion) (dn : LDAPDN) :
    test_mra_dn_rdns env op e mra dn = test_mra_dn_avas env op e mra dn.flatten := by
  induction dn with
  | nil => rfl
  | cons rdn rest ih =>
    simp only [test_mra_dn_rdns, List.flatten_cons]
    rw [test_mra_dn_avas_append, ih]

theorem mra_dn_value_desc (env : Env) (op : Option Operation) (e : Entry)
    (mra : MatchingRuleAssertion) (desc : AttributeDescription)
    (hdesc : mra.ma_desc = some desc) (ad : AttributeDescription) :
    mra_dn_value env op e mra ad
      = (if env.is_ad_subtype ad desc = false then none else some mra.ma_value) := by
  unfold mra_dn_value
  rw [hdesc]

theorem test_mra_dn_avas_filter (env : Env) (op : Option Operation) (e : Entry)
    (mra : MatchingRuleAssertion) (desc : AttributeDescription)
    (hdesc : mra.ma_desc = some desc) (l : List LDAPAVA) :
    test_mra_dn_avas env op e mra l
      = test_mra_dn_avas env op e mra
          (l.filter (fun x => env.is_ad_subtype x.la_private desc)) := by
  induction l with
  | nil => rfl
  | cons x xs ih =>
    by_cases hs : env.is_ad_subtype x.la_private desc = true
    · simp only [List.filter_cons, hs, if_true, test_mra_dn_avas]
      rw [ih]
    · simp only [List.filter_cons, hs, if_false, test_mra_dn_avas]
      rw [mra_dn_value_desc env op e mra desc hdesc, if_pos (by simpa using hs)]
      exact ih

theorem test_mra_dn_avas_hit (env : Env) (op : Option Operation) (e : Entry)
    (mra : MatchingRuleAssertion) (desc : AttributeDescription)
    (hdesc : mra.ma_desc = some desc) (pre post : List LDAPAVA) (ava : LDAPAVA)
    (hsub : env.is_ad_subtype ava.la_private desc = true)
    (hst : (env.value_match ava.la_private mra.ma_rule 0 (MatchValue.bv ava.la_value)
      (AssertedValue.bv mra.ma_value)).status = LDAP_SUCCESS)
    (hcmp : (env.value_match ava.la_private mra.ma_rule 0 (MatchValue.bv ava.la_value)
      (AssertedValue.bv mra.ma_value)).cmp = 0)
    (hpre : ∀ x ∈ pre, env.is_ad_subtype x.la_private desc = true →
      (env.value_match x.la_private mra.ma_rule 0 (MatchValue.bv x.la_value)
        (AssertedValue.bv mra.ma_value)).status = LDAP_SUCCESS
      ∧ (env.value_match x.la_private mra.ma_rule 0 (MatchValue.bv x.la_value)
        (AssertedValue.bv mra.ma_value)).cmp ≠ 0) :
    test_mra_dn_avas env op e mra (pre ++ ava :: post) = some LDAP_COMPARE_TRUE := by
  induction pre with
  | nil =>
    simp only [List.nil_append, test_mra_dn_avas]
    rw [mra_dn_value_desc env op e mra desc hdesc, if_neg (by rw [hsub]; decide)]
    simp only []
    have hrc : (if (env.value_match ava.la_private mra.ma_rule 0 (MatchValue.bv ava.la_value)
          (AssertedValue.bv mra.ma_value)).status = LDAP_SUCCESS
        ∧ (env.value_match ava.la_private mra.ma_rule 0 (MatchValue.bv ava.la_value)
          (AssertedValue.bv mra.ma_value)).cmp = 0 then LDAP_COMPARE_TRUE
        else (env.value_match ava.la_private mra.ma_rule 0 (MatchValue.bv ava.la_value)
          (AssertedValue.bv mra.ma_value)).status) = LDAP_COMPARE_TRUE := if_pos ⟨hst, hcmp⟩
    rw [hrc, if_pos (by decide)]
  | cons x xs ih =>
    have ih2 := ih (fun y hy => hpre y (List.mem_cons_of_mem _ hy))
    simp only [List.cons_append, test_mra_dn_avas]
    rw [mra_dn_value_desc env op e mra desc hdesc]
    by_cases hs : env.is_ad_subtype x.la_private desc = true
    · rw [if_neg (by rw [hs]; decide)]
      simp only []
      have hx := hpre x (List.mem_cons_self _ _) hs
      have hrc : (if (env.value_match x.la_private mra.ma_rule 0 (MatchValue.bv x.la_value)
            (AssertedValue.bv mra.ma_value)).status = LDAP_SUCCESS
          ∧ (env.value_match x.la_private mra.ma_rule 0 (MatchValue.bv x.la_value)
            (AssertedValue.bv mra.ma_value)).cmp = 0 then LDAP_COMPARE_TRUE
          else (env.value_match x.la_private mra.ma_rule 0 (MatchValue.bv x.la_value)
            (AssertedValue.bv mra.ma_value)).status)
          = (env.value_match x.la_private mra.ma_rule 0 (MatchValue.bv x.la_value)
            (AssertedValue.bv mra.ma_value)).status := if_neg (fun h => hx.2 h.2)
      rw [hrc, if_neg (not_not.mpr hx.1)]
      exact ih2
    · rw [if_pos (by simpa using hs)]
      exact ih2

/-- C16. Extensible dnAttrs match through the DN: for an assertion with a
description `desc` (not entryDN), dnAttrs set and SEARCH access to `desc`
allowed, when the entry stores no attribute whose description is `desc` or a
subtype and the DN parses, if in RDN-major, AVA-minor order there is an AVA
whose description is a subtype of `desc` on which the matcher (rule of the
assertion, AVA value against the asserted value) succeeds with match 0, while
it succeeds with a non-zero match on every earlier AVA whose description is a
subtype of `desc`, then `test_mra_filter` returns TRUE.  AVAs whose description
is not a subtype of `desc` are skipped: the DN scan gives the same result on
the subtype AVAs alone. -/
theorem C16_dnattrs_match (env : Env) (op : Option Operation) (e : Entry)
    (mra : MatchingRuleAssertion) (desc : AttributeDescription)
    (hdesc : mra.ma_desc = some desc)
    (hne : desc ≠ env.slap_schema.si_ad_entryDN)
    (hdn : mra.ma_dnattrs = true)
    (hacc : env.access_allowed op e desc (some mra.ma_value) = true)
    (hnone : ∀ a ∈ e.e_attrs, ¬ is_instance_of env desc a)
    (hparse : (env.dnPrettyDN e.e_name).1 = LDAP_SUCCESS) :
    (∀ (pre post : List LDAPAVA) (ava : LDAPAVA),
        (env.dnPrettyDN e.e_name).2.flatten = pre ++ ava :: post →
        env.is_ad_subtype ava.la_private desc = true →
        (env.value_match ava.la_private mra.ma_rule 0 (MatchValue.bv ava.la_value)
          (AssertedValue.bv mra.ma_value)).status = LDAP_SUCCESS →
        (env.value_match ava.la_private mra.ma_rule 0 (MatchValue.bv ava.la_value)
          (AssertedValue.bv mra.ma_value)).cmp = 0 →
        (∀ x ∈ pre, env.is_ad_subtype x.la_private desc = true →
          (env.value_match x.la_private mra.ma_rule 0 (MatchValue.bv x.la_value)
            (AssertedValue.bv mra.ma_value)).status = LDAP_SUCCESS
          ∧ (env.value_match x.la_private mra.ma_rule 0 (MatchValue.bv x.la_value)
            (AssertedValue.bv mra.ma_value)).cmp ≠ 0) →
        test_mra_filter env op e mra = LDAP_COMPARE_TRUE)
    ∧ (∀ dn : LDAPDN,
        test_mra_dn_rdns env op e mra dn
          = test_mra_dn_avas env op e mra
              (dn.flatten.filter (fun x => env.is_ad_subtype x.la_private desc))) := by
  have hattrs : test_mra_attrs env op e mra = none := by
    rw [test_mra_attrs_desc env op e mra desc hdesc hne hacc]
    have hnil : attrs_find env e.e_attrs desc = [] := by
      apply List.eq_nil_iff_forall_not_mem.mpr
      intro a ha
      have hm := (mem_attrs_find env _ _ a).mp ha
      exact hnone a hm.1 hm.2
    rw [hnil]
    rfl
  constructor
  · intro pre post ava hflat hsub hst hcmp hpre
    unfold test_mra_filter
    rw [hattrs]
    simp only []
    rw [if_pos hdn, if_neg (not_not.mpr hparse), test_mra_dn_rdns_flatten, hflat,
      test_mra_dn_avas_hit env op e mra desc hdesc pre post ava hsub hst hcmp hpre]
  · intro dn
    rw [test_mra_dn_rdns_flatten]
    exact test_mra_dn_avas_filter env op e mra desc hdesc _

/-- C16 at a concrete input: `(cn:dn:=[1])` on an entry that stores `sn` only
and whose DN is `mail=[5]+cn=[1],sn=[7]` is TRUE through the AVA `cn=[1]`. -/
theorem C16_dnattrs_match_witness :
    test_mra_filter dnEnv none snOnlyEntry demoMraCnDn = LDAP_COMPARE_TRUE :=
  (C16_dnattrs_match dnEnv none snOnlyEntry demoMraCnDn adCn rfl (by decide) rfl rfl
    (by
      intro a ha hi
      rcases List.mem_cons.mp ha with h | h
      · subst h
        rcases hi with h1 | h1
        · exact absurd h1 (by decide)
        · exact absurd h1 (by decide)
      · exact absurd h (List.not_mem_nil _))
    rfl).1
    [{ la_private := adMail, la_value := [5] }] [{ la_private := adSn, la_value := [7] }]
    { la_private := adCn, la_value := [1] } rfl rfl rfl rfl
    (by
      intro x hx hs
      rcases List.mem_cons.mp hx with h | h
      · subst h
        exact absurd hs (by decide)
      · exact absurd h (List.not_mem_nil _))

/-! ## Extensible match without a description (C20) -/

theorem first_decisive_ne_success (os : List MatchOutcome) (r : Int)
    (h : first_decisive os = some r) : r ≠ LDAP_SUCCESS := by
  induction os with
  | nil => simp [first_decisive] at h
  | cons o os ih =>
    simp only [first_decisive] at h
    by_cases hs : o.status ≠ LDAP_SUCCESS
    · rw [if_pos hs] at h
      cases h
      exact hs
    · rw [if_neg hs] at h
      by_cases hc : o.cmp = 0
      · rw [if_pos hc] at h
        cases h
        decide
      · rw [if_neg hc] at h
        exact ih h

theorem first_decisive_some (os : List MatchOutcome) (r : Int)
    (h : first_decisive os = some r) :
    r = LDAP_COMPARE_TRUE ∨ ∃ o ∈ os, o.status = r ∧ r ≠ LDAP_SUCCESS := by
  induction os with
  | nil => simp [first_decisive] at h
  | cons o os ih =>
    simp only [first_decisive] at h
    by_cases hs : o.status ≠ LDAP_SUCCESS
    · rw [if_pos hs] at h
      cases h
      exact Or.inr ⟨o, List.mem_cons_self _ _, rfl, hs⟩
    · rw [if_neg hs] at h
      by_cases hc : o.cmp = 0
      · rw [if_pos hc] at h
        cases h
        exact Or.inl rfl
      · rw [if_neg hc] at h
        rcases ih h with h1 | ⟨o2, ho2, h2⟩
        · exact Or.inl h1
        · exact Or.inr ⟨o2, List.mem_cons_of_mem _ ho2, h2⟩

theorem test_mra_all_values_eq (env : Env) (mra : MatchingRuleAssertion) (a : Attribute)
    (value : berval) (bvs : List berval) :
    test_mra_all_values env mra a value LDAP_SUCCESS bvs
      = (first_decisive (bvs.map (fun bv => env.value_match a.a_desc mra.ma_rule 0
          (MatchValue.bv bv) (AssertedValue.bv value)))).getD LDAP_SUCCESS := by
  induction bvs with
  | nil => rfl
  | cons b bs ih =>
    simp only [test_mra_all_values, List.map_cons, first_decisive]
    by_cases hs : (env.value_match a.a_desc mra.ma_rule 0 (MatchValue.bv b)
        (AssertedValue.bv value)).status ≠ LDAP_SUCCESS
    · rw [if_pos hs, if_pos hs]
      rfl
    · rw [if_neg hs, if_neg hs]
      by_cases hc : (env.value_match a.a_desc mra.ma_rule 0 (MatchValue.bv b)
          (AssertedValue.bv value)).cmp = 0
      · rw [if_pos hc, if_pos hc]
        rfl
      · rw [if_neg hc, if_neg hc, not_not.mp hs]
        exact ih

theorem test_mra_all_attrs_eq (env : Env) (op : Option Operation) (e : Entry)
    (mra : MatchingRuleAssertion) (hcomp : mra_component env mra = false)
    (l : List Attribute) :
    test_mra_all_attrs env op e mra l
      = first_decisive ((l.filter (fun a => !(mra_skipped env op e mra a))).flatMap
          (mra_attr_outcomes env mra)) := by
  induction l with
  | nil => rfl
  | cons a rest ih =>
    simp only [test_mra_all_attrs]
    by_cases h1 : env.mr_usable_with_at mra.ma_rule a.a_desc.ad_type = false
    · rw [if_pos h1, ih]
      have hsk : mra_skipped env op e mra a = true := by simp [mra_skipped, h1]
      simp [List.filter_cons, hsk]
    · rw [if_neg h1]
      by_cases h2 : (env.asserted_value_validate_normalize a.a_desc mra.ma_rule
          mra.ma_value).1 ≠ LDAP_SUCCESS
      · rw [if_pos h2, ih]
        have hsk : mra_skipped env op e mra a = true := by simp [mra_skipped, h2]
        simp [List.filter_cons, hsk]
      · rw [if_neg h2]
        by_cases h3 : env.access_allowed op e a.a_desc
            (some (env.asserted_value_validate_normalize a.a_desc mra.ma_rule
              mra.ma_value).2) = false
        · rw [if_pos h3, ih]
          have hsk : mra_skipped env op e mra a = true := by simp [mra_skipped, h3]
          simp [List.filter_cons, hsk]
        · rw [if_neg h3, if_neg (by rw [hcomp]; decide)]
          have hsk : mra_skipped env op e mra a = false := by
            have h1b : env.mr_usable_with_at mra.ma_rule a.a_desc.ad_type = true := by
              simpa using h1
            have h3b : env.access_allowed op e a.a_desc
                (some (env.asserted_value_validate_normalize a.a_desc mra.ma_rule
                  mra.ma_value).2) = true := by simpa using h3
            simp [mra_skipped, h1b, not_not.mp h2, h3b]
          have hflat : ((a :: rest).filter (fun a => !(mra_skipped env op e mra a))).flatMap
                (mra_attr_outcomes env mra)
              = mra_attr_outcomes env mra a
                ++ (rest.filter (fun a => !(mra_skipped env op e mra a))).flatMap
                    (mra_attr_outcomes env mra) := by
            simp [List.filter_cons, hsk]
          rw [hflat, first_decisive_append, not_not.mp h2, test_mra_all_values_eq,
            mra_values_eq, ih]
          have hout : (if a.a_desc.ad_type.sat_equality = some mra.ma_rule then a.a_nvals
                else a.a_vals).map (fun bv => env.value_match a.a_desc mra.ma_rule 0
                  (MatchValue.bv bv) (AssertedValue.bv
                    (env.asserted_value_validate_normalize a.a_desc mra.ma_rule
                      mra.ma_value).2))
              = mra_attr_outcomes env mra a := rfl
          rw [hout]
          cases hfd : first_decisive (mra_attr_outcomes env mra a) with
          | none =>
            simp only [Option.getD_none]
            rw [if_neg (by decide)]
          | some r =>
            simp only [Option.getD_some]
            rw [if_pos (first_decisive_ne_success _ _ hfd)]

theorem test_mra_attrs_all (env : Env) (op : Option Operation) (e : Entry)
    (mra : MatchingRuleAssertion) (hdesc : mra.ma_desc = none)
    (hcomp : mra_component env mra = false) :
    test_mra_attrs env op e mra = first_decisive (mra_all_outcomes env op e mra) := by
  unfold test_mra_attrs
  rw [hdesc]
  simp only []
  rw [test_mra_all_attrs_eq env op e mra hcomp]
  rfl

theorem mra_skipped_congr (env : Env) (op : Option Operation) (e e2 : Entry)
    (mra : MatchingRuleAssertion) (a : Attribute)
    (h : ∀ v, env.access_allowed op e2 a.a_desc v = env.access_allowed op e a.a_desc v) :
    mra_skipped env op e2 mra a = mra_skipped env op e mra a := by
  unfold mra_skipped
  rw [h]

/-- C20 (amended). Extensible match without a description (no component
matching, dnAttrs not set): an attribute is skipped when the rule is not usable
with its type, when normalizing the asserted value for it fails, or when SEARCH
access to it with the normalized value is denied; over the remaining
attributes, in attribute then value order (normalized values if the rule is
the equality rule of the type, raw values otherwise, compared with the
normalized asserted value), the first value on which the matcher reports an
error or match 0 decides, with the status of the matcher on error and TRUE on
match 0, and the result is FALSE if nothing decides.  The result equals the
one obtained on the entry with all skipped attributes removed provided the
access oracle answers for the reduced entry as for the original one on the
attributes that remain.  The result is TRUE, FALSE or a non-success status of
the matcher, so an access denial never produces INSUFFICIENT_ACCESS. -/
theorem C20_extensible_without_desc (env : Env) (op : Option Operation) (e : Entry)
    (mra : MatchingRuleAssertion)
    (hdesc : mra.ma_desc = none)
    (hcomp : mra_component env mra = false)
    (hdn : mra.ma_dnattrs = false) :
    test_mra_filter env op e mra
        = (first_decisive (mra_all_outcomes env op e mra)).getD LDAP_COMPARE_FALSE
    ∧ ((∀ a ∈ e.e_attrs, mra_skipped env op e mra a = false →
          ∀ v, env.access_allowed op (without_skipped env op e mra) a.a_desc v
            = env.access_allowed op e a.a_desc v) →
        test_mra_filter env op (without_skipped env op e mra) mra
          = test_mra_filter env op e mra)
    ∧ (test_mra_filter env op e mra = LDAP_COMPARE_TRUE
        ∨ test_mra_filter env op e mra = LDAP_COMPARE_FALSE
        ∨ ∃ o ∈ mra_all_outcomes env op e mra,
            o.status = test_mra_filter env op e mra
            ∧ test_mra_filter env op e mra ≠ LDAP_SUCCESS) := by
  have hres : ∀ e1 : Entry, test_mra_filter env op e1 mra
      = (first_decisive (mra_all_outcomes env op e1 mra)).getD LDAP_COMPARE_FALSE := by
    intro e1
    unfold test_mra_filter
    rw [test_mra_attrs_all env op e1 mra hdesc hcomp]
    cases hfd : first_decisive (mra_all_outcomes env op e1 mra) with
    | some rc => rfl
    | none =>
      simp only [Option.getD_none]
      rw [if_neg (by rw [hdn]; decide)]
  refine ⟨hres e, ?_, ?_⟩
  · intro hagree
    rw [hres, hres]
    have hout : mra_all_outcomes env op (without_skipped env op e mra) mra
        = mra_all_outcomes env op e mra := by
      unfold mra_all_outcomes
      have hfilter : (without_skipped env op e mra).e_attrs.filter
            (fun a => !(mra_skipped env op (without_skipped env op e mra) mra a))
          = e.e_attrs.filter (fun a => !(mra_skipped env op e mra a)) := by
        show (e.e_attrs.filter (fun a => !(mra_skipped env op e mra a))).filter
            (fun a => !(mra_skipped env op (without_skipped env op e mra) mra a))
          = e.e_attrs.filter (fun a => !(mra_skipped env op e mra a))
        apply List.filter_eq_self.mpr
        intro a ha
        have hm := List.mem_filter.mp ha
        have hk : mra_skipped env op e mra a = false := by simpa using hm.2
        rw [mra_skipped_congr env op e (without_skipped env op e mra) mra a
          (hagree a hm.1 hk), hk]
        rfl
      rw [hfilter]
    rw [hout]
  · rw [hres]
    cases hfd : first_decisive (mra_all_outcomes env op e mra) with
    | none => exact Or.inr (Or.inl rfl)
    | some r =>
      simp only [Option.getD_some]
      rcases first_decisive_some _ _ hfd with h | ⟨o, ho, h1, h2⟩
      · exact Or.inl h
      · exact Or.inr (Or.inr ⟨o, ho, h1, h2⟩)

/-- C20 at a concrete input: with an access oracle that does not look at the
entry, `(:caseIgnoreMatch:=[1])` gives the same result on the sample entry with
`cn` and `seeAlso` and on that entry without the skipped `seeAlso`. -/
theorem C20_extensible_without_desc_witness :
    test_mra_filter demoEnv none (without_skipped demoEnv none seeAlsoEntry demoMraAll)
        demoMraAll
      = test_mra_filter demoEnv none seeAlsoEntry demoMraAll :=
  (C20_extensible_without_desc demoEnv none seeAlsoEntry demoMraAll rfl rfl rfl).2.1
    (fun _ _ _ _ => rfl)

/-- C20 refuted as stated: the access oracle receives the entry.  With an oracle
that allows SEARCH only on entries that store `seeAlso`, the assertion
`(:caseIgnoreMatch:=[1])` (no description, no component matching, dnAttrs not
set) is TRUE on the entry with `cn: [1]` and `seeAlso`, where `seeAlso` is
skipped because the rule is not usable with its type, and FALSE on the same
entry with the skipped attribute removed, where `cn` is denied. -/
theorem C20_counterexample :
    demoMraAll.ma_desc = none
    ∧ mra_component entryAclEnv demoMraAll = false
    ∧ demoMraAll.ma_dnattrs = false
    ∧ test_mra_filter entryAclEnv none seeAlsoEntry demoMraAll = LDAP_COMPARE_TRUE
    ∧ test_mra_filter entryAclEnv none
        (without_skipped entryAclEnv none seeAlsoEntry demoMraAll) demoMraAll
        = LDAP_COMPARE_FALSE
    ∧ test_mra_filter entryAclEnv none
        (without_skipped entryAclEnv none seeAlsoEntry demoMraAll) demoMraAll
        ≠ test_mra_filter entryAclEnv none seeAlsoEntry demoMraAll := by
  refine ⟨rfl, rfl, rfl, by decide, by decide, by decide⟩

/-! ## DN parse failure (C17) -/

theorem test_mra_attrs_dnattrs (env : Env) (op : Option Operation) (e : Entry)
    (mra : MatchingRuleAssertion) (b : Bool) (hcomp : mra_component env mra = false) :
    test_mra_attrs env op e { mra with ma_dnattrs := b } = test_mra_attrs env op e mra := by
  obtain ⟨d, r, dn, v, cf⟩ := mra
  have hcomp2 : mra_component env
      { ma_desc := d, ma_rule := r, ma_dnattrs := b, ma_value := v, ma_cf := cf } = false := hcomp
  cases d with
  | none =>
    rw [test_mra_attrs_all env op e _ rfl hcomp, test_mra_attrs_all env op e _ rfl hcomp2]
    rfl
  | some desc =>
    unfold test_mra_attrs
    simp only []
    rw [test_mra_desc_attrs_eq env _ hcomp, test_mra_desc_attrs_eq env _ hcomp2]

/-- C17. dnAttrs parse failure: when the scan of the stored attributes ends
without returning, an assertion with dnAttrs set whose entry DN the DN utility
fails to parse evaluates to INVALID_SYNTAX, whatever non-success status the
parser reported; with dnAttrs not set the parser outcome is not looked at and
the result is FALSE, in particular for the same assertion with dnAttrs cleared
(no component matching, so that the scan is the same). -/
theorem C17_dn_parse_failure (env : Env) (op : Option Operation) (e : Entry)
    (mra : MatchingRuleAssertion)
    (hscan : test_mra_attrs env op e mra = none) :
    (mra.ma_dnattrs = true → (env.dnPrettyDN e.e_name).1 ≠ LDAP_SUCCESS →
        test_mra_filter env op e mra = LDAP_INVALID_SYNTAX)
    ∧ (mra.ma_dnattrs = false → test_mra_filter env op e mra = LDAP_COMPARE_FALSE)
    ∧ (mra_component env mra = false →
        test_mra_filter env op e { mra with ma_dnattrs := false } = LDAP_COMPARE_FALSE) := by
  refine ⟨?_, ?_, ?_⟩
  · intro hdn hfail
    unfold test_mra_filter
    rw [hscan]
    simp only []
    rw [if_pos hdn, if_pos hfail]
  · intro hdn
    unfold test_mra_filter
    rw [hscan]
    simp only []
    rw [if_neg (by rw [hdn]; decide)]
  · intro hcomp
    unfold test_mra_filter
    rw [test_mra_attrs_dnattrs env op e mra false hcomp, hscan]
    simp only []
    rw [if_neg (by decide)]

/-- C17 at a concrete input: with a DN parser that fails with `LDAP_OTHER`,
`(cn:dn:=[1])` on the entry that stores `sn` only is INVALID_SYNTAX, and the
same assertion without dnAttrs is FALSE. -/
theorem C17_dn_parse_failure_witness :
    test_mra_filter badDnEnv none snOnlyEntry demoMraCnDn = LDAP_INVALID_SYNTAX
    ∧ test_mra_filter badDnEnv none snOnlyEntry { demoMraCnDn with ma_dnattrs := false }
        = LDAP_COMPARE_FALSE :=
  ⟨(C17_dn_parse_failure badDnEnv none snOnlyEntry demoMraCnDn (by decide)).1 rfl (by decide),
   (C17_dn_parse_failure badDnEnv none snOnlyEntry demoMraCnDn (by decide)).2.2 rfl⟩

/-! ## The pending result of the generic attribute assertion (C18) -/

theorem test_ava_values_eq_scan (env : Env) (ava : AttributeAssertion) (type : Int)
    (a : Attribute) (mr : MatchingRule) (rc : Int) (bvs : List berval) :
    test_ava_values env ava type a mr rc bvs
      = scan_values
          (fun bv => env.value_match a.a_desc mr 0 (MatchValue.bv bv)
            (AssertedValue.bv ava.aa_value))
          (ava_hit type) rc bvs := by
  induction bvs with
  | nil => rfl
  | cons b bs ih =>
    simp only [test_ava_values, scan_values, ih]

theorem test_ava_attrs_eq_scan (env : Env) (op : Option Operation) (e : Entry)
    (ava : AttributeAssertion) (type : Int) (l : List Attribute) (rc : Int) :
    test_ava_attrs env op e ava type rc l
      = scan_attrs
          (fun a => decide (ava.aa_desc ≠ a.a_desc
            ∧ env.access_allowed op e a.a_desc (some ava.aa_value) = false))
          (fun a => ava_rule type a.a_desc.ad_type)
          (fun a mr bv => env.value_match a.a_desc mr 0 (MatchValue.bv bv)
            (AssertedValue.bv ava.aa_value))
          (ava_hit type) rc l := by
  induction l generalizing rc with
  | nil => rfl
  | cons a rest ih =>
    simp only [test_ava_attrs, scan_attrs, decide_eq_true_eq]
    by_cases hd : ava.aa_desc ≠ a.a_desc
        ∧ env.access_allowed op e a.a_desc (some ava.aa_value) = false
    · rw [if_pos hd, if_pos hd, ih]
    · rw [if_neg hd, if_neg hd]
      cases hr : ava_rule type a.a_desc.ad_type with
      | none => simp only []; rw [ih]
      | some mr =>
        simp only []
        rw [test_ava_values_eq_scan]
        cases hf : scan_values
            (fun bv => env.value_match a.a_desc mr 0 (MatchValue.bv bv)
              (AssertedValue.bv ava.aa_value))
            (ava_hit type) rc a.a_nvals with
        | ret v => rfl
        | next rc1 => simp only []; rw [ih]

theorem ava_recorded_eq_scan (env : Env) (op : Option Operation) (e : Entry)
    (ava : AttributeAssertion) (K : MatchKind) :
    ava_recorded env op e ava K
      = scan_recorded
          (fun a => decide (ava.aa_desc ≠ a.a_desc
            ∧ env.access_allowed op e a.a_desc (some ava.aa_value) = false))
          (fun a => ava_rule K.tag a.a_desc.ad_type)
          (fun a mr bv => env.value_match a.a_desc mr 0 (MatchValue.bv bv)
            (AssertedValue.bv ava.aa_value)) := by
  funext a
  simp only [ava_recorded, scan_recorded, decide_eq_true_eq, ava_rule_tag]

theorem ava_recorded_none_iff (env : Env) (op : Option Operation) (e : Entry)
    (ava : AttributeAssertion) (K : MatchKind) (a : Attribute) :
    ava_recorded env op e ava K a = none ↔ ava_instance_clean env op e ava K a := by
  unfold ava_recorded ava_instance_clean
  by_cases hd : ava.aa_desc ≠ a.a_desc
      ∧ env.access_allowed op e a.a_desc (some ava.aa_value) = false
  · rw [if_pos hd]
    constructor
    · intro h; cases h
    · rintro ⟨h | h, _⟩
      · exact absurd h.symm hd.1
      · rw [hd.2] at h; cases h
  · rw [if_neg hd]
    have hacc : a.a_desc = ava.aa_desc
        ∨ env.access_allowed op e a.a_desc (some ava.aa_value) = true := by
      by_cases hEq : ava.aa_desc = a.a_desc
      · exact Or.inl hEq.symm
      · right
        cases hv : env.access_allowed op e a.a_desc (some ava.aa_value) with
        | true => rfl
        | false => exact absurd ⟨hEq, hv⟩ hd
    cases hr : kind_rule K a.a_desc.ad_type with
    | none =>
      simp only []
      constructor
      · intro h; cases h
      · rintro ⟨_, mr, hmr, _⟩; cases hmr
    | some mr =>
      simp only []
      rw [first_failure_none_iff]
      constructor
      · intro h; exact ⟨hacc, mr, rfl, h⟩
      · rintro ⟨_, mr2, hmr, h⟩
        cases hmr
        exact h

/-- The pending result of the generic attribute assertion for an arbitrary value
matcher (access to `desc` allowed, `desc` not handled by a special branch):
when the result is not TRUE it is the error recorded by the last instance, in
entry order, that recorded one, and FALSE when no instance recorded an error.
So the result is FALSE when every instance is clean; and when the result is
FALSE, either every instance is clean or the value matcher returned
LDAP_COMPARE_FALSE as its status: for a value matcher that never reports
LDAP_COMPARE_FALSE as its status the equivalence holds.  An instance that
records nothing does not reset the pending error. -/
theorem ava_pending_characterisation (env : Env) (op : Option Operation) (e : Entry)
    (ava : AttributeAssertion) (K : MatchKind)
    (hacc : env.access_allowed op e ava.aa_desc (some ava.aa_value) = true)
    (hhs : ¬ (ava.aa_desc = env.slap_schema.si_ad_hasSubordinates
              ∧ (has_subordinates_hook op).isSome = true))
    (hdn : ava.aa_desc ≠ env.slap_schema.si_ad_entryDN) :
    (test_ava_filter env op e ava K.tag ≠ LDAP_COMPARE_TRUE →
        test_ava_filter env op e ava K.tag
          = last_recorded (ava_recorded env op e ava K) LDAP_COMPARE_FALSE
              (attrs_find env e.e_attrs ava.aa_desc))
    ∧ (test_ava_filter env op e ava K.tag ≠ LDAP_COMPARE_TRUE →
        (∀ a ∈ e.e_attrs, is_instance_of env ava.aa_desc a →
          ava_instance_clean env op e ava K a) →
        test_ava_filter env op e ava K.tag = LDAP_COMPARE_FALSE)
    ∧ (test_ava_filter env op e ava K.tag = LDAP_COMPARE_FALSE →
        (∀ a ∈ e.e_attrs, is_instance_of env ava.aa_desc a →
          ava_instance_clean env op e ava K a)
        ∨ matcher_reported env e ava K LDAP_COMPARE_FALSE)
    ∧ ((∀ ad mr fl v w, (env.value_match ad mr fl v w).status ≠ LDAP_COMPARE_FALSE) →
        test_ava_filter env op e ava K.tag ≠ LDAP_COMPARE_TRUE →
        (test_ava_filter env op e ava K.tag = LDAP_COMPARE_FALSE
          ↔ ∀ a ∈ e.e_attrs, is_instance_of env ava.aa_desc a →
              ava_instance_clean env op e ava K a))
    ∧ (∀ (l : List Attribute) (b : Attribute) (d : Int),
        ava_recorded env op e ava K b = none →
        last_recorded (ava_recorded env op e ava K) d (l ++ [b])
          = last_recorded (ava_recorded env op e ava K) d l) := by
  have hgen : test_ava_filter env op e ava K.tag
      = scan_attrs
          (fun a => decide (ava.aa_desc ≠ a.a_desc
            ∧ env.access_allowed op e a.a_desc (some ava.aa_value) = false))
          (fun a => ava_rule K.tag a.a_desc.ad_type)
          (fun a mr bv => env.value_match a.a_desc mr 0 (MatchValue.bv bv)
            (AssertedValue.bv ava.aa_value))
          (ava_hit K.tag) LDAP_COMPARE_FALSE
          (attrs_find env e.e_attrs ava.aa_desc) := by
    rw [test_ava_filter_generic env op e ava K.tag hacc hhs hdn, test_ava_attrs_eq_scan]
  obtain ⟨_, _, c3, c4, c5⟩ := scan_characterisation
    (fun a => decide (ava.aa_desc ≠ a.a_desc
      ∧ env.access_allowed op e a.a_desc (some ava.aa_value) = false))
    (fun a => ava_rule K.tag a.a_desc.ad_type)
    (fun a mr bv => env.value_match a.a_desc mr 0 (MatchValue.bv bv)
      (AssertedValue.bv ava.aa_value))
    (ava_hit K.tag) (attrs_find env e.e_attrs ava.aa_desc)
  rw [← hgen] at c3 c4 c5
  rw [← ava_recorded_eq_scan env op e ava K] at c3 c4 c5
  have hclean : (∀ a ∈ e.e_attrs, is_instance_of env ava.aa_desc a →
        ava_instance_clean env op e ava K a)
      ↔ ∀ a ∈ attrs_find env e.e_attrs ava.aa_desc, ava_recorded env op e ava K a = none := by
    constructor
    · intro h a ha
      have hm := (mem_attrs_find env _ _ a).mp ha
      exact (ava_recorded_none_iff env op e ava K a).mpr (h a hm.1 hm.2)
    · intro h a ha hi
      exact (ava_recorded_none_iff env op e ava K a).mp
        (h a ((mem_attrs_find env _ _ a).mpr ⟨ha, hi⟩))
  have p2 : test_ava_filter env op e ava K.tag ≠ LDAP_COMPARE_TRUE →
      (∀ a ∈ e.e_attrs, is_instance_of env ava.aa_desc a →
        ava_instance_clean env op e ava K a) →
      test_ava_filter env op e ava K.tag = LDAP_COMPARE_FALSE :=
    fun hne h => c4 hne (hclean.mp h)
  have p3 : test_ava_filter env op e ava K.tag = LDAP_COMPARE_FALSE →
      (∀ a ∈ e.e_attrs, is_instance_of env ava.aa_desc a →
        ava_instance_clean env op e ava K a)
      ∨ matcher_reported env e ava K LDAP_COMPARE_FALSE := by
    intro hF
    rcases c5 hF with h | ⟨a, ha, mr, hmr, bv, hbv, hst⟩
    · exact Or.inl (hclean.mpr h)
    · have hm := (mem_attrs_find env _ _ a).mp ha
      rw [ava_rule_tag] at hmr
      exact Or.inr ⟨a, hm.1, hm.2, mr, hmr, bv, hbv, hst⟩
  refine ⟨c3, p2, p3, ?_, ?_⟩
  · intro hM hne
    constructor
    · intro hF
      rcases p3 hF with h | ⟨a, _, _, mr, _, bv, _, hst⟩
      · exact h
      · exact absurd hst (hM _ _ _ _ _)
    · exact p2 hne
  · intro l b d hb
    simp [last_recorded, List.filterMap_append, hb]

/-- C18. Pending result of the generic attribute assertion: under the
preconditions of the generic branch of `test_ava_filter` (access to `desc`
allowed, `desc` not special) and with a value matcher that keeps its contract
(its status is SUCCESS or an error, never a truth value), when the result is
not TRUE it is FALSE if and only if every attribute instance found for `desc`
is accessible, has the rule required by K, and the value matcher succeeded on
all of its normalized values; and whenever the result is not TRUE it is what
the last instance, in entry order, that recorded an error recorded, where an
instance records INSUFFICIENT_ACCESS if its own description differs from `desc`
and is denied, else INAPPROPRIATE_MATCHING if its type lacks the rule, else the
status of the first value on which the matcher failed (`ava_recorded`).  A
later instance that records nothing, clean but not matching, does not reset the
pending error to FALSE. -/
theorem C18_pending_result (env : Env) (op : Option Operation) (e : Entry)
    (ava : AttributeAssertion) (K : MatchKind)
    (hacc : env.access_allowed op e ava.aa_desc (some ava.aa_value) = true)
    (hhs : ¬ (ava.aa_desc = env.slap_schema.si_ad_hasSubordinates
              ∧ (has_subordinates_hook op).isSome = true))
    (hdn : ava.aa_desc ≠ env.slap_schema.si_ad_entryDN)
    (hM : value_match_contract env) :
    (test_ava_filter env op e ava K.tag ≠ LDAP_COMPARE_TRUE →
        (test_ava_filter env op e ava K.tag = LDAP_COMPARE_FALSE
          ↔ ∀ a ∈ e.e_attrs, is_instance_of env ava.aa_desc a →
              ava_instance_clean env op e ava K a))
    ∧ (test_ava_filter env op e ava K.tag ≠ LDAP_COMPARE_TRUE →
        test_ava_filter env op e ava K.tag
          = last_recorded (ava_recorded env op e ava K) LDAP_COMPARE_FALSE
              (attrs_find env e.e_attrs ava.aa_desc))
    ∧ (∀ (l : List Attribute) (b : Attribute) (d : Int),
        ava_recorded env op e ava K b = none →
        last_recorded (ava_recorded env op e ava K) d (l ++ [b])
          = last_recorded (ava_recorded env op e ava K) d l) :=
  ⟨(ava_pending_characterisation env op e ava K hacc hhs hdn).2.2.2.1
      (fun ad mr fl v w => (hM ad mr fl v w).2),
    (ava_pending_characterisation env op e ava K hacc hhs hdn).1,
    (ava_pending_characterisation env op e ava K hacc hhs hdn).2.2.2.2⟩

/-- C18 at a concrete input: the sample matcher that fails with LDAP_OTHER on
the stored value `[1]` keeps the contract, and `(name=[9])` on the sample entry
is LDAP_OTHER: the instance `cn` records the matcher error on its first value
and the later instance `sn`, clean but not matching, does not reset it. -/
theorem C18_pending_result_witness :
    value_match_contract failOnOneEnv
    ∧ test_ava_filter failOnOneEnv none demoEntry { aa_desc := adName, aa_value := [9] }
        MatchKind.EQUALITY.tag = LDAP_OTHER :=
  ⟨fun _ _ _ v _ => by
      by_cases h : v = MatchValue.bv [1]
      · simp [failOnOneEnv, h, LDAP_OTHER, LDAP_COMPARE_TRUE, LDAP_COMPARE_FALSE]
      · simp [failOnOneEnv, h, LDAP_SUCCESS, LDAP_COMPARE_TRUE, LDAP_COMPARE_FALSE],
    ((C18_pending_result failOnOneEnv none demoEntry { aa_desc := adName, aa_value := [9] }
      MatchKind.EQUALITY rfl (by decide) (by decide)
      (fun _ _ _ v _ => by
        by_cases h : v = MatchValue.bv [1]
        · simp [failOnOneEnv, h, LDAP_OTHER, LDAP_COMPARE_TRUE, LDAP_COMPARE_FALSE]
        · simp [failOnOneEnv, h, LDAP_SUCCESS, LDAP_COMPARE_TRUE,
            LDAP_COMPARE_FALSE])).2.1 (by decide)).trans (by decide)⟩

/-! ## APPROX falls back to EQUALITY (C19) -/

theorem ava_hit_approx (c : Int) :
    ava_hit LDAP_FILTER_APPROX c = ava_hit LDAP_FILTER_EQUALITY c := by
  simp [ava_hit, LDAP_FILTER_APPROX, LDAP_FILTER_EQUALITY]

theorem ava_rule_approx (ty : AttributeType) (h : ty.sat_approx = none) :
    ava_rule LDAP_FILTER_APPROX ty = ava_rule LDAP_FILTER_EQUALITY ty := by
  simp [ava_rule, LDAP_FILTER_APPROX, LDAP_FILTER_EQUALITY, h]

theorem test_ava_values_approx (env : Env) (ava : AttributeAssertion)
    (a : Attribute) (mr : MatchingRule) (rc : Int) (bvs : List berval) :
    test_ava_values env ava LDAP_FILTER_APPROX a mr rc bvs
      = test_ava_values env ava LDAP_FILTER_EQUALITY a mr rc bvs := by
  induction bvs with
  | nil => rfl
  | cons b bs ih =>
    simp only [test_ava_values, ava_hit_approx, ih]

theorem test_ava_attrs_approx (env : Env) (op : Option Operation) (e : Entry)
    (ava : AttributeAssertion) (l : List Attribute) (rc : Int)
    (h : ∀ a ∈ l, a.a_desc.ad_type.sat_approx = none) :
    test_ava_attrs env op e ava LDAP_FILTER_APPROX rc l
      = test_ava_attrs env op e ava LDAP_FILTER_EQUALITY rc l := by
  induction l generalizing rc with
  | nil => rfl
  | cons a rest ih =>
    have hrest : ∀ b ∈ rest, b.a_desc.ad_type.sat_approx = none :=
      fun b hb => h b (List.mem_cons_of_mem _ hb)
    simp only [test_ava_attrs, ava_rule_approx _ (h a (List.mem_cons_self _ _)),
      test_ava_values_approx, ih _ hrest]

/-- C19. APPROX falls back to EQUALITY: when no attribute of the entry that is
`desc` or a subtype of `desc` has an approximate matching rule on its type,
`test_ava_filter` with match kind APPROX returns exactly what it returns with
match kind EQUALITY, for every assertion and operation context, the
hasSubordinates and entryDN branches and every error case included; and an
accessible instance whose type has neither an approx nor an equality rule
records INAPPROPRIATE_MATCHING. -/
theorem C19_approx_fallback (env : Env) (op : Option Operation) (e : Entry)
    (ava : AttributeAssertion)
    (hno : ∀ a ∈ e.e_attrs, is_instance_of env ava.aa_desc a →
      a.a_desc.ad_type.sat_approx = none) :
    test_ava_filter env op e ava LDAP_FILTER_APPROX
        = test_ava_filter env op e ava LDAP_FILTER_EQUALITY
    ∧ (∀ (a : Attribute) (rest : List Attribute) (rc : Int),
        a.a_desc.ad_type.sat_approx = none → a.a_desc.ad_type.sat_equality = none →
        (a.a_desc = ava.aa_desc
          ∨ env.access_allowed op e a.a_desc (some ava.aa_value) = true) →
        test_ava_attrs env op e ava LDAP_FILTER_APPROX rc (a :: rest)
          = test_ava_attrs env op e ava LDAP_FILTER_APPROX LDAP_INAPPROPRIATE_MATCHING rest) := by
  constructor
  · have h1 : ¬ (LDAP_FILTER_APPROX ≠ LDAP_FILTER_EQUALITY
        ∧ LDAP_FILTER_APPROX ≠ LDAP_FILTER_APPROX) := by decide
    have h2 : ¬ (LDAP_FILTER_EQUALITY ≠ LDAP_FILTER_EQUALITY
        ∧ LDAP_FILTER_EQUALITY ≠ LDAP_FILTER_APPROX) := by decide
    have h3 : test_ava_attrs env op e ava LDAP_FILTER_APPROX LDAP_COMPARE_FALSE
          (attrs_find env e.e_attrs ava.aa_desc)
        = test_ava_attrs env op e ava LDAP_FILTER_EQUALITY LDAP_COMPARE_FALSE
          (attrs_find env e.e_attrs ava.aa_desc) := by
      apply test_ava_attrs_approx
      intro a ha
      have hm := (mem_attrs_find env _ _ a).mp ha
      exact hno a hm.1 hm.2
    unfold test_ava_filter
    simp only [if_neg h1, if_neg h2, h3]
  · intro a rest rc ha he hacc
    have hd : ¬ (ava.aa_desc ≠ a.a_desc
        ∧ env.access_allowed op e a.a_desc (some ava.aa_value) = false) := by
      rintro ⟨h1, h2⟩
      rcases hacc with h | h
      · exact h1 h.symm
      · rw [h] at h2; cases h2
    have hr : ava_rule LDAP_FILTER_APPROX a.a_desc.ad_type = none := by
      simp [ava_rule, LDAP_FILTER_APPROX, ha, he]
    simp only [test_ava_attrs]
    rw [if_neg hd, hr]

/-- C19 at a concrete input: the sample types have no approx rule, so `(cn~=[2])`
evaluates like `(cn=[2])` on the sample entry. -/
theorem C19_approx_fallback_witness :
    test_ava_filter demoEnv none demoEntry { aa_desc := adCn, aa_value := [2] }
        LDAP_FILTER_APPROX
      = test_ava_filter demoEnv none demoEntry { aa_desc := adCn, aa_value := [2] }
        LDAP_FILTER_EQUALITY :=
  (C19_approx_fallback demoEnv none demoEntry { aa_desc := adCn, aa_value := [2] }
    (by
      intro a ha _
      rcases List.mem_cons.mp ha with h | h
      · subst h; rfl
      · rcases List.mem_cons.mp h with h2 | h2
        · subst h2; rfl
        · exact absurd h2 (List.not_mem_nil _))).1

/-! ## Matcher errors in the extensible match without a description (C21) -/

theorem first_decisive_none_of_clean (os : List MatchOutcome)
    (h : ∀ o ∈ os, o.status = LDAP_SUCCESS ∧ o.cmp ≠ 0) : first_decisive os = none := by
  induction os with
  | nil => rfl
  | cons o os ih =>
    have ho := h o (List.mem_cons_self _ _)
    simp only [first_decisive]
    rw [if_neg (not_not.mpr ho.1), if_neg ho.2]
    exact ih (fun x hx => h x (List.mem_cons_of_mem _ hx))

theorem first_decisive_first_error (pre post : List MatchOutcome) (o : MatchOutcome)
    (hpre : ∀ p ∈ pre, p.status = LDAP_SUCCESS ∧ p.cmp ≠ 0)
    (ho : o.status ≠ LDAP_SUCCESS) :
    first_decisive (pre ++ o :: post) = some o.status := by
  rw [first_decisive_append, first_decisive_none_of_clean pre hpre]
  simp only [first_decisive]
  rw [if_pos ho]

/-- C21 (amended). Matcher errors in the extensible match without a description
are returned, not swallowed: for an assertion without a description, without
dnAttrs and without component matching, when no value of a non-skipped
attribute matches (the matcher never reports match 0), `test_mra_filter`
returns FALSE if the matcher succeeds on every value, and otherwise it returns
the status of the first value, in attribute then value order, on which the
matcher reports an error: that error ends the whole scan. -/
theorem C21_matcher_errors_returned (env : Env) (op : Option Operation) (e : Entry)
    (mra : MatchingRuleAssertion)
    (hdesc : mra.ma_desc = none)
    (hcomp : mra_component env mra = false)
    (hdn : mra.ma_dnattrs = false)
    (hnomatch : ∀ o ∈ mra_all_outcomes env op e mra, o.cmp ≠ 0) :
    ((∀ o ∈ mra_all_outcomes env op e mra, o.status = LDAP_SUCCESS) →
        test_mra_filter env op e mra = LDAP_COMPARE_FALSE)
    ∧ (∀ (pre post : List MatchOutcome) (o : MatchOutcome),
        mra_all_outcomes env op e mra = pre ++ o :: post →
        (∀ p ∈ pre, p.status = LDAP_SUCCESS) → o.status ≠ LDAP_SUCCESS →
        test_mra_filter env op e mra = o.status) := by
  have hres : test_mra_filter env op e mra
      = (first_decisive (mra_all_outcomes env op e mra)).getD LDAP_COMPARE_FALSE := by
    unfold test_mra_filter
    rw [test_mra_attrs_all env op e mra hdesc hcomp]
    cases hfd : first_decisive (mra_all_outcomes env op e mra) with
    | some rc => rfl
    | none =>
      simp only [Option.getD_none]
      rw [if_neg (by rw [hdn]; decide)]
  constructor
  · intro hall
    rw [hres, first_decisive_none_of_clean _ (fun o ho => ⟨hall o ho, hnomatch o ho⟩)]
    rfl
  · intro pre post o hsplit hpre ho
    rw [hres, hsplit, first_decisive_first_error pre post o ?_ ho]
    · rfl
    · intro p hp
      refine ⟨hpre p hp, hnomatch p ?_⟩
      rw [hsplit]
      exact List.mem_append_left _ hp

/-- C21 at a concrete input: the matcher fails with `LDAP_OTHER` on the value
`[1]` of `cn`, the first value of the sample entry, and never matches; the
assertion `(:caseIgnoreMatch:=[1])` evaluates to `LDAP_OTHER`. -/
theorem C21_matcher_errors_returned_witness :
    test_mra_filter failOnOneEnv none demoEntry demoMraAll = LDAP_OTHER :=
  (C21_matcher_errors_returned failOnOneEnv none demoEntry demoMraAll rfl rfl rfl
    (by decide)).2 []
    [{ status := LDAP_SUCCESS, cmp := 1 }, { status := LDAP_SUCCESS, cmp := 1 }]
    { status := LDAP_OTHER, cmp := 1 } (by decide) (by decide) (by decide)

/-- C21 refuted as stated: for the assertion `(:caseIgnoreMatch:=[1])` (no
description, no dnAttrs) on the sample entry, with a value matcher that never
reports match 0 and reports the error status `LDAP_OTHER`, the result is
`LDAP_OTHER` and not FALSE. -/
theorem C21_counterexample :
    demoMraAll.ma_desc = none
    ∧ demoMraAll.ma_dnattrs = false
    ∧ (∀ ad mr fl v w, (otherStatusEnv.value_match ad mr fl v w).cmp ≠ 0)
    ∧ test_mra_filter otherStatusEnv none demoEntry demoMraAll = LDAP_OTHER
    ∧ test_mra_filter otherStatusEnv none demoEntry demoMraAll ≠ LDAP_COMPARE_FALSE := by
  refine ⟨rfl, rfl, ?_, by decide, by decide⟩
  intro ad mr fl v w
  show (1 : Int) ≠ 0
  decide

/-! ## Component matching in the extensible match without a description (C22) -/

/-- C22, the code at the failing input.  Build with component matching, an
assertion without description with a component filter and a rule that declares
COMPONENT usage, dnAttrs not set, on the entry that stores `cn` only (not
skipped).  When the matcher in component mode succeeds with match 0 the
function returns FALSE, and when it fails with `LDAP_OTHER` the function
returns FALSE as well: the `break` of the component block leaves the attribute
loop and control reaches the final `return LDAP_COMPARE_FALSE`.  The same
assertion with the description `cn` returns TRUE and `LDAP_OTHER` on the same
entry and matcher. -/
theorem C22_component_break :
    mra_component compEnv demoMraComp = true
    ∧ mra_skipped compEnv none cnOnlyEntry demoMraComp
        { a_desc := adCn, a_vals := [[1]], a_nvals := [[1]] } = false
    ∧ test_mra_filter compEnv none cnOnlyEntry demoMraComp = LDAP_COMPARE_FALSE
    ∧ test_mra_filter compFailEnv none cnOnlyEntry demoMraComp = LDAP_COMPARE_FALSE
    ∧ test_mra_filter compEnv none cnOnlyEntry demoMraCompCn = LDAP_COMPARE_TRUE
    ∧ test_mra_filter compFailEnv none cnOnlyEntry demoMraCompCn = LDAP_OTHER := by
  refine ⟨by decide, by decide, by decide, by decide, by decide, by decide⟩

/-! ## Two-valued conservativity (C23) -/

theorem bool_eval_all_iff (env : Env) (op : Option Operation) (e : Entry) (l : List Filter) :
    bool_eval_all env op e l = true ↔ ∀ f ∈ l, bool_eval env op e f = true := by
  induction l with
  | nil => simp [bool_eval_all]
  | cons f fs ih => simp [bool_eval_all, ih]

theorem bool_eval_any_iff (env : Env) (op : Option Operation) (e : Entry) (l : List Filter) :
    bool_eval_any env op e l = true ↔ ∃ f ∈ l, bool_eval env op e f = true := by
  induction l with
  | nil => simp [bool_eval_any]
  | cons f fs ih => simp [bool_eval_any, ih]

theorem bool_eval_leaf (env : Env) (op : Option Operation) (e : Entry) (f : Filter)
    (h : is_leaf f) :
    bool_eval env op e f = decide (test_filter env op e f = LDAP_COMPARE_TRUE) := by
  cases f with
  | AND l => exact absurd h (by simp [is_leaf])
  | OR l => exact absurd h (by simp [is_leaf])
  | NOT g => exact absurd h (by simp [is_leaf])
  | COMPUTED r => rw [bool_eval]
  | EQUALITY a => rw [bool_eval]
  | SUBSTRINGS a => rw [bool_eval]
  | GE a => rw [bool_eval]
  | LE a => rw [bool_eval]
  | PRESENT a => rw [bool_eval]
  | APPROX a => rw [bool_eval]
  | EXT a => rw [bool_eval]
  | UNKNOWN c => rw [bool_eval]

theorem two_valued_result (env : Env) (op : Option Operation) (e : Entry) (f : Filter) :
    TwoValuedLeaves env op e f →
      test_filter env op e f
        = (if bool_eval env op e f = true then LDAP_COMPARE_TRUE else LDAP_COMPARE_FALSE) := by
  revert f
  apply filter_induction
  · intro f hA hO hN h
    have hl : is_leaf f := by
      cases f with
      | AND l => exact absurd rfl (hA l)
      | OR l => exact absurd rfl (hO l)
      | NOT g => exact absurd rfl (hN g)
      | COMPUTED r => trivial
      | EQUALITY a => trivial
      | SUBSTRINGS a => trivial
      | GE a => trivial
      | LE a => trivial
      | PRESENT a => trivial
      | APPROX a => trivial
      | EXT a => trivial
      | UNKNOWN c => trivial
    have hv : test_filter env op e f = LDAP_COMPARE_TRUE
        ∨ test_filter env op e f = LDAP_COMPARE_FALSE := by
      cases h with
      | leaf _ _ hv => exact hv
      | and l _ => exact absurd rfl (hA l)
      | or l _ => exact absurd rfl (hO l)
      | not g _ => exact absurd rfl (hN g)
    rw [bool_eval_leaf env op e f hl]
    rcases hv with hv | hv
    · simp [hv]
    · simp [hv, true_ne_false.symm]
  · intro l ih h
    have hch : ∀ f ∈ l, TwoValuedLeaves env op e f := by
      cases h with
      | leaf _ hl _ => exact absurd hl (by simp [is_leaf])
      | and _ hch => exact hch
    have htv : ∀ r ∈ l.map (test_filter env op e), is_truth_value r := by
      intro r hr
      obtain ⟨f, hf, rfl⟩ := List.mem_map.mp hr
      rw [ih f hf (hch f hf)]
      split
      · exact Or.inl rfl
      · exact Or.inr (Or.inl rfl)
    have hU : SLAPD_COMPARE_UNDEFINED ∉ l.map (test_filter env op e) := by
      intro hr
      obtain ⟨f, hf, hv⟩ := List.mem_map.mp hr
      rw [ih f hf (hch f hf)] at hv
      split at hv
      · exact absurd hv (by decide)
      · exact absurd hv (by decide)
    rw [test_filter_AND, and_fold_kleene _ htv, if_neg hU]
    by_cases hall : bool_eval env op e (Filter.AND l) = true
    · rw [if_pos hall, if_neg]
      intro hr
      obtain ⟨f, hf, hv⟩ := List.mem_map.mp hr
      rw [bool_eval, bool_eval_all_iff] at hall
      rw [ih f hf (hch f hf), if_pos (hall f hf)] at hv
      exact absurd hv (by decide)
    · rw [if_neg hall, if_pos]
      rw [bool_eval, bool_eval_all_iff] at hall
      have hex : ∃ f ∈ l, ¬ bool_eval env op e f = true := by
        by_contra hno
        apply hall
        intro f hf
        by_contra hb
        exact hno ⟨f, hf, hb⟩
      obtain ⟨f, hf, hb⟩ := hex
      apply List.mem_map.mpr
      refine ⟨f, hf, ?_⟩
      rw [ih f hf (hch f hf), if_neg hb]
  · intro l ih h
    have hch : ∀ f ∈ l, TwoValuedLeaves env op e f := by
      cases h with
      | leaf _ hl _ => exact absurd hl (by simp [is_leaf])
      | or _ hch => exact hch
    have htv : ∀ r ∈ l.map (test_filter env op e), is_truth_value r := by
      intro r hr
      obtain ⟨f, hf, rfl⟩ := List.mem_map.mp hr
      rw [ih f hf (hch f hf)]
      split
      · exact Or.inl rfl
      · exact Or.inr (Or.inl rfl)
    have hU : SLAPD_COMPARE_UNDEFINED ∉ l.map (test_filter env op e) := by
      intro hr
      obtain ⟨f, hf, hv⟩ := List.mem_map.mp hr
      rw [ih f hf (hch f hf)] at hv
      split at hv
      · exact absurd hv (by decide)
      · exact absurd hv (by decide)
    rw [test_filter_OR, or_fold_kleene _ htv, if_neg hU]
    by_cases hany : bool_eval env op e (Filter.OR l) = true
    · rw [if_pos hany, if_pos]
      rw [bool_eval, bool_eval_any_iff] at hany
      obtain ⟨f, hf, hb⟩ := hany
      apply List.mem_map.mpr
      refine ⟨f, hf, ?_⟩
      rw [ih f hf (hch f hf), if_pos hb]
    · rw [if_neg hany, if_neg]
      intro hr
      obtain ⟨f, hf, hv⟩ := List.mem_map.mp hr
      rw [bool_eval, bool_eval_any_iff] at hany
      have hb : ¬ bool_eval env op e f = true := fun hb => hany ⟨f, hf, hb⟩
      rw [ih f hf (hch f hf), if_neg hb] at hv
      exact absurd hv (by decide)
  · intro g ih h
    have hch : TwoValuedLeaves env op e g := by
      cases h with
      | leaf _ hl _ => exact absurd hl (by simp [is_leaf])
      | not _ hch => exact hch
    rw [test_filter_NOT, ih hch, bool_eval]
    cases hb : bool_eval env op e g with
    | true => simp
    | false => simp [true_ne_false.symm]

/-- C23. Two-valued conservativity: for every filter tree built from AND, OR and
NOT nodes over leaves of any kind, if every leaf evaluates to TRUE or FALSE
then `test_filter` on the tree returns TRUE or FALSE, and it returns TRUE
exactly when the classical boolean evaluation of the tree over the leaf
outcomes is true, where AND is true when all children are (the empty AND is
true), OR when some child is (the empty OR is false), NOT negates, and a leaf
is true when it evaluates to TRUE. -/
theorem C23_two_valued (env : Env) (op : Option Operation) (e : Entry) (f : Filter)
    (h : TwoValuedLeaves env op e f) :
    (test_filter env op e f = LDAP_COMPARE_TRUE ∨ test_filter env op e f = LDAP_COMPARE_FALSE)
    ∧ (test_filter env op e f = LDAP_COMPARE_TRUE ↔ bool_eval env op e f = true)
    ∧ (∀ l : List Filter, bool_eval env op e (Filter.AND l) = true
          ↔ ∀ g ∈ l, bool_eval env op e g = true)
    ∧ (∀ l : List Filter, bool_eval env op e (Filter.OR l) = true
          ↔ ∃ g ∈ l, bool_eval env op e g = true)
    ∧ (∀ g : Filter, bool_eval env op e (Filter.NOT g) = true
          ↔ ¬ bool_eval env op e g = true)
    ∧ (∀ g : Filter, is_leaf g →
          (bool_eval env op e g = true ↔ test_filter env op e g = LDAP_COMPARE_TRUE))
    ∧ bool_eval env op e (Filter.AND []) = true
    ∧ bool_eval env op e (Filter.OR []) = false := by
  have hr := two_valued_result env op e f h
  refine ⟨?_, ?_, ?_, ?_, ?_, ?_, ?_, ?_⟩
  · rw [hr]
    split
    · exact Or.inl rfl
    · exact Or.inr rfl
  · rw [hr]
    constructor
    · intro hT
      by_contra hb
      rw [if_neg hb] at hT
      exact absurd hT (by decide)
    · intro hb
      rw [if_pos hb]
  · intro l
    rw [bool_eval]
    exact bool_eval_all_iff env op e l
  · intro l
    rw [bool_eval]
    exact bool_eval_any_iff env op e l
  · intro g
    rw [bool_eval]
    cases bool_eval env op e g <;> simp
  · intro g hg
    rw [bool_eval_leaf env op e g hg]
    simp
  · rw [bool_eval, bool_eval_all]
  · rw [bool_eval, bool_eval_any]

/-- C23 at a concrete input: on the sample entry the leaves of
`(&(|(cn=[9])(sn=[7]))(!(mail=*)))` evaluate to FALSE, TRUE and FALSE; the tree
evaluates to TRUE, as its boolean evaluation does. -/
theorem C23_two_valued_witness :
    test_filter demoEnv none demoEntry demoTree = LDAP_COMPARE_TRUE :=
  (C23_two_valued demoEnv none demoEntry demoTree
    (TwoValuedLeaves.and _ (by
      intro f hf
      rcases List.mem_cons.mp hf with h1 | h1
      · subst h1
        refine TwoValuedLeaves.or _ ?_
        intro g hg
        rcases List.mem_cons.mp hg with h2 | h2
        · subst h2
          exact TwoValuedLeaves.leaf _ trivial (Or.inr (by decide))
        · rcases List.mem_cons.mp h2 with h3 | h3
          · subst h3
            exact TwoValuedLeaves.leaf _ trivial (Or.inl (by decide))
          · exact absurd h3 (List.not_mem_nil _)
      · rcases List.mem_cons.mp h1 with h2 | h2
        · subst h2
          exact TwoValuedLeaves.not _
            (TwoValuedLeaves.leaf _ trivial (Or.inr (by decide)))
        · exact absurd h2 (List.not_mem_nil _)))).2.1.mpr (by decide)

/-! ## Nesting of AND and OR (C24) -/

theorem last_other_append (v d : Int) (xs ys : List Int) :
    last_other v d (xs ++ ys) = last_other v (last_other v d xs) ys := by
  induction xs generalizing d with
  | nil => rw [List.nil_append, last_other_nil]
  | cons x xs ih =>
    by_cases hx : x = v
    · subst hx
      rw [List.cons_append, last_other_cons_same, last_other_cons_same]
      exact ih d
    · rw [List.cons_append, last_other_cons_other _ _ _ _ hx, last_other_cons_other _ _ _ _ hx]
      exact ih x

theorem last_other_default (v d : Int) (rs : List Int) :
    last_other v d rs = (if last_other v v rs = v then d else last_other v v rs) := by
  induction rs generalizing d with
  | nil => simp [last_other_nil]
  | cons r rs ih =>
    by_cases hr : r = v
    · subst hr
      rw [last_other_cons_same, last_other_cons_same]
      exact ih d
    · rw [last_other_cons_other _ _ _ _ hr, last_other_cons_other _ _ _ _ hr]
      have hne : last_other v r rs ≠ v := by
        rcases last_other_spec v r rs with ⟨_, h2⟩ | ⟨_, h2⟩
        · rw [h2]; exact hr
        · exact h2
      rw [if_neg hne]

theorem last_other_singleton (v d m : Int) :
    last_other v d [m] = (if m = v then d else m) := by
  by_cases hm : m = v
  · subst hm
    rw [last_other_cons_same, last_other_nil, if_pos rfl]
  · rw [last_other_cons_other _ _ _ _ hm, last_other_nil, if_neg hm]

theorem last_other_ne (v d w : Int) (rs : List Int) (hd : d ≠ w) (h : w ∉ rs) :
    last_other v d rs ≠ w := by
  rcases last_other_spec v d rs with ⟨_, h2⟩ | ⟨h1, _⟩
  · rw [h2]; exact hd
  · intro hEq
    exact h (hEq ▸ h1)

theorem and_fold_nested (xs ys zs : List Int) :
    and_fold LDAP_COMPARE_TRUE (xs ++ [and_fold LDAP_COMPARE_TRUE ys] ++ zs)
      = and_fold LDAP_COMPARE_TRUE (xs ++ ys ++ zs) := by
  by_cases hF : LDAP_COMPARE_FALSE ∈ xs ∨ LDAP_COMPARE_FALSE ∈ ys ∨ LDAP_COMPARE_FALSE ∈ zs
  · have h1 : LDAP_COMPARE_FALSE ∈ xs ++ [and_fold LDAP_COMPARE_TRUE ys] ++ zs := by
      rcases hF with h | h | h
      · exact List.mem_append_left _ (List.mem_append_left _ h)
      · apply List.mem_append_left
        apply List.mem_append_right
        rw [and_fold_false _ _ h]
        exact List.mem_singleton.mpr rfl
      · exact List.mem_append_right _ h
    have h2 : LDAP_COMPARE_FALSE ∈ xs ++ ys ++ zs := by
      rcases hF with h | h | h
      · exact List.mem_append_left _ (List.mem_append_left _ h)
      · exact List.mem_append_left _ (List.mem_append_right _ h)
      · exact List.mem_append_right _ h
    rw [and_fold_false _ _ h1, and_fold_false _ _ h2]
  · have hx : LDAP_COMPARE_FALSE ∉ xs := fun h => hF (Or.inl h)
    have hy : LDAP_COMPARE_FALSE ∉ ys := fun h => hF (Or.inr (Or.inl h))
    have hz : LDAP_COMPARE_FALSE ∉ zs := fun h => hF (Or.inr (Or.inr h))
    have hm : and_fold LDAP_COMPARE_TRUE ys = last_other LDAP_COMPARE_TRUE LDAP_COMPARE_TRUE ys :=
      and_fold_recorded ys _ (fun r hr hEq => hy (hEq ▸ hr))
    have hmF : and_fold LDAP_COMPARE_TRUE ys ≠ LDAP_COMPARE_FALSE := by
      rw [hm]
      exact last_other_ne _ _ _ _ true_ne_false hy
    have hR : and_fold LDAP_COMPARE_TRUE (xs ++ ys ++ zs) = last_other LDAP_COMPARE_TRUE LDAP_COMPARE_TRUE (xs ++ ys ++ zs) := by
      apply and_fold_recorded
      intro r hr hEq
      rcases List.mem_append.mp hr with h | h
      · rcases List.mem_append.mp h with h | h
        · exact hx (hEq ▸ h)
        · exact hy (hEq ▸ h)
      · exact hz (hEq ▸ h)
    have hL : and_fold LDAP_COMPARE_TRUE (xs ++ [and_fold LDAP_COMPARE_TRUE ys] ++ zs)
        = last_other LDAP_COMPARE_TRUE LDAP_COMPARE_TRUE (xs ++ [and_fold LDAP_COMPARE_TRUE ys] ++ zs) := by
      apply and_fold_recorded
      intro r hr hEq
      rcases List.mem_append.mp hr with h | h
      · rcases List.mem_append.mp h with h | h
        · exact hx (hEq ▸ h)
        · exact hmF ((List.mem_singleton.mp h).symm.trans hEq)
      · exact hz (hEq ▸ h)
    rw [hL, hR, last_other_append, last_other_append, last_other_append, last_other_append,
      last_other_singleton, hm,
      last_other_default LDAP_COMPARE_TRUE (last_other LDAP_COMPARE_TRUE LDAP_COMPARE_TRUE xs) ys]

theorem or_fold_nested (xs ys zs : List Int) :
    or_fold LDAP_COMPARE_FALSE (xs ++ [or_fold LDAP_COMPARE_FALSE ys] ++ zs)
      = or_fold LDAP_COMPARE_FALSE (xs ++ ys ++ zs) := by
  by_cases hT : LDAP_COMPARE_TRUE ∈ xs ∨ LDAP_COMPARE_TRUE ∈ ys ∨ LDAP_COMPARE_TRUE ∈ zs
  · have h1 : LDAP_COMPARE_TRUE ∈ xs ++ [or_fold LDAP_COMPARE_FALSE ys] ++ zs := by
      rcases hT with h | h | h
      · exact List.mem_append_left _ (List.mem_append_left _ h)
      · apply List.mem_append_left
        apply List.mem_append_right
        rw [or_fold_true _ _ h]
        exact List.mem_singleton.mpr rfl
      · exact List.mem_append_right _ h
    have h2 : LDAP_COMPARE_TRUE ∈ xs ++ ys ++ zs := by
      rcases hT with h | h | h
      · exact List.mem_append_left _ (List.mem_append_left _ h)
      · exact List.mem_append_left _ (List.mem_append_right _ h)
      · exact List.mem_append_right _ h
    rw [or_fold_true _ _ h1, or_fold_true _ _ h2]
  · have hx : LDAP_COMPARE_TRUE ∉ xs := fun h => hT (Or.inl h)
    have hy : LDAP_COMPARE_TRUE ∉ ys := fun h => hT (Or.inr (Or.inl h))
    have hz : LDAP_COMPARE_TRUE ∉ zs := fun h => hT (Or.inr (Or.inr h))
    have hm : or_fold LDAP_COMPARE_FALSE ys
        = last_other LDAP_COMPARE_FALSE LDAP_COMPARE_FALSE ys :=
      or_fold_recorded ys _ (fun r hr hEq => hy (hEq ▸ hr))
    have hmT : or_fold LDAP_COMPARE_FALSE ys ≠ LDAP_COMPARE_TRUE := by
      rw [hm]
      exact last_other_ne _ _ _ _ true_ne_false.symm hy
    have hR : or_fold LDAP_COMPARE_FALSE (xs ++ ys ++ zs) = last_other LDAP_COMPARE_FALSE LDAP_COMPARE_FALSE (xs ++ ys ++ zs) := by
      apply or_fold_recorded
      intro r hr hEq
      rcases List.mem_append.mp hr with h | h
      · rcases List.mem_append.mp h with h | h
        · exact hx (hEq ▸ h)
        · exact hy (hEq ▸ h)
      · exact hz (hEq ▸ h)
    have hL : or_fold LDAP_COMPARE_FALSE (xs ++ [or_fold LDAP_COMPARE_FALSE ys] ++ zs)
        = last_other LDAP_COMPARE_FALSE LDAP_COMPARE_FALSE (xs ++ [or_fold LDAP_COMPARE_FALSE ys] ++ zs) := by
      apply or_fold_recorded
      intro r hr hEq
      rcases List.mem_append.mp hr with h | h
      · rcases List.mem_append.mp h with h | h
        · exact hx (hEq ▸ h)
        · exact hmT ((List.mem_singleton.mp h).symm.trans hEq)
      · exact hz (hEq ▸ h)
    rw [hL, hR, last_other_append, last_other_append, last_other_append, last_other_append,
      last_other_singleton, hm,
      last_other_default LDAP_COMPARE_FALSE (last_other LDAP_COMPARE_FALSE LDAP_COMPARE_FALSE xs) ys]

/-- C24. Nesting is transparent: for all lists of filters l1, l2, l3 (any of
them possibly empty), `test_filter` on AND(l1 ++ [AND(l2)] ++ l3) equals
`test_filter` on AND(l1 ++ l2 ++ l3), and likewise for OR, whatever the
children evaluate to (UNDEFINED and error codes included); AND([f]) and
OR([f]) evaluate to exactly what f evaluates to. -/
theorem C24_nesting (env : Env) (op : Option Operation) (e : Entry)
    (l1 l2 l3 : List Filter) (f : Filter) :
    test_filter env op e (Filter.AND (l1 ++ [Filter.AND l2] ++ l3))
        = test_filter env op e (Filter.AND (l1 ++ l2 ++ l3))
    ∧ test_filter env op e (Filter.OR (l1 ++ [Filter.OR l2] ++ l3))
        = test_filter env op e (Filter.OR (l1 ++ l2 ++ l3))
    ∧ test_filter env op e (Filter.AND [f]) = test_filter env op e f
    ∧ test_filter env op e (Filter.OR [f]) = test_filter env op e f := by
  refine ⟨?_, ?_, ?_, ?_⟩
  · rw [test_filter_AND, test_filter_AND]
    simp only [List.map_append, List.map_cons, List.map_nil]
    rw [test_filter_AND]
    exact and_fold_nested _ _ _
  · rw [test_filter_OR, test_filter_OR]
    simp only [List.map_append, List.map_cons, List.map_nil]
    rw [test_filter_OR]
    exact or_fold_nested _ _ _
  · rw [test_filter_AND]
    simp only [List.map_cons, List.map_nil, and_fold]
    by_cases h1 : test_filter env op e f = LDAP_COMPARE_FALSE
    · rw [if_pos h1]
    · rw [if_neg h1]
      by_cases h2 : test_filter env op e f = LDAP_COMPARE_TRUE
      · rw [if_neg (not_not.mpr h2), h2]
      · rw [if_pos h2]
  · rw [test_filter_OR]
    simp only [List.map_cons, List.map_nil, or_fold]
    by_cases h1 : test_filter env op e f = LDAP_COMPARE_TRUE
    · rw [if_pos h1]
    · rw [if_neg h1]
      by_cases h2 : test_filter env op e f = LDAP_COMPARE_FALSE
      · rw [if_neg (not_not.mpr h2), h2]
      · rw [if_pos h2]

end Slapd
